import Mathlib

/-!
# Desired-state builder and fingerprint of the ActiveGate capability StatefulSets

A shallow embedding of `controllers/capability/statefulset.go` (the generic
capability builder) and `controllers/capability/kubemon/statefulset.go` (the
Kubernetes-monitoring builder).

Conventions of the embedding:

* Go values are immutable Lean values; a Go function that mutates the manifest
  through a pointer becomes a function returning the new manifest. Where a
  second call reads what a first call left in memory, the memory is passed
  along (`capability.CreateStatefulSetIn`).
* Go `map[string]string` is an association list (`StringMap`), read with
  `StringMap.get?`, where the last binding of a key is the map's value for it.
  A nil map is `none`, an allocated map is `some m`.
* a Go slice is a `List`, the empty list being the nil slice; strings are
  `String` (valid Unicode).
* run-time panics and returned errors are values of `Failure`, carried by
  `Except`.
* declarations of other packages that the two files only use (constants of
  `customproperties`, `dtpullsecret` and `v1alpha1`, the helpers
  `BuildActiveGateImage`, `BuildResources`, `BuildLabels`) are fields of
  `Externals`, over which every definition is parameterised.
-/

set_option autoImplicit false

/-! ## Go maps -/

/-- A Go `map[string]string`: the list of its bindings. -/
abbrev StringMap := List (String × String)

namespace StringMap

/-- Value of `m[k]` with the presence flag: the last binding of `k` wins. -/
def get? : StringMap → String → Option String
  | [], _ => none
  | (k', v) :: rest, k =>
    match get? rest k with
    | some w => some w
    | none => if k' = k then some v else none

/-- Go `m[k]`: the zero value `""` when the key is absent. -/
def get (m : StringMap) (k : String) : String := (m.get? k).getD ""

/-- Go `m[k] = v` on an allocated map. -/
def set (m : StringMap) (k v : String) : StringMap :=
  m.filter (fun e => decide (e.1 ≠ k)) ++ [(k, v)]

/-- Lexicographic order on code points, which is the byte order of the UTF-8
encodings: Go's `<` on strings. -/
def ltChars : List Char → List Char → Bool
  | _, [] => false
  | [], _ :: _ => true
  | a :: as, b :: bs =>
    if a.toNat < b.toNat then true
    else if b.toNat < a.toNat then false
    else ltChars as bs

/-- Go `a < b` on strings. -/
def keyLt (a b : String) : Bool := ltChars a.toList b.toList

/-- Insert a key into a strictly increasing key list. -/
def insertKey (k : String) : List String → List String
  | [] => [k]
  | h :: t => if keyLt k h then k :: h :: t else if k = h then h :: t else h :: insertKey k t

/-- The keys of the map, each once, in increasing order (the order in which
`encoding/json` writes a map). -/
def sortedKeys (m : StringMap) : List String :=
  m.foldr (fun e acc => insertKey e.1 acc) []

end StringMap

/-- Whether a possibly nil Go map has no binding: the emptiness test of `omitempty`. -/
def mapIsEmpty : Option StringMap → Bool
  | none => true
  | some m => m.isEmpty

/-! ## Failures -/

/-- How a call can end other than by returning its value. -/
inductive Failure where
  /-- a returned Go `error` value -/
  | error (msg : String)
  /-- run-time panic: dereference of a nil pointer -/
  | nilPointerDereference
  /-- run-time panic: assignment to an entry of a nil map -/
  | nilMapAssignment
  deriving DecidableEq, Repr

/-! ## Kubernetes API types (the fields the builders write) -/

namespace intstr

/-- `intstr.IntOrString`; `Typ` is its field `Type`: 0 is `Int`, 1 is `String`. -/
structure IntOrString where
  Typ : Nat := 0
  IntVal : Int := 0
  StrVal : String := ""
  deriving DecidableEq, Repr

end intstr

namespace metav1

/-- `metav1.ObjectMeta`. -/
structure ObjectMeta where
  Name : String := ""
  Namespace : String := ""
  ResourceVersion : String := ""
  Labels : Option StringMap := none
  Annotations : Option StringMap := none
  deriving DecidableEq, Repr

/-- `metav1.LabelSelector`. -/
structure LabelSelector where
  MatchLabels : Option StringMap := none
  deriving DecidableEq, Repr

end metav1

namespace corev1

/-- `corev1.ObjectFieldSelector`. -/
structure ObjectFieldSelector where
  APIVersion : String := ""
  FieldPath : String := ""
  deriving DecidableEq, Repr

/-- `corev1.ResourceFieldSelector`; the divisor is kept in its canonical text. -/
structure ResourceFieldSelector where
  ContainerName : String := ""
  Resource : String := ""
  Divisor : String := "0"
  deriving DecidableEq, Repr

/-- `corev1.ConfigMapKeySelector` and `corev1.SecretKeySelector`. -/
structure KeySelector where
  Name : String := ""
  Key : String := ""
  Optional : Option Bool := none
  deriving DecidableEq, Repr

/-- `corev1.EnvVarSource`. -/
structure EnvVarSource where
  FieldRef : Option ObjectFieldSelector := none
  ResourceFieldRef : Option ResourceFieldSelector := none
  ConfigMapKeyRef : Option KeySelector := none
  SecretKeyRef : Option KeySelector := none
  deriving DecidableEq, Repr

/-- `corev1.EnvVar`. -/
structure EnvVar where
  Name : String := ""
  Value : String := ""
  ValueFrom : Option EnvVarSource := none
  deriving DecidableEq, Repr

/-- `corev1.ResourceRequirements`; quantities are kept in their canonical text. -/
structure ResourceRequirements where
  Limits : Option StringMap := none
  Requests : Option StringMap := none
  deriving DecidableEq, Repr

/-- `corev1.VolumeMount`. -/
structure VolumeMount where
  Name : String := ""
  ReadOnly : Bool := false
  MountPath : String := ""
  SubPath : String := ""
  deriving DecidableEq, Repr

/-- `corev1.HTTPGetAction`. -/
structure HTTPGetAction where
  Path : String := ""
  Port : intstr.IntOrString := {}
  Host : String := ""
  Scheme : String := ""
  deriving DecidableEq, Repr

/-- `corev1.Handler`. -/
structure Handler where
  HTTPGet : Option HTTPGetAction := none
  deriving DecidableEq, Repr

/-- `corev1.Probe`. -/
structure Probe where
  Handler : Handler := {}
  InitialDelaySeconds : Int := 0
  TimeoutSeconds : Int := 0
  PeriodSeconds : Int := 0
  SuccessThreshold : Int := 0
  FailureThreshold : Int := 0
  deriving DecidableEq, Repr

/-- `corev1.Container`. -/
structure Container where
  Name : String := ""
  Image : String := ""
  Args : List String := []
  Env : List EnvVar := []
  Resources : ResourceRequirements := {}
  VolumeMounts : List VolumeMount := []
  LivenessProbe : Option Probe := none
  ReadinessProbe : Option Probe := none
  ImagePullPolicy : String := ""
  deriving DecidableEq, Repr

/-- `corev1.KeyToPath`. -/
structure KeyToPath where
  Key : String := ""
  Path : String := ""
  Mode : Option Int := none
  deriving DecidableEq, Repr

/-- `corev1.SecretVolumeSource`. -/
structure SecretVolumeSource where
  SecretName : String := ""
  Items : List KeyToPath := []
  DefaultMode : Option Int := none
  Optional : Option Bool := none
  deriving DecidableEq, Repr

/-- `corev1.VolumeSource`. -/
structure VolumeSource where
  Secret : Option SecretVolumeSource := none
  deriving DecidableEq, Repr

/-- `corev1.Volume`. -/
structure Volume where
  Name : String := ""
  VolumeSource : VolumeSource := {}
  deriving DecidableEq, Repr

/-- `corev1.NodeSelectorRequirement`. -/
structure NodeSelectorRequirement where
  Key : String := ""
  Operator : String := ""
  Values : List String := []
  deriving DecidableEq, Repr

/-- `corev1.NodeSelectorTerm`. -/
structure NodeSelectorTerm where
  MatchExpressions : List NodeSelectorRequirement := []
  MatchFields : List NodeSelectorRequirement := []
  deriving DecidableEq, Repr

/-- `corev1.NodeSelector`. -/
structure NodeSelector where
  NodeSelectorTerms : List NodeSelectorTerm := []
  deriving DecidableEq, Repr

/-- `corev1.NodeAffinity`. -/
structure NodeAffinity where
  RequiredDuringSchedulingIgnoredDuringExecution : Option NodeSelector := none
  deriving DecidableEq, Repr

/-- `corev1.Affinity`. -/
structure Affinity where
  NodeAffinity : Option NodeAffinity := none
  deriving DecidableEq, Repr

/-- `corev1.Toleration`. -/
structure Toleration where
  Key : String := ""
  Operator : String := ""
  Value : String := ""
  Effect : String := ""
  TolerationSeconds : Option Int := none
  deriving DecidableEq, Repr

/-- `corev1.LocalObjectReference`. -/
structure LocalObjectReference where
  Name : String := ""
  deriving DecidableEq, Repr

/-- `corev1.PodSpec`. -/
structure PodSpec where
  Volumes : List Volume := []
  Containers : List Container := []
  NodeSelector : Option StringMap := none
  ServiceAccountName : String := ""
  ImagePullSecrets : List LocalObjectReference := []
  Affinity : Option Affinity := none
  Tolerations : List Toleration := []
  deriving DecidableEq, Repr

/-- `corev1.PodTemplateSpec`. -/
structure PodTemplateSpec where
  ObjectMeta : metav1.ObjectMeta := {}
  Spec : PodSpec := {}
  deriving DecidableEq, Repr

end corev1

namespace appsv1

/-- `appsv1.StatefulSetSpec`. -/
structure StatefulSetSpec where
  Replicas : Option Int := none
  Selector : Option metav1.LabelSelector := none
  Template : corev1.PodTemplateSpec := {}
  ServiceName : String := ""
  PodManagementPolicy : String := ""
  deriving DecidableEq, Repr

/-- `appsv1.StatefulSet` (its status is never written by the builders and
keeps its zero value). -/
structure StatefulSet where
  Kind : String := ""
  APIVersion : String := ""
  ObjectMeta : metav1.ObjectMeta := {}
  Spec : StatefulSetSpec := {}
  deriving DecidableEq, Repr

/-- `appsv1.ParallelPodManagement`. -/
def ParallelPodManagement : String := "Parallel"

end appsv1

namespace corev1

/-- `corev1.PullAlways`. -/
def PullAlways : String := "Always"

/-- `corev1.NodeSelectorOpIn`. -/
def NodeSelectorOpIn : String := "In"

end corev1

/-! ## `encoding/json` over the API types

`json.Marshal` writes a struct's fields in declaration order under the names of
their `json` tags, leaves out a field tagged `omitempty` when it is the zero
value of a string, number, bool, pointer, slice or map, writes map keys in
increasing order, and escapes strings as HTML-safe JSON. A nil slice without
`omitempty` is written `null`. -/

namespace json

/-- Lower-case hexadecimal digit. -/
def hexDigit (n : Nat) : Char :=
  if n < 10 then Char.ofNat (48 + n) else Char.ofNat (87 + n)

/-- Escape of one character inside a JSON string (`escapeHTML` on). -/
def escapeChar (c : Char) : String :=
  if c.toNat = 34 then "\\\""
  else if c.toNat = 92 then "\\\\"
  else if c.toNat = 10 then "\\n"
  else if c.toNat = 13 then "\\r"
  else if c.toNat = 9 then "\\t"
  else if c.toNat < 32 ∨ c.toNat = 60 ∨ c.toNat = 62 ∨ c.toNat = 38 then
    "\\u00" ++ String.singleton (hexDigit (c.toNat / 16))
      ++ String.singleton (hexDigit (c.toNat % 16))
  else if c.toNat = 8232 then "\\u2028"
  else if c.toNat = 8233 then "\\u2029"
  else String.singleton c

/-- A JSON string literal. -/
def quote (s : String) : String :=
  "\"" ++ String.join (s.toList.map escapeChar) ++ "\""

/-- A JSON object from its members, absent members left out. -/
def object (members : List (Option String)) : String :=
  "\x7b" ++ ",".intercalate (members.filterMap id) ++ "\x7d"

/-- A JSON array; a nil slice is `null`. A list stands for a nil or a non-empty
slice: the empty list is the nil slice, and an empty slice that is not nil
(written `[]`), which none of the builders makes, has no counterpart. -/
def array (items : List String) : String :=
  if items.isEmpty then "null" else "[" ++ ",".intercalate items ++ "]"

/-- Member written whatever its value. -/
def member (key value : String) : Option String :=
  some (quote key ++ ":" ++ value)

/-- String member. -/
def str (key s : String) : Option String := member key (quote s)

/-- String member tagged `omitempty`. -/
def strOmit (key s : String) : Option String :=
  if s = "" then none else str key s

/-- Integer member tagged `omitempty`. -/
def intOmit (key : String) (i : Int) : Option String :=
  if i = 0 then none else member key (toString i)

/-- Pointer-to-integer member tagged `omitempty`. -/
def intPtrOmit (key : String) (i : Option Int) : Option String :=
  i.bind fun v => member key (toString v)

/-- Pointer-to-bool member tagged `omitempty`. -/
def boolPtrOmit (key : String) (b : Option Bool) : Option String :=
  b.bind fun v => member key (if v then "true" else "false")

/-- Slice member tagged `omitempty`. -/
def listOmit (key : String) (items : List String) : Option String :=
  if items.isEmpty then none else member key (array items)

/-- A `map[string]string` value: keys in increasing order. -/
def stringMap (m : StringMap) : String :=
  object ((StringMap.sortedKeys m).map fun k => str k (m.get k))

/-- Map member tagged `omitempty`. -/
def mapOmit (key : String) (m : Option StringMap) : Option String :=
  if mapIsEmpty m then none else member key (stringMap (m.getD []))

/-- Serialization of `metav1.ObjectMeta`. -/
def objectMeta (m : metav1.ObjectMeta) : String :=
  object [strOmit "name" m.Name, strOmit "namespace" m.Namespace,
    strOmit "resourceVersion" m.ResourceVersion, member "creationTimestamp" "null",
    mapOmit "labels" m.Labels, mapOmit "annotations" m.Annotations]

/-- Serialization of `metav1.LabelSelector`. -/
def labelSelector (s : metav1.LabelSelector) : String :=
  object [mapOmit "matchLabels" s.MatchLabels]

/-- Serialization of `corev1.ConfigMapKeySelector` and `corev1.SecretKeySelector`. -/
def keySelector (s : corev1.KeySelector) : String :=
  object [strOmit "name" s.Name, str "key" s.Key, boolPtrOmit "optional" s.Optional]

/-- Serialization of `corev1.EnvVarSource`. -/
def envVarSource (s : corev1.EnvVarSource) : String :=
  object [
    s.FieldRef.bind (fun f => member "fieldRef"
      (object [strOmit "apiVersion" f.APIVersion, str "fieldPath" f.FieldPath])),
    s.ResourceFieldRef.bind (fun f => member "resourceFieldRef"
      (object [strOmit "containerName" f.ContainerName, str "resource" f.Resource,
        str "divisor" f.Divisor])),
    s.ConfigMapKeyRef.bind (fun f => member "configMapKeyRef" (keySelector f)),
    s.SecretKeyRef.bind (fun f => member "secretKeyRef" (keySelector f))]

/-- Serialization of `corev1.EnvVar`. -/
def envVar (e : corev1.EnvVar) : String :=
  object [str "name" e.Name, strOmit "value" e.Value,
    e.ValueFrom.bind (fun s => member "valueFrom" (envVarSource s))]

/-- Serialization of `corev1.ResourceRequirements`. -/
def resourceRequirements (r : corev1.ResourceRequirements) : String :=
  object [mapOmit "limits" r.Limits, mapOmit "requests" r.Requests]

/-- Serialization of `corev1.VolumeMount`. -/
def volumeMount (v : corev1.VolumeMount) : String :=
  object [str "name" v.Name, if v.ReadOnly then member "readOnly" "true" else none,
    str "mountPath" v.MountPath, strOmit "subPath" v.SubPath]

/-- `IntOrString.MarshalJSON`: fails on a type tag that is neither `Int` nor `String`. -/
def intOrString (v : intstr.IntOrString) : Except Failure String :=
  if v.Typ = 0 then .ok (toString v.IntVal)
  else if v.Typ = 1 then .ok (quote v.StrVal)
  else .error (.error
    "json: error calling MarshalJSON for type intstr.IntOrString: impossible IntOrString.Type")

/-- Serialization of `corev1.HTTPGetAction`. -/
def httpGetAction (a : corev1.HTTPGetAction) : Except Failure String := do
  let port ← intOrString a.Port
  pure (object [strOmit "path" a.Path, member "port" port, strOmit "host" a.Host,
    strOmit "scheme" a.Scheme])

/-- Serialization of `corev1.Probe` (the handler is inlined). -/
def probe (p : corev1.Probe) : Except Failure String := do
  let httpGet ← match p.Handler.HTTPGet with
    | none => pure none
    | some a => do
      let s ← httpGetAction a
      pure (member "httpGet" s)
  pure (object [httpGet, intOmit "initialDelaySeconds" p.InitialDelaySeconds,
    intOmit "timeoutSeconds" p.TimeoutSeconds, intOmit "periodSeconds" p.PeriodSeconds,
    intOmit "successThreshold" p.SuccessThreshold,
    intOmit "failureThreshold" p.FailureThreshold])

/-- Serialization of an optional probe member. -/
def probeOmit (key : String) : Option corev1.Probe → Except Failure (Option String)
  | none => pure none
  | some p => do
    let s ← probe p
    pure (member key s)

/-- Serialization of `corev1.Container`. -/
def container (c : corev1.Container) : Except Failure String := do
  let liveness ← probeOmit "livenessProbe" c.LivenessProbe
  let readiness ← probeOmit "readinessProbe" c.ReadinessProbe
  pure (object [str "name" c.Name, strOmit "image" c.Image,
    listOmit "args" (c.Args.map quote), listOmit "env" (c.Env.map envVar),
    member "resources" (resourceRequirements c.Resources),
    listOmit "volumeMounts" (c.VolumeMounts.map volumeMount),
    liveness, readiness, strOmit "imagePullPolicy" c.ImagePullPolicy])

/-- Serialization of `corev1.KeyToPath`. -/
def keyToPath (k : corev1.KeyToPath) : String :=
  object [str "key" k.Key, str "path" k.Path, intPtrOmit "mode" k.Mode]

/-- Serialization of `corev1.Volume` (the volume source is inlined). -/
def volume (v : corev1.Volume) : String :=
  object [str "name" v.Name,
    v.VolumeSource.Secret.bind (fun s => member "secret"
      (object [strOmit "secretName" s.SecretName, listOmit "items" (s.Items.map keyToPath),
        intPtrOmit "defaultMode" s.DefaultMode, boolPtrOmit "optional" s.Optional]))]

/-- Serialization of `corev1.NodeSelectorRequirement`. -/
def nodeSelectorRequirement (r : corev1.NodeSelectorRequirement) : String :=
  object [str "key" r.Key, str "operator" r.Operator, listOmit "values" (r.Values.map quote)]

/-- Serialization of `corev1.NodeSelectorTerm`. -/
def nodeSelectorTerm (t : corev1.NodeSelectorTerm) : String :=
  object [listOmit "matchExpressions" (t.MatchExpressions.map nodeSelectorRequirement),
    listOmit "matchFields" (t.MatchFields.map nodeSelectorRequirement)]

/-- Serialization of `corev1.Affinity`. -/
def affinity (a : corev1.Affinity) : String :=
  object [a.NodeAffinity.bind (fun n => member "nodeAffinity"
    (object [n.RequiredDuringSchedulingIgnoredDuringExecution.bind (fun s =>
      member "requiredDuringSchedulingIgnoredDuringExecution"
        (object [member "nodeSelectorTerms"
          (array (s.NodeSelectorTerms.map nodeSelectorTerm))]))]))]

/-- Serialization of `corev1.Toleration`. -/
def toleration (t : corev1.Toleration) : String :=
  object [strOmit "key" t.Key, strOmit "operator" t.Operator, strOmit "value" t.Value,
    strOmit "effect" t.Effect, intPtrOmit "tolerationSeconds" t.TolerationSeconds]

/-- Serialization of a list whose elements can fail. -/
def mapM {α : Type} (f : α → Except Failure String) : List α → Except Failure (List String)
  | [] => pure []
  | a :: rest => do
    let s ← f a
    let ss ← mapM f rest
    pure (s :: ss)

/-- Serialization of `corev1.PodSpec`. -/
def podSpec (s : corev1.PodSpec) : Except Failure String := do
  let containers ← mapM container s.Containers
  pure (object [listOmit "volumes" (s.Volumes.map volume),
    member "containers" (array containers), mapOmit "nodeSelector" s.NodeSelector,
    strOmit "serviceAccountName" s.ServiceAccountName,
    listOmit "imagePullSecrets"
      (s.ImagePullSecrets.map fun r => object [strOmit "name" r.Name]),
    s.Affinity.bind (fun a => member "affinity" (affinity a)),
    listOmit "tolerations" (s.Tolerations.map toleration)])

/-- Serialization of the `selector` pointer, which has no `omitempty`: `null`
when nil. -/
def selectorPtr : Option metav1.LabelSelector → String
  | none => "null"
  | some sel => labelSelector sel

/-- Serialization of `appsv1.StatefulSetSpec`. -/
def statefulSetSpec (s : appsv1.StatefulSetSpec) : Except Failure String := do
  let pod ← podSpec s.Template.Spec
  pure (object [intPtrOmit "replicas" s.Replicas,
    member "selector" (selectorPtr s.Selector),
    member "template"
      (object [member "metadata" (objectMeta s.Template.ObjectMeta), member "spec" pod]),
    str "serviceName" s.ServiceName, strOmit "podManagementPolicy" s.PodManagementPolicy,
    member "updateStrategy" (object [])])

/-- Go `json.Marshal(sts)` for a `*appsv1.StatefulSet`. -/
def Marshal (sts : appsv1.StatefulSet) : Except Failure String := do
  let spec ← statefulSetSpec sts.Spec
  pure (object [strOmit "kind" sts.Kind, strOmit "apiVersion" sts.APIVersion,
    member "metadata" (objectMeta sts.ObjectMeta), member "spec" spec,
    member "status" (object [member "replicas" "0"])])

end json

/-! ## `hash/fnv` and `strconv` -/

/-- UTF-8 encoding of one character, as byte values. -/
def utf8EncodeChar (c : Char) : List Nat :=
  let n := c.toNat
  if n < 128 then [n]
  else if n < 2048 then [192 + n / 64, 128 + n % 64]
  else if n < 65536 then [224 + n / 4096, 128 + (n / 64) % 64, 128 + n % 64]
  else [240 + n / 262144, 128 + (n / 4096) % 64, 128 + (n / 64) % 64, 128 + n % 64]

/-- The bytes of a Go string. -/
def stringBytes (s : String) : List Nat := s.toList.flatMap utf8EncodeChar

namespace fnv

/-- FNV 32-bit offset basis. -/
def offset32 : Nat := 2166136261

/-- FNV 32-bit prime. -/
def prime32 : Nat := 16777619

/-- One step of `(*sum32).Write`: multiply, then xor the byte in. -/
def step32 (hash byte : Nat) : Nat := ((hash * prime32) % 2 ^ 32) ^^^ byte

/-- The value of `Sum32` after `New32()` and a `Write` of the bytes. -/
def sum32 (data : List Nat) : Nat := data.foldl step32 offset32

end fnv

namespace strconv

/-- Go `strconv.FormatUint(n, 10)`. -/
def FormatUint (n : Nat) : String := Nat.repr n

end strconv

/-! ## The DynaKube API types (package `api/v1alpha1`), as the builders read them -/

namespace v1alpha1

/-- `v1alpha1.DynaKubeProxy`. -/
structure DynaKubeProxy where
  Value : String := ""
  ValueFrom : String := ""
  deriving DecidableEq, Repr

/-- `v1alpha1.DynaKubeValueSource`. -/
structure DynaKubeValueSource where
  Value : String := ""
  ValueFrom : String := ""
  deriving DecidableEq, Repr

/-- `v1alpha1.CapabilityProperties`. -/
structure CapabilityProperties where
  Enabled : Bool := false
  Replicas : Option Int := none
  Group : String := ""
  CustomProperties : Option DynaKubeValueSource := none
  Resources : corev1.ResourceRequirements := {}
  NodeSelector : Option StringMap := none
  Tolerations : List corev1.Toleration := []
  Labels : Option StringMap := none
  Args : List String := []
  Env : List corev1.EnvVar := []
  ServiceAccountName : String := ""
  deriving DecidableEq, Repr

/-- `v1alpha1.KubernetesMonitoringSpec`, which embeds the capability properties. -/
structure KubernetesMonitoringSpec where
  CapabilityProperties : CapabilityProperties := {}
  deriving DecidableEq, Repr

/-- `v1alpha1.RoutingSpec`, which embeds the capability properties. -/
structure RoutingSpec where
  CapabilityProperties : CapabilityProperties := {}
  deriving DecidableEq, Repr

/-- `v1alpha1.DynaKubeSpec`. -/
structure DynaKubeSpec where
  APIURL : String := ""
  NetworkZone : String := ""
  Proxy : Option DynaKubeProxy := none
  KubernetesMonitoringSpec : KubernetesMonitoringSpec := {}
  RoutingSpec : RoutingSpec := {}
  deriving DecidableEq, Repr

/-- `v1alpha1.ActiveGateStatus`: the resolved image version and digest. -/
structure ActiveGateStatus where
  ImageHash : String := ""
  ImageVersion : String := ""
  deriving DecidableEq, Repr

/-- `v1alpha1.DynaKubeStatus`. -/
structure DynaKubeStatus where
  ActiveGate : ActiveGateStatus := {}
  deriving DecidableEq, Repr

/-- `v1alpha1.DynaKube`; `Name`, `Namespace` and `Labels` are the promoted
fields of its embedded `ObjectMeta`. -/
structure DynaKube where
  Name : String := ""
  Namespace : String := ""
  Labels : Option StringMap := none
  Spec : DynaKubeSpec := {}
  Status : DynaKubeStatus := {}
  deriving DecidableEq, Repr

end v1alpha1

/-! ## Declarations of other packages -/

/-- What the two source files use from files outside them: constants of
`customproperties`, `dtpullsecret` and `v1alpha1`, helper functions of
`utils` and of the two packages, and the annotation keys of `kubemon`. -/
structure Externals where
  /-- `v1alpha1.OperatorName` -/
  OperatorName : String
  /-- `dtpullsecret.PullSecretSuffix` -/
  PullSecretSuffix : String
  /-- `customproperties.VolumeName` -/
  VolumeName : String
  /-- `customproperties.DataKey` -/
  DataKey : String
  /-- `customproperties.DataPath` -/
  DataPath : String
  /-- `customproperties.MountPath` -/
  MountPath : String
  /-- `customproperties.Suffix` -/
  Suffix : String
  /-- `utils.BuildActiveGateImage` -/
  BuildActiveGateImage : v1alpha1.DynaKube → String
  /-- `capability.BuildResources` -/
  BuildResources : v1alpha1.DynaKube → corev1.ResourceRequirements
  /-- `capability.BuildLabels` -/
  BuildLabels : v1alpha1.DynaKube → v1alpha1.CapabilityProperties → Option StringMap
  /-- `kubemon.buildResources` -/
  kubemonBuildResources : v1alpha1.DynaKube → corev1.ResourceRequirements
  /-- `kubemon.annotationTemplateHash` -/
  kubemonAnnotationTemplateHash : String
  /-- `kubemon.annotationImageHash` -/
  kubemonAnnotationImageHash : String
  /-- `kubemon.annotationImageVersion` -/
  kubemonAnnotationImageVersion : String
  /-- `kubemon.annotationCustomPropsHash` -/
  kubemonAnnotationCustomPropsHash : String

/-! ## Label helpers

`MergeLabels` and `BuildLabelsFromInstance` are declared in
`kubemon/statefulset.go`; the generic builder calls the functions of the same
names of its own package, which are read here as the same functions. -/

/-- `BuildLabelsFromInstance` (kubemon/statefulset.go:276). -/
def BuildLabelsFromInstance (dynakube : v1alpha1.DynaKube) : Option StringMap :=
  some [("dynatrace", "activegate"), ("activegate", dynakube.Name)]

/-- `MergeLabels` (kubemon/statefulset.go:283): a fresh map into which every
binding of every argument is written, in argument order; ranging over a nil map
visits nothing. -/
def MergeLabels (labels : List (Option StringMap)) : Option StringMap :=
  some (labels.foldl
    (fun res m => (m.getD []).foldl (fun res e => StringMap.set res e.1 e.2) res) [])

/-! ## The generic capability builder (`controllers/capability/statefulset.go`) -/

namespace capability

def serviceAccountPrefix : String := "dynatrace-"

def kubernetesArch : String := "kubernetes.io/arch"
def kubernetesOS : String := "kubernetes.io/os"
def kubernetesBetaArch : String := "beta.kubernetes.io/arch"
def kubernetesBetaOS : String := "beta.kubernetes.io/os"

def amd64 : String := "amd64"
def arm64 : String := "arm64"
def linux : String := "linux"

def annotationTemplateHash : String := "internal.operator.dynatrace.com/template-hash"
def annotationImageHash : String := "internal.operator.dynatrace.com/image-hash"
def annotationImageVersion : String := "internal.operator.dynatrace.com/image-version"
def annotationCustomPropsHash : String :=
  "internal.operator.dynatrace.com/custom-properties-hash"

def DTCapabilities : String := "DT_CAPABILITIES"
def DTIdSeedNamespace : String := "DT_ID_SEED_NAMESPACE"
def DTIdSeedClusterId : String := "DT_ID_SEED_K8S_CLUSTER_ID"

def DTCapabilitiesArg : String := "--enable=$(DT_CAPABILITIES)"

def ProxyArg : String := "PROXY=\"$\x7bACTIVE_GATE_PROXY\x7d\""
def ProxyEnv : String := "ACTIVE_GATE_PROXY"
def ProxyKey : String := "ProxyKey"

def keyModule : String := "module"

/-- `StatefulSetEvent`: what a hook does to the manifest it is called on. The
effects of a hook on memory outside the manifest (its own variables, what the
manifest shares with the properties) are the subject of `StatefulSetEffect`. -/
abbrev StatefulSetEvent := appsv1.StatefulSet → appsv1.StatefulSet

/-- `statefulSetProperties`; the two embedded pointers are taken non-nil. -/
structure statefulSetProperties where
  DynaKube : v1alpha1.DynaKube
  CapabilityProperties : v1alpha1.CapabilityProperties
  customPropertiesHash : String
  kubeSystemUID : String
  module : String
  capabilityName : String
  serviceAccountOwner : String
  onAfterCreate : List StatefulSetEvent

/-- `NewStatefulSetProperties` (statefulset.go:64). -/
def NewStatefulSetProperties (dynakube : v1alpha1.DynaKube)
    (capabilityProperties : v1alpha1.CapabilityProperties) (kubeSystemUID : String)
    (customPropertiesHash : String) (module : String) (capabilityName : String)
    (serviceAccountOwner : String) : statefulSetProperties :=
  let serviceAccountOwner := if serviceAccountOwner = "" then module else serviceAccountOwner
  { DynaKube := dynakube
    CapabilityProperties := capabilityProperties
    customPropertiesHash := customPropertiesHash
    kubeSystemUID := kubeSystemUID
    module := module
    capabilityName := capabilityName
    serviceAccountOwner := serviceAccountOwner
    onAfterCreate := [] }

/-- `isCustomPropertiesNilOrEmpty` (statefulset.go:295). -/
def isCustomPropertiesNilOrEmpty (customProperties : Option v1alpha1.DynaKubeValueSource) :
    Bool :=
  match customProperties with
  | none => true
  | some c => c.Value = "" && c.ValueFrom = ""

/-- `isProxyNilOrEmpty` (statefulset.go:301). -/
def isProxyNilOrEmpty (proxy : Option v1alpha1.DynaKubeProxy) : Bool :=
  match proxy with
  | none => true
  | some p => p.Value = "" && p.ValueFrom = ""

/-- `buildKubernetesExpression` (statefulset.go:280). -/
def buildKubernetesExpression (archKey osKey : String) :
    List corev1.NodeSelectorRequirement :=
  [ { Key := archKey, Operator := corev1.NodeSelectorOpIn, Values := [amd64, arm64] },
    { Key := osKey, Operator := corev1.NodeSelectorOpIn, Values := [linux] } ]

/-- `determineServiceAccountName` (statefulset.go:273). -/
def determineServiceAccountName (stsProperties : statefulSetProperties) : String :=
  if stsProperties.CapabilityProperties.ServiceAccountName = "" then
    serviceAccountPrefix ++ stsProperties.serviceAccountOwner
  else stsProperties.CapabilityProperties.ServiceAccountName

/-- `buildArgs` (statefulset.go:253). -/
def buildArgs (stsProperties : statefulSetProperties) : List String :=
  let group := stsProperties.CapabilityProperties.Group
  let args := [DTCapabilitiesArg]
  let args := args ++ stsProperties.CapabilityProperties.Args
  let args :=
    if stsProperties.DynaKube.Spec.NetworkZone ≠ "" then
      args ++ ["--networkzone=\"" ++ stsProperties.DynaKube.Spec.NetworkZone ++ "\""]
    else args
  let args :=
    if !isProxyNilOrEmpty stsProperties.DynaKube.Spec.Proxy then args ++ [ProxyArg] else args
  let args := if group ≠ "" then args ++ ["--group=\"" ++ group ++ "\""] else args
  args

/-- `buildProxyEnv` (statefulset.go:234); reading a field of a nil proxy panics. -/
def buildProxyEnv (proxy : Option v1alpha1.DynaKubeProxy) : Except Failure corev1.EnvVar :=
  match proxy with
  | none => .error .nilPointerDereference
  | some proxy =>
    if proxy.ValueFrom ≠ "" then
      .ok { Name := ProxyEnv
            ValueFrom := some ({ SecretKeyRef := some ({ Name := proxy.ValueFrom, Key := ProxyKey }) }) }
    else
      .ok { Name := ProxyEnv, Value := proxy.Value }

/-- `buildEnvs` (statefulset.go:219). -/
def buildEnvs (stsProperties : statefulSetProperties) : Except Failure (List corev1.EnvVar) := do
  let envs : List corev1.EnvVar :=
    [ { Name := DTCapabilities, Value := stsProperties.capabilityName },
      { Name := DTIdSeedNamespace, Value := stsProperties.DynaKube.Namespace },
      { Name := DTIdSeedClusterId, Value := stsProperties.kubeSystemUID } ]
  let envs := envs ++ stsProperties.CapabilityProperties.Env
  if !isProxyNilOrEmpty stsProperties.DynaKube.Spec.Proxy then
    let proxyEnv ← buildProxyEnv stsProperties.DynaKube.Spec.Proxy
    pure (envs ++ [proxyEnv])
  else
    pure envs

/-- `buildVolumeMounts` (statefulset.go:204). -/
def buildVolumeMounts (X : Externals) (stsProperties : statefulSetProperties) :
    List corev1.VolumeMount :=
  if !isCustomPropertiesNilOrEmpty stsProperties.CapabilityProperties.CustomProperties then
    [ { ReadOnly := true, Name := X.VolumeName, MountPath := X.MountPath,
        SubPath := X.DataPath } ]
  else []

/-- `determineCustomPropertiesSource` (statefulset.go:197); reading a field of a
nil `CustomProperties` panics. -/
def determineCustomPropertiesSource (X : Externals) (stsProperties : statefulSetProperties) :
    Except Failure String :=
  match stsProperties.CapabilityProperties.CustomProperties with
  | none => .error .nilPointerDereference
  | some customProperties =>
    if customProperties.ValueFrom = "" then
      .ok (stsProperties.DynaKube.Name ++ "-" ++ stsProperties.serviceAccountOwner ++ "-"
        ++ X.Suffix)
    else .ok customProperties.ValueFrom

/-- `buildVolumes` (statefulset.go:178). -/
def buildVolumes (X : Externals) (stsProperties : statefulSetProperties) :
    Except Failure (List corev1.Volume) := do
  if !isCustomPropertiesNilOrEmpty stsProperties.CapabilityProperties.CustomProperties then
    let valueFrom ← determineCustomPropertiesSource X stsProperties
    let secret : corev1.SecretVolumeSource :=
      { SecretName := valueFrom, Items := [ { Key := X.DataKey, Path := X.DataPath } ] }
    pure [ { Name := X.VolumeName, VolumeSource := { Secret := some secret } } ]
  else
    pure []

/-- `buildContainer` (statefulset.go:142). -/
def buildContainer (X : Externals) (stsProperties : statefulSetProperties) :
    Except Failure corev1.Container := do
  let envs ← buildEnvs stsProperties
  pure
    { Name := X.OperatorName
      Image := X.BuildActiveGateImage stsProperties.DynaKube
      Resources := X.BuildResources stsProperties.DynaKube
      ImagePullPolicy := corev1.PullAlways
      Env := envs
      Args := buildArgs stsProperties
      VolumeMounts := buildVolumeMounts X stsProperties
      ReadinessProbe := some (
        { Handler := { HTTPGet := some (
            { Path := "/rest/health", Port := { IntVal := 9999 }, Scheme := "HTTPS" }) }
          InitialDelaySeconds := 90
          PeriodSeconds := 15
          FailureThreshold := 3 })
      LivenessProbe := some (
        { Handler := { HTTPGet := some (
            { Path := "/rest/state", Port := { IntVal := 9999 }, Scheme := "HTTPS" }) }
          InitialDelaySeconds := 90
          PeriodSeconds := 30
          FailureThreshold := 2 }) }

/-- `buildTemplateSpec` (statefulset.go:122). -/
def buildTemplateSpec (X : Externals) (stsProperties : statefulSetProperties) :
    Except Failure corev1.PodSpec := do
  let container ← buildContainer X stsProperties
  let volumes ← buildVolumes X stsProperties
  pure
    { Containers := [container]
      NodeSelector := stsProperties.CapabilityProperties.NodeSelector
      ServiceAccountName := determineServiceAccountName stsProperties
      Affinity := some ({ NodeAffinity := some (
        { RequiredDuringSchedulingIgnoredDuringExecution := some (
          { NodeSelectorTerms :=
            [ { MatchExpressions := buildKubernetesExpression kubernetesBetaArch kubernetesBetaOS },
              { MatchExpressions := buildKubernetesExpression kubernetesArch kubernetesOS } ] }) }) })
      Tolerations := stsProperties.CapabilityProperties.Tolerations
      Volumes := volumes
      ImagePullSecrets := [ { Name := stsProperties.DynaKube.Name ++ X.PullSecretSuffix } ] }

/-- `generateStatefulSetHash` (statefulset.go:305): the decimal text of the
32-bit FNV-1 hash of the JSON serialization; `Write` of the hasher never
fails. -/
def generateStatefulSetHash (sts : appsv1.StatefulSet) : Except Failure String := do
  let data ← json.Marshal sts
  let hash := fnv.sum32 (stringBytes data)
  pure (strconv.FormatUint hash)

/-- `GetTemplateHash` (statefulset.go:324). -/
def GetTemplateHash (a : appsv1.StatefulSet) : String :=
  match a.ObjectMeta.Annotations with
  | some annotations => StringMap.get annotations annotationTemplateHash
  | none => ""

/-- `HasStatefulSetChanged` (statefulset.go:320). -/
def HasStatefulSetChanged (a b : appsv1.StatefulSet) : Bool :=
  GetTemplateHash a != GetTemplateHash b

/-- The manifest literal of `CreateStatefulSet` (statefulset.go:83-107), before
the hooks run. -/
def newManifest (X : Externals) (stsProperties : statefulSetProperties) :
    Except Failure appsv1.StatefulSet := do
  let templateSpec ← buildTemplateSpec X stsProperties
  pure
    { ObjectMeta :=
        { Name := stsProperties.DynaKube.Name ++ "-" ++ stsProperties.module
          Namespace := stsProperties.DynaKube.Namespace
          Labels := MergeLabels
            [ X.BuildLabels stsProperties.DynaKube stsProperties.CapabilityProperties,
              some [(keyModule, stsProperties.module)] ]
          Annotations := some [] }
      Spec :=
        { Replicas := stsProperties.CapabilityProperties.Replicas
          PodManagementPolicy := appsv1.ParallelPodManagement
          Selector := some ({ MatchLabels := BuildLabelsFromInstance stsProperties.DynaKube })
          Template :=
            { ObjectMeta :=
                { Labels := X.BuildLabels stsProperties.DynaKube stsProperties.CapabilityProperties
                  Annotations := some (
                    [ (annotationImageHash, stsProperties.DynaKube.Status.ActiveGate.ImageHash),
                      (annotationImageVersion, stsProperties.DynaKube.Status.ActiveGate.ImageVersion),
                      (annotationCustomPropsHash, stsProperties.customPropertiesHash) ]) }
              Spec := templateSpec } } }

/-- The loop over `onAfterCreate` (statefulset.go:109-111). -/
def runOnAfterCreate (hooks : List StatefulSetEvent) (sts : appsv1.StatefulSet) :
    appsv1.StatefulSet :=
  hooks.foldl (fun sts onAfterCreate => onAfterCreate sts) sts

/-- `CreateStatefulSet` (statefulset.go:82). -/
def CreateStatefulSet (X : Externals) (stsProperties : statefulSetProperties) :
    Except Failure appsv1.StatefulSet := do
  let sts ← newManifest X stsProperties
  let sts := runOnAfterCreate stsProperties.onAfterCreate sts
  let hash ← generateStatefulSetHash sts
  match sts.ObjectMeta.Annotations with
  | none => .error .nilMapAssignment
  | some annotations =>
    pure { sts with ObjectMeta :=
      { sts.ObjectMeta with Annotations := some (annotations.set annotationTemplateHash hash) } }

end capability

/-! ## The Kubernetes-monitoring builder (`controllers/capability/kubemon/statefulset.go`) -/

namespace kubemon

def MonitoringServiceAccount : String := "dynatrace-kubernetes-monitoring"
def KubernetesArch : String := "kubernetes.io/arch"
def KubernetesOS : String := "kubernetes.io/os"
def KubernetesBetaArch : String := "beta.kubernetes.io/arch"
def KubernetesBetaOS : String := "beta.kubernetes.io/os"

def AMD64 : String := "amd64"
def ARM64 : String := "arm64"
def LINUX : String := "linux"

def DTCapabilities : String := "DT_CAPABILITIES"
def DTIdSeedNamespace : String := "DT_ID_SEED_NAMESPACE"
def DTIdSeedClusterId : String := "DT_ID_SEED_K8S_CLUSTER_ID"

def DTCapabilitiesArg : String := "--enable=$(DT_CAPABILITIES)"

def ProxyArg : String := "PROXY=\"$\x7bACTIVE_GATE_PROXY\x7d\""
def ProxyEnv : String := "ACTIVE_GATE_PROXY"
def ProxyKey : String := "ProxyKey"

def CapabilityEnv : String := "kubernetes_monitoring"

def StatefulSetSuffix : String := "-kubemon"

/-- `isCustomPropertiesNilOrEmpty` (kubemon/statefulset.go:205). -/
def isCustomPropertiesNilOrEmpty (customProperties : Option v1alpha1.DynaKubeValueSource) :
    Bool :=
  match customProperties with
  | none => true
  | some c => c.Value = "" && c.ValueFrom = ""

/-- `isProxyNilOrEmpty` (kubemon/statefulset.go:272). -/
def isProxyNilOrEmpty (proxy : Option v1alpha1.DynaKubeProxy) : Bool :=
  match proxy with
  | none => true
  | some p => p.Value = "" && p.ValueFrom = ""

/-- `buildLabels` (kubemon/statefulset.go:158). -/
def buildLabels (dynakube : v1alpha1.DynaKube) : Option StringMap :=
  MergeLabels [dynakube.Labels, BuildLabelsFromInstance dynakube,
    dynakube.Spec.KubernetesMonitoringSpec.CapabilityProperties.Labels]

/-- `buildKubernetesExpression` (kubemon/statefulset.go:164). -/
def buildKubernetesExpression (archKey osKey : String) :
    List corev1.NodeSelectorRequirement :=
  [ { Key := archKey, Operator := corev1.NodeSelectorOpIn, Values := [AMD64, ARM64] },
    { Key := osKey, Operator := corev1.NodeSelectorOpIn, Values := [LINUX] } ]

/-- `buildVolumes` (kubemon/statefulset.go:179); reading `ValueFrom` through a
nil `CustomProperties` panics. -/
def buildVolumes (X : Externals) (dynakube : v1alpha1.DynaKube) :
    Except Failure (List corev1.Volume) := do
  let customProperties := dynakube.Spec.KubernetesMonitoringSpec.CapabilityProperties.CustomProperties
  if !isCustomPropertiesNilOrEmpty customProperties then
    let valueFrom ← match customProperties with
      | none => Except.error Failure.nilPointerDereference
      | some c => pure c.ValueFrom
    let valueFrom :=
      if valueFrom = "" then dynakube.Name ++ "-kubernetes-monitoring-" ++ X.Suffix
      else valueFrom
    let secret : corev1.SecretVolumeSource :=
      { SecretName := valueFrom, Items := [ { Key := X.DataKey, Path := X.DataPath } ] }
    pure [ { Name := X.VolumeName, VolumeSource := { Secret := some secret } } ]
  else
    pure []

/-- `buildEnvs` (kubemon/statefulset.go:211); reading a field of a nil proxy
panics. -/
def buildEnvs (dynakube : v1alpha1.DynaKube) (kubeSystemUID : String) :
    Except Failure (List corev1.EnvVar) := do
  let envVars : List corev1.EnvVar :=
    [ { Name := DTCapabilities, Value := CapabilityEnv },
      { Name := DTIdSeedNamespace, Value := dynakube.Namespace },
      { Name := DTIdSeedClusterId, Value := kubeSystemUID } ]
  let envVars := envVars ++ dynakube.Spec.KubernetesMonitoringSpec.CapabilityProperties.Env
  let proxy := dynakube.Spec.Proxy
  if !isProxyNilOrEmpty proxy then
    match proxy with
    | none => .error .nilPointerDereference
    | some proxy =>
      let proxyEnvVar : corev1.EnvVar :=
        if proxy.ValueFrom ≠ "" then
          { Name := ProxyEnv
            ValueFrom := some ({ SecretKeyRef := some ({ Name := proxy.ValueFrom, Key := ProxyKey }) }) }
        else
          { Name := ProxyEnv, Value := proxy.Value }
      pure (envVars ++ [proxyEnvVar])
  else
    pure envVars

/-- `buildArgs` (kubemon/statefulset.go:247). -/
def buildArgs (dynakube : v1alpha1.DynaKube) : List String :=
  let args := [DTCapabilitiesArg]
  let args := args ++ dynakube.Spec.KubernetesMonitoringSpec.CapabilityProperties.Args
  let args :=
    if dynakube.Spec.NetworkZone ≠ "" then
      args ++ ["--networkzone=\"" ++ dynakube.Spec.NetworkZone ++ "\""]
    else args
  let proxy := dynakube.Spec.Proxy
  let args := if !isProxyNilOrEmpty proxy then args ++ [ProxyArg] else args
  let group := dynakube.Spec.KubernetesMonitoringSpec.CapabilityProperties.Group
  let args := if group ≠ "" then args ++ ["--group=\"" ++ group ++ "\""] else args
  args

/-- `buildContainer` (kubemon/statefulset.go:112). -/
def buildContainer (X : Externals) (dynakube : v1alpha1.DynaKube) (kubeSystemUID : String) :
    Except Failure corev1.Container := do
  let customProperties := dynakube.Spec.KubernetesMonitoringSpec.CapabilityProperties.CustomProperties
  let volumeMounts : List corev1.VolumeMount :=
    if !isCustomPropertiesNilOrEmpty customProperties then
      [ { ReadOnly := true, Name := X.VolumeName, MountPath := X.MountPath,
          SubPath := X.DataPath } ]
    else []
  let envs ← buildEnvs dynakube kubeSystemUID
  pure
    { Name := X.OperatorName
      Image := X.BuildActiveGateImage dynakube
      Resources := X.kubemonBuildResources dynakube
      ImagePullPolicy := corev1.PullAlways
      Env := envs
      Args := buildArgs dynakube
      VolumeMounts := volumeMounts
      ReadinessProbe := some (
        { Handler := { HTTPGet := some (
            { Path := "/rest/health", Port := { IntVal := 9999 }, Scheme := "HTTPS" }) }
          InitialDelaySeconds := 90
          PeriodSeconds := 15
          FailureThreshold := 3 })
      LivenessProbe := some (
        { Handler := { HTTPGet := some (
            { Path := "/rest/state", Port := { IntVal := 9999 }, Scheme := "HTTPS" }) }
          InitialDelaySeconds := 90
          PeriodSeconds := 30
          FailureThreshold := 2 }) }

/-- `buildTemplateSpec` (kubemon/statefulset.go:82). -/
def buildTemplateSpec (X : Externals) (dynakube : v1alpha1.DynaKube) (kubeSystemUID : String) :
    Except Failure corev1.PodSpec := do
  let serviceAccountName :=
    dynakube.Spec.KubernetesMonitoringSpec.CapabilityProperties.ServiceAccountName
  let serviceAccountName :=
    if serviceAccountName = "" then MonitoringServiceAccount else serviceAccountName
  let container ← buildContainer X dynakube kubeSystemUID
  let volumes ← buildVolumes X dynakube
  pure
    { Containers := [container]
      NodeSelector := dynakube.Spec.KubernetesMonitoringSpec.CapabilityProperties.NodeSelector
      ServiceAccountName := serviceAccountName
      Affinity := some ({ NodeAffinity := some (
        { RequiredDuringSchedulingIgnoredDuringExecution := some (
          { NodeSelectorTerms :=
            [ { MatchExpressions := buildKubernetesExpression KubernetesBetaArch KubernetesBetaOS },
              { MatchExpressions := buildKubernetesExpression KubernetesArch KubernetesOS } ] }) }) })
      Tolerations := dynakube.Spec.KubernetesMonitoringSpec.CapabilityProperties.Tolerations
      Volumes := volumes
      ImagePullSecrets := [ { Name := dynakube.Name ++ X.PullSecretSuffix } ] }

/-- `generateStatefulSetHash` (kubemon/statefulset.go:294). -/
def generateStatefulSetHash (sts : appsv1.StatefulSet) : Except Failure String := do
  let data ← json.Marshal sts
  let hash := fnv.sum32 (stringBytes data)
  pure (strconv.FormatUint hash)

/-- The manifest literal of `newStatefulSet` (kubemon/statefulset.go:48-71). -/
def newManifest (X : Externals) (dynakube : v1alpha1.DynaKube) (kubeSystemUID : String)
    (customPropsHash : String) : Except Failure appsv1.StatefulSet := do
  let templateSpec ← buildTemplateSpec X dynakube kubeSystemUID
  pure
    { ObjectMeta :=
        { Name := dynakube.Name ++ StatefulSetSuffix
          Namespace := dynakube.Namespace
          Labels := buildLabels dynakube
          Annotations := some [] }
      Spec :=
        { Replicas := dynakube.Spec.KubernetesMonitoringSpec.CapabilityProperties.Replicas
          PodManagementPolicy := appsv1.ParallelPodManagement
          Selector := some ({ MatchLabels := BuildLabelsFromInstance dynakube })
          Template :=
            { ObjectMeta :=
                { Labels := buildLabels dynakube
                  Annotations := some (
                    [ (X.kubemonAnnotationImageHash, dynakube.Status.ActiveGate.ImageHash),
                      (X.kubemonAnnotationImageVersion, dynakube.Status.ActiveGate.ImageVersion),
                      (X.kubemonAnnotationCustomPropsHash, customPropsHash) ]) }
              Spec := templateSpec } } }

/-- `newStatefulSet` (kubemon/statefulset.go:47). -/
def newStatefulSet (X : Externals) (dynakube : v1alpha1.DynaKube) (kubeSystemUID : String)
    (customPropsHash : String) : Except Failure appsv1.StatefulSet := do
  let sts ← newManifest X dynakube kubeSystemUID customPropsHash
  let hash ← generateStatefulSetHash sts
  match sts.ObjectMeta.Annotations with
  | none => .error .nilMapAssignment
  | some annotations =>
    pure { sts with ObjectMeta :=
      { sts.ObjectMeta with
        Annotations := some (annotations.set X.kubemonAnnotationTemplateHash hash) } }

end kubemon

/-! ## Evaluation support -/

/-- Equality of outcomes is decidable. -/
instance exceptDecEq {ε α : Type} [DecidableEq ε] [DecidableEq α] :
    DecidableEq (Except ε α)
  | .ok a, .ok b =>
    if h : a = b then isTrue (by rw [h]) else isFalse (fun e => h (by injection e))
  | .error a, .error b =>
    if h : a = b then isTrue (by rw [h]) else isFalse (fun e => h (by injection e))
  | .ok _, .error _ => isFalse (fun e => by injection e)
  | .error _, .ok _ => isFalse (fun e => by injection e)

/-! ## A sample instantiation of the external declarations -/

/-- Sample values for the declarations of other packages, used to run the
builders on concrete inputs. -/
def sampleExternals : Externals where
  OperatorName := "dynatrace-operator"
  PullSecretSuffix := "-pull-secret"
  VolumeName := "custom-properties"
  DataKey := "customProperties"
  DataPath := "custom.properties"
  MountPath := "/var/lib/dynatrace/gateway/config_template/custom.properties"
  Suffix := "custom-properties"
  BuildActiveGateImage := fun dynakube => dynakube.Spec.APIURL ++ "/linux/activegate"
  BuildResources := fun dynakube => dynakube.Spec.RoutingSpec.CapabilityProperties.Resources
  BuildLabels := fun dynakube capabilityProperties =>
    MergeLabels [dynakube.Labels, BuildLabelsFromInstance dynakube, capabilityProperties.Labels]
  kubemonBuildResources := fun dynakube =>
    dynakube.Spec.KubernetesMonitoringSpec.CapabilityProperties.Resources
  kubemonAnnotationTemplateHash := "internal.operator.dynatrace.com/template-hash"
  kubemonAnnotationImageHash := "internal.operator.dynatrace.com/image-hash"
  kubemonAnnotationImageVersion := "internal.operator.dynatrace.com/image-version"
  kubemonAnnotationCustomPropsHash := "internal.operator.dynatrace.com/custom-properties-hash"

/-- The DynaKube of the routing tests: only the namespace is set. -/
def testInstance : v1alpha1.DynaKube := { Namespace := "test-namespace" }

/-- The properties the routing reconciler builds for `testInstance`. -/
def testProperties : capability.statefulSetProperties :=
  capability.NewStatefulSetProperties testInstance
    testInstance.Spec.RoutingSpec.CapabilityProperties "test-uid" "" "routing" "MSGrouter" ""

/-- The DynaKube of the Kubernetes-monitoring tests. -/
def testKubemonInstance : v1alpha1.DynaKube :=
  { Name := "test-name", Namespace := "test-namespace",
    Spec := { KubernetesMonitoringSpec := { CapabilityProperties := { Enabled := true } } } }

/-- A live object carrying the template hash `42`. -/
def convergedLive : appsv1.StatefulSet :=
  { ObjectMeta :=
      { Name := "a"
        ResourceVersion := "1"
        Labels := some [("x", "y")]
        Annotations := some [("internal.operator.dynatrace.com/template-hash", "42")] }
    Spec := { Replicas := some 1 } }

/-- A manifest with another name, resource version, labels, annotations and
spec, carrying the same template hash `42`. -/
def convergedDesired : appsv1.StatefulSet :=
  { ObjectMeta :=
      { Name := "b"
        ResourceVersion := "7"
        Annotations := some
          [("other", "z"), ("internal.operator.dynatrace.com/template-hash", "42")] }
    Spec := { Replicas := some 3, ServiceName := "svc" } }

/-! ## When serialization succeeds -/

namespace json

/-- The probe's port, if any, has a type tag `IntOrString.MarshalJSON` accepts. -/
def portOk (p : Option corev1.Probe) : Bool :=
  match p with
  | none => true
  | some q =>
    match q.Handler.HTTPGet with
    | none => true
    | some a => decide (a.Port.Typ = 0 ∨ a.Port.Typ = 1)

/-- Both probes of the container can be serialized. -/
def containerOk (c : corev1.Container) : Bool :=
  portOk c.LivenessProbe && portOk c.ReadinessProbe

/-- Every container of the manifest can be serialized. -/
def Serializable (sts : appsv1.StatefulSet) : Bool :=
  sts.Spec.Template.Spec.Containers.all containerOk

end json

/-- The manifest `CreateStatefulSet` returns for `testProperties`. -/
def testManifest : appsv1.StatefulSet :=
  match capability.CreateStatefulSet sampleExternals testProperties with
  | .ok sts => sts
  | .error _ => {}

/-- A hook that renames the manifest and moves it to another namespace. -/
def renameHook : capability.StatefulSetEvent :=
  fun sts => { sts with ObjectMeta := { sts.ObjectMeta with Name := "renamed", Namespace := "elsewhere" } }

/-- The test properties with `renameHook` registered. -/
def renamedProperties : capability.statefulSetProperties :=
  { testProperties with onAfterCreate := [renameHook] }

/-- The routing test's DynaKube after an inline proxy is set. -/
def proxyInstance : v1alpha1.DynaKube :=
  { Namespace := "test-namespace", Spec := { Proxy := some { Value := "test-value" } } }

/-- The properties the routing reconciler builds for `proxyInstance`. -/
def proxyProperties : capability.statefulSetProperties :=
  capability.NewStatefulSetProperties proxyInstance
    proxyInstance.Spec.RoutingSpec.CapabilityProperties "test-uid" "" "routing" "MSGrouter" ""

/-- The manifest `CreateStatefulSet` returns for `proxyProperties`. -/
def proxyManifest : appsv1.StatefulSet :=
  match capability.CreateStatefulSet sampleExternals proxyProperties with
  | .ok sts => sts
  | .error _ => {}

/-- A hook that removes the containers of the pod template. -/
def dropContainersHook : capability.StatefulSetEvent :=
  fun sts => { sts with Spec := { sts.Spec with Template := { sts.Spec.Template with
    Spec := { sts.Spec.Template.Spec with Containers := [] } } } }

/-- The proxy properties with `dropContainersHook` registered. -/
def strippedProperties : capability.statefulSetProperties :=
  { proxyProperties with onAfterCreate := [dropContainersHook] }

/-- A DynaKube whose routing capability reads its custom properties from the
secret `test-name`. -/
def driftInstance : v1alpha1.DynaKube :=
  { Name := "test-name"
    Namespace := "test-namespace"
    Spec := { RoutingSpec := { CapabilityProperties :=
      { CustomProperties := some { ValueFrom := "test-name" } } } } }

/-- The routing properties of `driftInstance` for a given hash of the secret's
content. -/
def driftProperties (customPropertiesHash : String) : capability.statefulSetProperties :=
  capability.NewStatefulSetProperties driftInstance
    driftInstance.Spec.RoutingSpec.CapabilityProperties "test-uid" customPropertiesHash
    "routing" "MSGrouter" ""

namespace strconv

/-- The number a string of decimal digits denotes. -/
def decimalValue (s : String) : Nat :=
  s.toList.foldl (fun acc c => acc * 10 + (c.toNat - 48)) 0

end strconv

/-! ## Re-listing the bindings of the maps of a manifest -/

/-- The object metadata with each of its maps rewritten by `f`. -/
def metav1.ObjectMeta.mapMaps (f : StringMap → StringMap) (m : metav1.ObjectMeta) :
    metav1.ObjectMeta :=
  { m with Labels := m.Labels.map f, Annotations := m.Annotations.map f }

/-- The container with the maps of its resource requirements rewritten by `f`. -/
def corev1.Container.mapMaps (f : StringMap → StringMap) (c : corev1.Container) :
    corev1.Container :=
  { c with Resources :=
      { Limits := c.Resources.Limits.map f, Requests := c.Resources.Requests.map f } }

/-- The manifest with every map it holds rewritten by `f`: labels and
annotations of the object and of the pod template, the selector's labels, the
node selector and the resource lists of the containers. -/
def appsv1.StatefulSet.mapMaps (f : StringMap → StringMap) (s : appsv1.StatefulSet) :
    appsv1.StatefulSet :=
  { s with
    ObjectMeta := s.ObjectMeta.mapMaps f
    Spec :=
      { s.Spec with
        Selector := s.Spec.Selector.map (fun sel => { MatchLabels := sel.MatchLabels.map f })
        Template :=
          { ObjectMeta := s.Spec.Template.ObjectMeta.mapMaps f
            Spec :=
              { s.Spec.Template.Spec with
                NodeSelector := s.Spec.Template.Spec.NodeSelector.map f
                Containers := s.Spec.Template.Spec.Containers.map (corev1.Container.mapMaps f) } } } }

/-- A hook that sets the object-level annotation map to nil. -/
def nilAnnotationsHook : capability.StatefulSetEvent :=
  fun sts => { sts with ObjectMeta := { sts.ObjectMeta with Annotations := none } }

/-- The test properties with `nilAnnotationsHook` registered. -/
def nilAnnotationsProperties : capability.statefulSetProperties :=
  { testProperties with onAfterCreate := [nilAnnotationsHook] }

/-- The routing test's DynaKube with inline custom properties. -/
def customPropertiesInstance : v1alpha1.DynaKube :=
  { Namespace := "test-namespace"
    Spec := { RoutingSpec := { CapabilityProperties :=
      { CustomProperties := some { Value := "test-value" } } } } }

/-- The properties the routing reconciler builds for `customPropertiesInstance`. -/
def customPropertiesProperties : capability.statefulSetProperties :=
  capability.NewStatefulSetProperties customPropertiesInstance
    customPropertiesInstance.Spec.RoutingSpec.CapabilityProperties "test-uid" "" "routing"
    "MSGrouter" ""

/-- A hook that gives the container a liveness port of an impossible kind. -/
def badPortHook : capability.StatefulSetEvent :=
  fun sts => { sts with Spec := { sts.Spec with Template := { sts.Spec.Template with Spec :=
    { sts.Spec.Template.Spec with Containers :=
      sts.Spec.Template.Spec.Containers.map fun c =>
        { c with LivenessProbe := some ({ Handler := { HTTPGet := some ({ Port := { Typ := 2 } }) } }) } } } } }

/-- The test properties with `badPortHook` registered. -/
def badPortProperties : capability.statefulSetProperties :=
  { testProperties with onAfterCreate := [badPortHook] }

/-- The routing test's DynaKube with instance labels that already use the key
`module`. -/
def moduleLabelInstance : v1alpha1.DynaKube :=
  { Namespace := "test-namespace", Labels := some [("module", "custom"), ("team", "a")] }

/-- The properties the routing reconciler builds for `moduleLabelInstance`. -/
def moduleLabelProperties : capability.statefulSetProperties :=
  capability.NewStatefulSetProperties moduleLabelInstance
    moduleLabelInstance.Spec.RoutingSpec.CapabilityProperties "test-uid" "" "routing"
    "MSGrouter" ""

/-- The Kubernetes-monitoring test's DynaKube with instance labels on the
selector's keys and a specification-provided label on another key. -/
def labelledKubemonInstance : v1alpha1.DynaKube :=
  { Name := "test-name", Namespace := "test-namespace",
    Labels := some [("dynatrace", "mine"), ("activegate", "other")],
    Spec := { KubernetesMonitoringSpec := { CapabilityProperties :=
      { Enabled := true, Labels := some [("team", "a")] } } } }

/-- The Kubernetes-monitoring test's DynaKube with a specification-provided
label on the selector's key `dynatrace`. -/
def overriddenSelectorInstance : v1alpha1.DynaKube :=
  { Name := "test-name", Namespace := "test-namespace",
    Spec := { KubernetesMonitoringSpec := { CapabilityProperties :=
      { Enabled := true, Labels := some [("dynatrace", "custom")] } } } }

/-- A live object whose annotations do not hold a template hash. -/
def unfingerprintedLive : appsv1.StatefulSet :=
  { ObjectMeta := { Name := "-routing", Annotations := some [("owner", "operator")] } }

/-! ## Hooks with side effects

`StatefulSetEvent` keeps of a hook only what it does to the manifest. The Go
hook is called with a pointer to the manifest, and the manifest shares memory
with the properties it is built from: `Spec.Replicas` is the `Replicas` pointer
of the capability properties (statefulset.go:93), the node selector is their
map and the tolerations are their array (statefulset.go:126-134); a closure
also has variables of its own. What one call of `CreateStatefulSet` leaves in
that memory is what the next call reads. -/

namespace capability

/-- A hook with its side effects: `hook s p sts` is what the hook leaves when
called on the manifest `sts` while its own variables hold `s` and the
properties pointer reaches `p`: its variables, the properties as the next
reader finds them, and the manifest. -/
abbrev StatefulSetEffect (σ : Type) :=
  σ → statefulSetProperties → appsv1.StatefulSet →
    σ × statefulSetProperties × appsv1.StatefulSet

/-- The loop over the hooks (statefulset.go:109-111), each hook running in the
memory the previous one left. -/
def runEffects {σ : Type} (hooks : List (StatefulSetEffect σ)) (s : σ)
    (p : statefulSetProperties) (sts : appsv1.StatefulSet) :
    σ × statefulSetProperties × appsv1.StatefulSet :=
  hooks.foldl (fun acc onAfterCreate => onAfterCreate acc.1 acc.2.1 acc.2.2) (s, p, sts)

/-- `CreateStatefulSet` (statefulset.go:82) as a call in memory: `hooks` are the
functions registered in `onAfterCreate` with their side effects, `s` their
variables and `p` the properties as the call finds them. The call returns what
`CreateStatefulSet` returns together with the memory it leaves; the builder
itself writes only to the manifest and the maps and slices it has allocated. -/
def CreateStatefulSetIn {σ : Type} (X : Externals) (hooks : List (StatefulSetEffect σ))
    (s : σ) (p : statefulSetProperties) :
    (σ × statefulSetProperties) × Except Failure appsv1.StatefulSet :=
  match newManifest X p with
  | .error e => ((s, p), .error e)
  | .ok sts =>
    let after := runEffects hooks s p sts
    let sts := after.2.2
    match generateStatefulSetHash sts with
    | .error e => ((after.1, after.2.1), .error e)
    | .ok hash =>
      match sts.ObjectMeta.Annotations with
      | none => ((after.1, after.2.1), .error .nilMapAssignment)
      | some annotations =>
        ((after.1, after.2.1), .ok { sts with ObjectMeta :=
          { sts.ObjectMeta with
            Annotations := some (annotations.set annotationTemplateHash hash) } })

end capability

/-- The routing test's DynaKube with one replica. -/
def replicasInstance : v1alpha1.DynaKube :=
  { Namespace := "test-namespace"
    Spec := { RoutingSpec := { CapabilityProperties := { Replicas := some 1 } } } }

/-- What the hook `func(sts) { if sts.Spec.Replicas != nil { *sts.Spec.Replicas++ } }`
does to the manifest. -/
def incrementReplicasEvent : capability.StatefulSetEvent :=
  fun sts => { sts with Spec := { sts.Spec with Replicas := sts.Spec.Replicas.map (· + 1) } }

/-- The same hook with its side effect: it writes through the `Replicas`
pointer, which the manifest shares with the capability properties
(statefulset.go:93), so the properties hold the new number as well. -/
def incrementReplicasHook : capability.StatefulSetEffect Unit :=
  fun s p sts =>
    (s, { p with CapabilityProperties :=
            { p.CapabilityProperties with
              Replicas := (incrementReplicasEvent sts).Spec.Replicas } },
      incrementReplicasEvent sts)

/-- The properties the routing reconciler builds for `replicasInstance`, with
the incrementing hook registered. -/
def replicasProperties : capability.statefulSetProperties :=
  { capability.NewStatefulSetProperties replicasInstance
      replicasInstance.Spec.RoutingSpec.CapabilityProperties "test-uid" "" "routing"
      "MSGrouter" "" with onAfterCreate := [incrementReplicasEvent] }

/-! ## Reading the serialization back

What is needed to show that the serialization determines the fields it is
written from: a scan that finds where a JSON value ends, and the reading of one
escaped character. -/

namespace json

/-- Where a scan of JSON text stands: between tokens, inside a string, or
behind a backslash inside a string. -/
inductive Mode
  | plain
  | str
  | esc
  deriving DecidableEq, Repr

/-- A scan of JSON text, started at bracket depth `depth`: the text from the
first comma or closing bracket that lies outside every string and every bracket
opened during the scan, and the empty text when the text ends there. -/
def scan : Mode → Nat → List Char → Option (List Char)
  | .plain, depth, [] => if depth = 0 then some [] else none
  | .plain, depth, c :: rest =>
    if c = '\x22' then scan .str depth rest
    else if c = '\x7b' ∨ c = '[' then scan .plain (depth + 1) rest
    else if c = '\x7d' ∨ c = ']' then
      if depth = 0 then some (c :: rest) else scan .plain (depth - 1) rest
    else if c = ',' then
      if depth = 0 then some (c :: rest) else scan .plain depth rest
    else scan .plain depth rest
  | .str, _, [] => none
  | .str, depth, c :: rest =>
    if c = '\x22' then scan .plain depth rest
    else if c = '\x5c' then scan .esc depth rest
    else scan .str depth rest
  | .esc, _, [] => none
  | .esc, depth, _ :: rest => scan .str depth rest

/-- Text a scan passes over at every depth: its strings and brackets are
closed, and outside them it has no comma and no closing bracket. -/
def Passes (text : List Char) : Prop :=
  ∀ depth rest, scan .plain depth (text ++ rest) = scan .plain depth rest

/-- Text a scan passes over inside a bracket: as `Passes`, but commas may stand
outside the strings and brackets of the text. -/
def PassesIn (text : List Char) : Prop :=
  ∀ depth rest, scan .plain (depth + 1) (text ++ rest) = scan .plain (depth + 1) rest

/-- Text at which a scan started outside every bracket stops at once. -/
def Stops (text : List Char) : Prop := scan .plain 0 text = some text

/-- The text of one JSON value, as it can stand in a list: a scan passes over
it, and it is not empty. -/
def Value (text : String) : Prop := Passes text.data ∧ text.data ≠ []

/-- A member of an object that, when present, is written under the name `key`
with the text of one JSON value. -/
def Field (key : String) (m : Option String) : Prop :=
  ∀ x, m = some x → ∃ value, x = quote key ++ ":" ++ value ∧ Value value

/-- Value of a lower-case hexadecimal digit. -/
def hexValue (c : Char) : Nat :=
  if c.toNat < 58 then c.toNat - 48 else c.toNat - 87

/-- The character written first in the content of a JSON string, and the
content behind it. -/
def unescapeOne : List Char → Option (Char × List Char)
  | [] => none
  | c :: rest =>
    if c = '\x5c' then
      match rest with
      | [] => none
      | e :: rest =>
        if e = 'u' then
          match rest with
          | a :: b :: c :: d :: rest =>
            some (Char.ofNat (hexValue a * 4096 + hexValue b * 256 + hexValue c * 16
              + hexValue d), rest)
          | _ => none
        else if e = 'n' then some (Char.ofNat 10, rest)
        else if e = 'r' then some (Char.ofNat 13, rest)
        else if e = 't' then some (Char.ofNat 9, rest)
        else some (e, rest)
    else some (c, rest)

end json

/-! # Theorems -/

/-! ## Serialization succeeds exactly on serializable manifests -/

namespace json

theorem intOrString_isOk (v : intstr.IntOrString) :
    (∃ s, intOrString v = .ok s) ↔ (v.Typ = 0 ∨ v.Typ = 1) := by
  unfold intOrString
  by_cases h0 : v.Typ = 0
  · simp [h0]
  · by_cases h1 : v.Typ = 1
    · simp [h1]
    · simp [h0, h1]

theorem probeOmit_isOk (key : String) (p : Option corev1.Probe) :
    (∃ s, probeOmit key p = .ok s) ↔ portOk p = true := by
  cases p with
  | none => simp [probeOmit, portOk, pure, Except.pure]
  | some q =>
    cases hq : q.Handler.HTTPGet with
    | none =>
      simp [probeOmit, probe, portOk, hq, pure, Except.pure, bind, Except.bind]
    | some a =>
      have := intOrString_isOk a.Port
      cases hp : intOrString a.Port with
      | error e =>
        rw [hp] at this
        have hn : ¬ (a.Port.Typ = 0 ∨ a.Port.Typ = 1) := by
          intro h
          obtain ⟨s, hs⟩ := this.2 h
          cases hs
        simp [probeOmit, probe, httpGetAction, portOk, hq, hp, pure, Except.pure, bind,
          Except.bind, hn]
      | ok s =>
        rw [hp] at this
        have hy : a.Port.Typ = 0 ∨ a.Port.Typ = 1 := this.1 ⟨s, rfl⟩
        simp [probeOmit, probe, httpGetAction, portOk, hq, hp, pure, Except.pure, bind,
          Except.bind, hy]

theorem container_isOk (c : corev1.Container) :
    (∃ s, container c = .ok s) ↔ containerOk c = true := by
  have hl := probeOmit_isOk "livenessProbe" c.LivenessProbe
  have hr := probeOmit_isOk "readinessProbe" c.ReadinessProbe
  unfold container containerOk
  cases h1 : probeOmit "livenessProbe" c.LivenessProbe with
  | error e =>
    rw [h1] at hl
    have : portOk c.LivenessProbe ≠ true := fun h => by
      obtain ⟨s, hs⟩ := hl.2 h
      cases hs
    simp [bind, Except.bind, this]
  | ok s1 =>
    rw [h1] at hl
    have h1t : portOk c.LivenessProbe = true := hl.1 ⟨s1, rfl⟩
    cases h2 : probeOmit "readinessProbe" c.ReadinessProbe with
    | error e =>
      rw [h2] at hr
      have : portOk c.ReadinessProbe ≠ true := fun h => by
        obtain ⟨s, hs⟩ := hr.2 h
        cases hs
      simp [bind, Except.bind, this]
    | ok s2 =>
      rw [h2] at hr
      have h2t : portOk c.ReadinessProbe = true := hr.1 ⟨s2, rfl⟩
      simp [bind, Except.bind, pure, Except.pure, h1t, h2t]

theorem mapM_container_isOk (cs : List corev1.Container) :
    (∃ ss, mapM container cs = .ok ss) ↔ cs.all containerOk = true := by
  induction cs with
  | nil => simp [mapM, pure, Except.pure]
  | cons c rest ih =>
    have hc := container_isOk c
    unfold mapM
    cases h1 : container c with
    | error e =>
      rw [h1] at hc
      have : containerOk c ≠ true := fun h => by
        obtain ⟨s, hs⟩ := hc.2 h
        cases hs
      simp [bind, Except.bind, this]
    | ok s =>
      rw [h1] at hc
      have hct : containerOk c = true := hc.1 ⟨s, rfl⟩
      cases h2 : mapM container rest with
      | error e =>
        rw [h2] at ih
        have : ¬ (rest.all containerOk = true) := fun h => by
          obtain ⟨s, hs⟩ := ih.2 h
          cases hs
        simp only [List.all_eq_true] at this
        simp [bind, Except.bind, this]
      | ok ss =>
        rw [h2] at ih
        have hrt := ih.1 ⟨ss, rfl⟩
        simp only [List.all_eq_true] at hrt
        simp only [bind, Except.bind, pure, Except.pure, hct, List.all_cons, Bool.true_and,
          List.all_eq_true]
        exact ⟨fun _ => hrt, fun _ => ⟨_, rfl⟩⟩

/-- `json.Marshal` succeeds exactly on the manifests whose probe ports carry a
valid `IntOrString` type tag. -/
theorem Marshal_isOk (sts : appsv1.StatefulSet) :
    (∃ data, Marshal sts = .ok data) ↔ Serializable sts = true := by
  have h := mapM_container_isOk sts.Spec.Template.Spec.Containers
  unfold Marshal statefulSetSpec podSpec Serializable
  cases hm : mapM container sts.Spec.Template.Spec.Containers with
  | error e =>
    rw [hm] at h
    have : ¬ (sts.Spec.Template.Spec.Containers.all containerOk = true) := fun hh => by
      obtain ⟨s, hs⟩ := h.2 hh
      cases hs
    simp only [List.all_eq_true] at this
    simp [bind, Except.bind, this]
  | ok ss =>
    rw [hm] at h
    have ht := h.1 ⟨ss, rfl⟩
    simp only [List.all_eq_true] at ht
    simp only [bind, Except.bind, pure, Except.pure, List.all_eq_true]
    exact ⟨fun _ => ht, fun _ => ⟨_, rfl⟩⟩

end json

/-! ## Basic facts about maps and the builders' parts -/

namespace StringMap

theorem get?_append_singleton (m : StringMap) (k v k' : String) :
    get? (m ++ [(k, v)]) k' = if k = k' then some v else get? m k' := by
  induction m with
  | nil => simp [get?]
  | cons e rest ih =>
    obtain ⟨a, b⟩ := e
    show get? ((a, b) :: (rest ++ [(k, v)])) k' = _
    simp only [get?]
    rw [ih]
    by_cases h : k = k'
    · simp [h]
    · simp [h]

theorem get?_filter_ne (m : StringMap) (k k' : String) :
    get? (m.filter (fun e => decide (e.1 ≠ k))) k' = if k = k' then none else get? m k' := by
  induction m with
  | nil => simp [get?]
  | cons e rest ih =>
    obtain ⟨a, b⟩ := e
    rw [List.filter_cons]
    by_cases ha : a = k
    · subst ha
      simp only [ne_eq, not_true_eq_false, decide_False, Bool.false_eq_true, if_false, get?]
      rw [ih]
      by_cases h : a = k'
      · simp [h]
      · simp only [h, if_false]
        cases get? rest k' <;> rfl
    · simp only [ne_eq, ha, not_false_eq_true, decide_True, if_true, get?]
      rw [ih]
      by_cases h : k = k'
      · subst h
        simp [ha]
      · simp [h]

theorem get?_set (m : StringMap) (k v k' : String) :
    get? (set m k v) k' = if k = k' then some v else get? m k' := by
  unfold set
  rw [get?_append_singleton, get?_filter_ne]
  by_cases h : k = k'
  · simp [h]
  · simp [h]

theorem get_set_self (m : StringMap) (k v : String) : get (set m k v) k = v := by
  simp [get, get?_set]

theorem get_set_of_ne (m : StringMap) (k v k' : String) (h : k ≠ k') :
    get (set m k v) k' = get m k' := by
  simp [get, get?_set, h]

end StringMap

namespace capability

/-- The list `buildEnvs` returns: it never fails. -/
theorem buildEnvs_eq (p : statefulSetProperties) :
    buildEnvs p = .ok
      ([ { Name := DTCapabilities, Value := p.capabilityName },
         { Name := DTIdSeedNamespace, Value := p.DynaKube.Namespace },
         { Name := DTIdSeedClusterId, Value := p.kubeSystemUID } ]
        ++ p.CapabilityProperties.Env
        ++ (match p.DynaKube.Spec.Proxy with
            | none => []
            | some proxy =>
              if proxy.Value = "" ∧ proxy.ValueFrom = "" then []
              else if proxy.ValueFrom ≠ "" then
                [ { Name := ProxyEnv, ValueFrom := some ({ SecretKeyRef := some ({ Name := proxy.ValueFrom, Key := ProxyKey }) }) } ]
              else [ { Name := ProxyEnv, Value := proxy.Value } ])) := by
  unfold buildEnvs
  cases hp : p.DynaKube.Spec.Proxy with
  | none => simp [isProxyNilOrEmpty, pure, Except.pure]
  | some proxy =>
    by_cases h1 : proxy.Value = "" <;> by_cases h2 : proxy.ValueFrom = "" <;>
      simp [isProxyNilOrEmpty, buildProxyEnv, h1, h2, pure, Except.pure, bind, Except.bind]

end capability

namespace capability

/-- C3: `HasStatefulSetChanged a b` is true exactly when `GetTemplateHash a`
differs from `GetTemplateHash b`; two StatefulSets that carry the same value
under the annotation `internal.operator.dynatrace.com/template-hash` are
therefore never reported as changed, whatever their other fields are. -/
theorem HasStatefulSetChanged_iff (a b : appsv1.StatefulSet) :
    (HasStatefulSetChanged a b = true ↔ GetTemplateHash a ≠ GetTemplateHash b) ∧
    ((∃ v ma mb, a.ObjectMeta.Annotations = some ma ∧ b.ObjectMeta.Annotations = some mb ∧
        ma.get? "internal.operator.dynatrace.com/template-hash" = some v ∧
        mb.get? "internal.operator.dynatrace.com/template-hash" = some v) →
      HasStatefulSetChanged a b = false) := by
  constructor
  · simp [HasStatefulSetChanged]
  · rintro ⟨v, ma, mb, ha, hb, hva, hvb⟩
    have h1 : GetTemplateHash a = v := by
      simp [GetTemplateHash, ha, StringMap.get, annotationTemplateHash, hva]
    have h2 : GetTemplateHash b = v := by
      simp [GetTemplateHash, hb, StringMap.get, annotationTemplateHash, hvb]
    simp [HasStatefulSetChanged, h1, h2]

/-- Two manifests that differ in name, resource version, labels, other
annotations and spec, and carry the same template hash, are not reported as
changed. -/
theorem HasStatefulSetChanged_iff_witness :
    HasStatefulSetChanged convergedLive convergedDesired = false :=
  (HasStatefulSetChanged_iff convergedLive convergedDesired).2
    ⟨"42", _, _, rfl, rfl, by decide, by decide⟩

/-- C5: `buildArgs` returns the enable flag, then the specification's arguments
in their order, then the network-zone argument iff the network zone is
non-empty, then the proxy argument iff the proxy is non-nil with a non-empty
`Value` or `ValueFrom`, then the group argument iff the group is non-empty; its
length lies between `1 + len(Args)` and `4 + len(Args)`. -/
theorem buildArgs_order (p : statefulSetProperties) :
    buildArgs p =
      ["--enable=$(DT_CAPABILITIES)"] ++ p.CapabilityProperties.Args
        ++ (if p.DynaKube.Spec.NetworkZone ≠ "" then
              ["--networkzone=\"" ++ p.DynaKube.Spec.NetworkZone ++ "\""] else [])
        ++ (match p.DynaKube.Spec.Proxy with
            | none => []
            | some proxy =>
              if proxy.Value ≠ "" ∨ proxy.ValueFrom ≠ "" then
                ["PROXY=\"$\x7bACTIVE_GATE_PROXY\x7d\""] else [])
        ++ (if p.CapabilityProperties.Group ≠ "" then
              ["--group=\"" ++ p.CapabilityProperties.Group ++ "\""] else []) ∧
    1 + p.CapabilityProperties.Args.length ≤ (buildArgs p).length ∧
    (buildArgs p).length ≤ 4 + p.CapabilityProperties.Args.length := by
  have key : buildArgs p =
      ["--enable=$(DT_CAPABILITIES)"] ++ p.CapabilityProperties.Args
        ++ (if p.DynaKube.Spec.NetworkZone ≠ "" then
              ["--networkzone=\"" ++ p.DynaKube.Spec.NetworkZone ++ "\""] else [])
        ++ (match p.DynaKube.Spec.Proxy with
            | none => []
            | some proxy =>
              if proxy.Value ≠ "" ∨ proxy.ValueFrom ≠ "" then
                ["PROXY=\"$\x7bACTIVE_GATE_PROXY\x7d\""] else [])
        ++ (if p.CapabilityProperties.Group ≠ "" then
              ["--group=\"" ++ p.CapabilityProperties.Group ++ "\""] else []) := by
    unfold buildArgs
    cases hp : p.DynaKube.Spec.Proxy with
    | none =>
      by_cases hz : p.DynaKube.Spec.NetworkZone = "" <;>
        by_cases hg : p.CapabilityProperties.Group = "" <;>
        simp [isProxyNilOrEmpty, hz, hg, DTCapabilitiesArg]
    | some proxy =>
      by_cases hz : p.DynaKube.Spec.NetworkZone = "" <;>
        by_cases hg : p.CapabilityProperties.Group = "" <;>
        by_cases h1 : proxy.Value = "" <;> by_cases h2 : proxy.ValueFrom = "" <;>
        simp [isProxyNilOrEmpty, hz, hg, h1, h2, DTCapabilitiesArg, ProxyArg]
  refine ⟨key, ?_, ?_⟩
  · rw [key]
    simp only [List.length_append, List.length_singleton, List.length_cons, List.length_nil]
    omega
  · rw [key]
    simp only [List.length_append, List.length_singleton, List.length_cons, List.length_nil]
    have h1 : (if p.DynaKube.Spec.NetworkZone ≠ "" then
        ["--networkzone=\"" ++ p.DynaKube.Spec.NetworkZone ++ "\""] else []).length ≤ 1 := by
      split <;> simp
    have h2 : (match p.DynaKube.Spec.Proxy with
        | none => ([] : List String)
        | some proxy =>
          if proxy.Value ≠ "" ∨ proxy.ValueFrom ≠ "" then
            ["PROXY=\"$\x7bACTIVE_GATE_PROXY\x7d\""] else []).length ≤ 1 := by
      split
      · simp
      · split <;> simp
    have h3 : (if p.CapabilityProperties.Group ≠ "" then
        ["--group=\"" ++ p.CapabilityProperties.Group ++ "\""] else []).length ≤ 1 := by
      split <;> simp
    omega

end capability

namespace capability

/-- `buildVolumes` never fails: `determineCustomPropertiesSource` is only
reached with non-nil custom properties. -/
theorem buildVolumes_isOk (X : Externals) (p : statefulSetProperties) :
    ∃ volumes, buildVolumes X p = .ok volumes := by
  unfold buildVolumes
  cases hc : p.CapabilityProperties.CustomProperties with
  | none => exact ⟨[], by simp [isCustomPropertiesNilOrEmpty, pure, Except.pure]⟩
  | some c =>
    by_cases h : isCustomPropertiesNilOrEmpty (some c) = true
    · exact ⟨[], by simp [h, pure, Except.pure]⟩
    · by_cases hv : c.ValueFrom = ""
      · exact ⟨_, by
          simp [h, determineCustomPropertiesSource, hc, hv, bind, Except.bind, pure,
            Except.pure]
          rfl⟩
      · exact ⟨_, by
          simp [h, determineCustomPropertiesSource, hc, hv, bind, Except.bind, pure,
            Except.pure]
          rfl⟩

/-- The manifest literal, given the environment and the volumes. -/
theorem newManifest_eq (X : Externals) (p : statefulSetProperties)
    (envs : List corev1.EnvVar) (volumes : List corev1.Volume)
    (he : buildEnvs p = .ok envs) (hv : buildVolumes X p = .ok volumes) :
    ∃ m, newManifest X p = .ok m ∧
      m.Kind = "" ∧ m.APIVersion = "" ∧
      m.ObjectMeta.Name = p.DynaKube.Name ++ "-" ++ p.module ∧
      m.ObjectMeta.Namespace = p.DynaKube.Namespace ∧
      m.ObjectMeta.ResourceVersion = "" ∧
      m.ObjectMeta.Labels = MergeLabels
        [X.BuildLabels p.DynaKube p.CapabilityProperties, some [(keyModule, p.module)]] ∧
      m.ObjectMeta.Annotations = some [] ∧
      m.Spec.Replicas = p.CapabilityProperties.Replicas ∧
      m.Spec.Selector = some ({ MatchLabels := BuildLabelsFromInstance p.DynaKube }) ∧
      m.Spec.Template.ObjectMeta.Labels = X.BuildLabels p.DynaKube p.CapabilityProperties ∧
      m.Spec.Template.ObjectMeta.Annotations = some
        [ (annotationImageHash, p.DynaKube.Status.ActiveGate.ImageHash),
          (annotationImageVersion, p.DynaKube.Status.ActiveGate.ImageVersion),
          (annotationCustomPropsHash, p.customPropertiesHash) ] ∧
      m.Spec.Template.Spec.Volumes = volumes ∧
      m.Spec.Template.Spec.ServiceAccountName = determineServiceAccountName p ∧
      m.Spec.Template.Spec.ImagePullSecrets = [ { Name := p.DynaKube.Name ++ X.PullSecretSuffix } ] ∧
      (∃ c, m.Spec.Template.Spec.Containers = [c] ∧ c.Env = envs ∧ c.Args = buildArgs p ∧
        c.VolumeMounts = buildVolumeMounts X p ∧ json.containerOk c = true) := by
  refine ⟨_, by
    simp only [newManifest, buildTemplateSpec, buildContainer, he, hv, bind, Except.bind, pure,
      Except.pure]
    rfl, ?_⟩
  refine ⟨rfl, rfl, rfl, rfl, rfl, rfl, rfl, rfl, rfl, rfl, rfl, rfl, rfl, rfl, ?_⟩
  exact ⟨_, rfl, rfl, rfl, rfl, rfl⟩

/-- The manifest literal is always built and can always be serialized. -/
theorem newManifest_isOk (X : Externals) (p : statefulSetProperties) :
    ∃ m, newManifest X p = .ok m ∧ json.Serializable m = true ∧
      m.ObjectMeta.Annotations = some [] := by
  obtain ⟨volumes, hv⟩ := buildVolumes_isOk X p
  obtain ⟨m, hm, _, _, _, _, _, _, ha, _, _, _, _, _, _, _, c, hc, _, _, _, hok⟩ :=
    newManifest_eq X p _ volumes (buildEnvs_eq p) hv
  refine ⟨m, hm, ?_, ha⟩
  simp [json.Serializable, hc, hok]

/-- The branches of `CreateStatefulSet` after the manifest literal is built. -/
theorem CreateStatefulSet_eq (X : Externals) (p : statefulSetProperties)
    (m : appsv1.StatefulSet) (hm : newManifest X p = .ok m) :
    CreateStatefulSet X p =
      match generateStatefulSetHash (runOnAfterCreate p.onAfterCreate m) with
      | .error e => .error e
      | .ok hash =>
        match (runOnAfterCreate p.onAfterCreate m).ObjectMeta.Annotations with
        | none => .error .nilMapAssignment
        | some annotations =>
          .ok { runOnAfterCreate p.onAfterCreate m with
            ObjectMeta := { (runOnAfterCreate p.onAfterCreate m).ObjectMeta with
              Annotations := some (annotations.set annotationTemplateHash hash) } } := by
  simp only [CreateStatefulSet, hm, bind, Except.bind, pure, Except.pure]
  cases generateStatefulSetHash (runOnAfterCreate p.onAfterCreate m) with
  | error e => rfl
  | ok hash => rfl

/-- With no hooks `CreateStatefulSet` always returns a manifest. -/
theorem CreateStatefulSet_isOk (X : Externals) (p : statefulSetProperties)
    (h : p.onAfterCreate = []) : ∃ sts, CreateStatefulSet X p = .ok sts := by
  obtain ⟨m, hm, hs, ha⟩ := newManifest_isOk X p
  obtain ⟨data, hd⟩ := (json.Marshal_isOk m).2 hs
  rw [CreateStatefulSet_eq X p m hm, h]
  simp only [runOnAfterCreate, List.foldl_nil, generateStatefulSetHash, hd, ha, bind,
    Except.bind, pure, Except.pure]
  exact ⟨_, rfl⟩

end capability

namespace kubemon

/-- `kubemon.buildEnvs` never fails. -/
theorem monitoringEnvs_isOk (d : v1alpha1.DynaKube) (u : String) :
    ∃ envs, buildEnvs d u = .ok envs := by
  unfold buildEnvs
  cases hp : d.Spec.Proxy with
  | none => exact ⟨_, by simp [isProxyNilOrEmpty, pure, Except.pure]; rfl⟩
  | some proxy =>
    by_cases h : isProxyNilOrEmpty (some proxy) = true
    · exact ⟨_, by simp [h, pure, Except.pure]; rfl⟩
    · exact ⟨_, by simp [h, pure, Except.pure]; rfl⟩

/-- `kubemon.buildVolumes` never fails. -/
theorem monitoringVolumes_isOk (X : Externals) (d : v1alpha1.DynaKube) :
    ∃ volumes, buildVolumes X d = .ok volumes := by
  unfold buildVolumes
  cases hc : d.Spec.KubernetesMonitoringSpec.CapabilityProperties.CustomProperties with
  | none => exact ⟨[], by simp [isCustomPropertiesNilOrEmpty, pure, Except.pure]⟩
  | some c =>
    by_cases h : isCustomPropertiesNilOrEmpty (some c) = true
    · exact ⟨[], by simp [h, pure, Except.pure]⟩
    · exact ⟨_, by simp [h, bind, Except.bind, pure, Except.pure]; rfl⟩

/-- The manifest literal of `newStatefulSet` is always built, carries the
object identity, an empty annotation map, and can be serialized. -/
theorem monitoringManifest_isOk (X : Externals) (d : v1alpha1.DynaKube) (u h : String) :
    ∃ m, newManifest X d u h = .ok m ∧
      m.ObjectMeta.Name = d.Name ++ StatefulSetSuffix ∧
      m.ObjectMeta.Namespace = d.Namespace ∧
      m.ObjectMeta.Annotations = some [] ∧
      json.Serializable m = true := by
  obtain ⟨envs, he⟩ := monitoringEnvs_isOk d u
  obtain ⟨volumes, hv⟩ := monitoringVolumes_isOk X d
  refine ⟨_, by
    simp only [newManifest, buildTemplateSpec, buildContainer, he, hv, bind, Except.bind, pure,
      Except.pure]
    rfl, ?_⟩
  exact ⟨rfl, rfl, rfl, rfl⟩

end kubemon

namespace capability

/-- C4: `CreateStatefulSet` builds the generic manifest, whose object-level
annotations are empty, applies the `onAfterCreate` hooks to it in list order,
and returns a manifest exactly when the hash of the manifest left by the last
hook can be computed and its annotation map is non-nil; the returned manifest
is that manifest with the hash stored under
`internal.operator.dynatrace.com/template-hash` and nothing else changed. -/
theorem CreateStatefulSet_fingerprint (X : Externals) (p : statefulSetProperties) :
    ∃ base, newManifest X p = .ok base ∧ base.ObjectMeta.Annotations = some [] ∧
      (∀ sts, CreateStatefulSet X p = .ok sts ↔
        ∃ hash annotations,
          generateStatefulSetHash (p.onAfterCreate.foldl (fun s hook => hook s) base)
            = .ok hash ∧
          (p.onAfterCreate.foldl (fun s hook => hook s) base).ObjectMeta.Annotations
            = some annotations ∧
          sts = { p.onAfterCreate.foldl (fun s hook => hook s) base with
            ObjectMeta := { (p.onAfterCreate.foldl (fun s hook => hook s) base).ObjectMeta with
              Annotations := some (annotations.set
                "internal.operator.dynatrace.com/template-hash" hash) } }) ∧
      (∀ sts, CreateStatefulSet X p = .ok sts →
        generateStatefulSetHash (p.onAfterCreate.foldl (fun s hook => hook s) base)
          = .ok (GetTemplateHash sts) ∧
        sts.Kind = (p.onAfterCreate.foldl (fun s hook => hook s) base).Kind ∧
        sts.APIVersion = (p.onAfterCreate.foldl (fun s hook => hook s) base).APIVersion ∧
        sts.Spec = (p.onAfterCreate.foldl (fun s hook => hook s) base).Spec ∧
        sts.ObjectMeta.Name
          = (p.onAfterCreate.foldl (fun s hook => hook s) base).ObjectMeta.Name ∧
        sts.ObjectMeta.Namespace
          = (p.onAfterCreate.foldl (fun s hook => hook s) base).ObjectMeta.Namespace ∧
        sts.ObjectMeta.ResourceVersion
          = (p.onAfterCreate.foldl (fun s hook => hook s) base).ObjectMeta.ResourceVersion ∧
        sts.ObjectMeta.Labels
          = (p.onAfterCreate.foldl (fun s hook => hook s) base).ObjectMeta.Labels ∧
        ∃ old new,
          (p.onAfterCreate.foldl (fun s hook => hook s) base).ObjectMeta.Annotations
            = some old ∧
          sts.ObjectMeta.Annotations = some new ∧
          ∀ k, new.get? k =
            if "internal.operator.dynatrace.com/template-hash" = k
            then some (GetTemplateHash sts) else old.get? k) := by
  obtain ⟨base, hbase, _, hann⟩ := newManifest_isOk X p
  have hchar : ∀ sts, CreateStatefulSet X p = .ok sts ↔
      ∃ hash annotations,
        generateStatefulSetHash (p.onAfterCreate.foldl (fun s hook => hook s) base)
          = .ok hash ∧
        (p.onAfterCreate.foldl (fun s hook => hook s) base).ObjectMeta.Annotations
          = some annotations ∧
        sts = { p.onAfterCreate.foldl (fun s hook => hook s) base with
          ObjectMeta := { (p.onAfterCreate.foldl (fun s hook => hook s) base).ObjectMeta with
            Annotations := some (annotations.set
              "internal.operator.dynatrace.com/template-hash" hash) } } := by
    intro sts
    rw [CreateStatefulSet_eq X p base hbase]
    simp only [runOnAfterCreate, annotationTemplateHash]
    cases hh : generateStatefulSetHash (p.onAfterCreate.foldl (fun s hook => hook s) base) with
    | error e => simp
    | ok hash =>
      cases ha : (p.onAfterCreate.foldl (fun s hook => hook s) base).ObjectMeta.Annotations with
      | none => simp
      | some annotations =>
        simp only [Except.ok.injEq, Option.some.injEq, exists_and_left, exists_eq_left']
        constructor
        · intro h
          exact h.symm
        · intro h
          exact h.symm
  refine ⟨base, hbase, hann, hchar, ?_⟩
  intro sts hsts
  obtain ⟨hash, annotations, hh, ha, rfl⟩ := (hchar sts).1 hsts
  have hget : GetTemplateHash
      { p.onAfterCreate.foldl (fun s hook => hook s) base with
        ObjectMeta := { (p.onAfterCreate.foldl (fun s hook => hook s) base).ObjectMeta with
          Annotations := some (annotations.set
            "internal.operator.dynatrace.com/template-hash" hash) } } = hash := by
    simp [GetTemplateHash, annotationTemplateHash, StringMap.get_set_self]
  rw [hget]
  refine ⟨hh, rfl, rfl, rfl, rfl, rfl, rfl, rfl, annotations, _, ha, rfl, ?_⟩
  intro k
  exact StringMap.get?_set _ _ _ _

end capability

namespace capability

/-- A projection that every hook preserves is preserved by the hook loop. -/
theorem runOnAfterCreate_preserves {α : Type} (f : appsv1.StatefulSet → α)
    (hooks : List StatefulSetEvent) (h : ∀ hook ∈ hooks, ∀ s, f (hook s) = f s)
    (s : appsv1.StatefulSet) : f (runOnAfterCreate hooks s) = f s := by
  induction hooks generalizing s with
  | nil => rfl
  | cons hook rest ih =>
    have h1 : f (hook s) = f s := h hook (List.mem_cons_self _ _) s
    have h2 := ih (fun g hg => h g (List.mem_cons_of_mem _ hg)) (hook s)
    simp only [runOnAfterCreate, List.foldl_cons] at h2 ⊢
    rw [h2, h1]

/-- What a returned manifest shares with the manifest left by the hooks. -/
theorem CreateStatefulSet_ok_inv (X : Externals) (p : statefulSetProperties)
    (sts : appsv1.StatefulSet) (h : CreateStatefulSet X p = .ok sts) :
    ∃ m, newManifest X p = .ok m ∧
      sts.Spec = (runOnAfterCreate p.onAfterCreate m).Spec ∧
      sts.ObjectMeta.Name = (runOnAfterCreate p.onAfterCreate m).ObjectMeta.Name ∧
      sts.ObjectMeta.Namespace = (runOnAfterCreate p.onAfterCreate m).ObjectMeta.Namespace := by
  obtain ⟨m, hm, _, _⟩ := newManifest_isOk X p
  refine ⟨m, hm, ?_⟩
  rw [CreateStatefulSet_eq X p m hm] at h
  cases hh : generateStatefulSetHash (runOnAfterCreate p.onAfterCreate m) with
  | error e => simp [hh] at h
  | ok hash =>
    cases ha : (runOnAfterCreate p.onAfterCreate m).ObjectMeta.Annotations with
    | none => simp [hh, ha] at h
    | some annotations =>
      simp only [hh, ha, Except.ok.injEq] at h
      subst h
      exact ⟨rfl, rfl, rfl⟩

/-- C6: `buildEnvs` returns `DT_CAPABILITIES`, `DT_ID_SEED_NAMESPACE` and
`DT_ID_SEED_K8S_CLUSTER_ID` with the capability name, the namespace and the
cluster UID, then the specification's variables in their order, then exactly one
variable named `ACTIVE_GATE_PROXY` (the one `buildProxyEnv` builds) iff the
proxy is non-nil with a non-empty `Value` or `ValueFrom`, and nothing
otherwise. -/
theorem buildEnvs_order (p : statefulSetProperties) :
    ∃ tail, buildEnvs p = .ok
        ([ { Name := "DT_CAPABILITIES", Value := p.capabilityName },
           { Name := "DT_ID_SEED_NAMESPACE", Value := p.DynaKube.Namespace },
           { Name := "DT_ID_SEED_K8S_CLUSTER_ID", Value := p.kubeSystemUID } ]
          ++ p.CapabilityProperties.Env ++ tail) ∧
      (match p.DynaKube.Spec.Proxy with
       | none => tail = []
       | some proxy =>
         if proxy.Value ≠ "" ∨ proxy.ValueFrom ≠ "" then
           ∃ e, tail = [e] ∧ e.Name = "ACTIVE_GATE_PROXY" ∧ buildProxyEnv (some proxy) = .ok e
         else tail = []) := by
  refine ⟨_, buildEnvs_eq p, ?_⟩
  cases hp : p.DynaKube.Spec.Proxy with
  | none => simp
  | some proxy =>
    by_cases h1 : proxy.Value = "" <;> by_cases h2 : proxy.ValueFrom = "" <;>
      simp [h1, h2, buildProxyEnv, ProxyEnv]

/-- C7: for every non-nil proxy `buildProxyEnv` returns a variable named
`ACTIVE_GATE_PROXY` that never carries both a non-empty `Value` and a reference;
with a non-empty `ValueFrom` it is the secret-key reference to key `ProxyKey` of
the secret `ValueFrom`, with empty `Value`; with an empty `ValueFrom` it carries
`Value` and no reference. The Kubernetes-monitoring builder appends the same
variable. -/
theorem buildProxyEnv_exclusive (proxy : v1alpha1.DynaKubeProxy) :
    ∃ e, buildProxyEnv (some proxy) = .ok e ∧ e.Name = "ACTIVE_GATE_PROXY" ∧
      ¬ (e.Value ≠ "" ∧ e.ValueFrom ≠ none) ∧
      (if proxy.ValueFrom ≠ "" then
        e.Value = "" ∧
        e.ValueFrom = some ({ SecretKeyRef := some ({ Name := proxy.ValueFrom, Key := "ProxyKey" }) })
       else e.Value = proxy.Value ∧ e.ValueFrom = none) ∧
      (∀ (d : v1alpha1.DynaKube) (u : String), d.Spec.Proxy = some proxy →
        (proxy.Value ≠ "" ∨ proxy.ValueFrom ≠ "") →
        ∃ envs, kubemon.buildEnvs d u = .ok (envs ++ [e])) := by
  by_cases h2 : proxy.ValueFrom = ""
  · refine ⟨_, by simp [buildProxyEnv, h2]; rfl, rfl, by simp, by simp [h2], ?_⟩
    intro d u hd hne
    have h1 : proxy.Value ≠ "" := by
      rcases hne with h | h
      · exact h
      · exact absurd h2 h
    exact ⟨([ { Name := kubemon.DTCapabilities, Value := kubemon.CapabilityEnv },
        { Name := kubemon.DTIdSeedNamespace, Value := d.Namespace },
        { Name := kubemon.DTIdSeedClusterId, Value := u } ]
        ++ d.Spec.KubernetesMonitoringSpec.CapabilityProperties.Env), by
      simp [kubemon.buildEnvs, hd, kubemon.isProxyNilOrEmpty, h1, h2, pure, Except.pure]
      rfl⟩
  · refine ⟨_, by simp [buildProxyEnv, h2]; rfl, rfl, by simp, by simp [h2, ProxyKey], ?_⟩
    intro d u hd _
    exact ⟨([ { Name := kubemon.DTCapabilities, Value := kubemon.CapabilityEnv },
        { Name := kubemon.DTIdSeedNamespace, Value := d.Namespace },
        { Name := kubemon.DTIdSeedClusterId, Value := u } ]
        ++ d.Spec.KubernetesMonitoringSpec.CapabilityProperties.Env), by
      simp [kubemon.buildEnvs, hd, kubemon.isProxyNilOrEmpty, h2, pure, Except.pure]
      exact ⟨rfl, rfl⟩⟩

/-- C9, as amended: when the `onAfterCreate` hooks leave the manifest's name
and namespace unchanged (as the empty hook list of `NewStatefulSetProperties`
does), every manifest `CreateStatefulSet` returns is named `Name-module` and
lies in the DynaKube's namespace. -/
theorem CreateStatefulSet_identity (X : Externals) (p : statefulSetProperties)
    (hhooks : ∀ hook ∈ p.onAfterCreate, ∀ s,
      ((hook s).ObjectMeta.Name, (hook s).ObjectMeta.Namespace)
        = (s.ObjectMeta.Name, s.ObjectMeta.Namespace))
    (sts : appsv1.StatefulSet) (h : CreateStatefulSet X p = .ok sts) :
    sts.ObjectMeta.Name = p.DynaKube.Name ++ "-" ++ p.module ∧
    sts.ObjectMeta.Namespace = p.DynaKube.Namespace := by
  obtain ⟨m, hm, _, hn, hns⟩ := CreateStatefulSet_ok_inv X p sts h
  obtain ⟨volumes, hv⟩ := buildVolumes_isOk X p
  obtain ⟨m', hm', _, _, hname, hnamespace, _⟩ := newManifest_eq X p _ volumes (buildEnvs_eq p) hv
  rw [hm] at hm'
  injection hm' with hmm
  subst hmm
  have hp := runOnAfterCreate_preserves
    (fun s => (s.ObjectMeta.Name, s.ObjectMeta.Namespace)) p.onAfterCreate hhooks m
  simp only [Prod.mk.injEq] at hp
  rw [hn, hns, hp.1, hp.2, hname, hnamespace]
  exact ⟨rfl, rfl⟩

set_option maxRecDepth 100000 in
/-- The manifest of the routing test is named `-routing` (the DynaKube has no
name) in namespace `test-namespace`. -/
theorem CreateStatefulSet_identity_witness :
    testManifest.ObjectMeta.Name = "" ++ "-" ++ "routing" ∧
    testManifest.ObjectMeta.Namespace = "test-namespace" :=
  CreateStatefulSet_identity sampleExternals testProperties
    (fun _ hmem => absurd hmem (List.not_mem_nil _)) testManifest (by decide!)

set_option maxRecDepth 100000 in
/-- C9 fails with a hook that renames the manifest: the result is called
`renamed` in namespace `elsewhere`, not `-routing` in `test-namespace`. -/
theorem CreateStatefulSet_identity_counterexample :
    (CreateStatefulSet sampleExternals renamedProperties).map
        (fun sts => (sts.ObjectMeta.Name, sts.ObjectMeta.Namespace))
      = .ok ("renamed", "elsewhere") ∧
    renamedProperties.DynaKube.Name ++ "-" ++ renamedProperties.module = "-routing" ∧
    renamedProperties.DynaKube.Namespace = "test-namespace" := by
  decide!

end capability

namespace kubemon

/-- C10: `kubemon.newStatefulSet` always returns a manifest, named
`instance.Name` followed by `-kubemon`, in the namespace of the instance. -/
theorem newStatefulSet_identity (X : Externals) (d : v1alpha1.DynaKube) (u h : String) :
    ∃ sts, newStatefulSet X d u h = .ok sts ∧
      sts.ObjectMeta.Name = d.Name ++ "-kubemon" ∧
      sts.ObjectMeta.Namespace = d.Namespace := by
  obtain ⟨m, hm, hname, hns, ha, hs⟩ := monitoringManifest_isOk X d u h
  obtain ⟨data, hd⟩ := (json.Marshal_isOk m).2 hs
  refine ⟨_, by
    simp only [newStatefulSet, hm, generateStatefulSetHash, hd, ha, bind, Except.bind, pure,
      Except.pure]
    rfl, ?_⟩
  exact ⟨hname, hns⟩

end kubemon

namespace strconv

theorem digitChar_toNat (k : Nat) (h : k < 10) : (Nat.digitChar k).toNat - 48 = k := by
  interval_cases k <;> rfl

theorem foldl_toDigitsCore (fuel n : Nat) (ds : List Char) (h : n < fuel) :
    (Nat.toDigitsCore 10 fuel n ds).foldl (fun acc c => acc * 10 + (c.toNat - 48)) 0
      = ds.foldl (fun acc c => acc * 10 + (c.toNat - 48)) n := by
  induction fuel generalizing n ds with
  | zero => omega
  | succ fuel ih =>
    unfold Nat.toDigitsCore
    by_cases h0 : n / 10 = 0
    · have hn : n < 10 := by omega
      simp only [h0, if_true, List.foldl_cons, Nat.zero_mul, Nat.zero_add]
      rw [digitChar_toNat _ (Nat.mod_lt _ (by decide)), Nat.mod_eq_of_lt hn]
    · simp only [h0, if_false]
      rw [ih (n / 10) _ (by omega)]
      simp only [List.foldl_cons]
      rw [digitChar_toNat _ (Nat.mod_lt _ (by decide))]
      have : n / 10 * 10 + n % 10 = n := by omega
      rw [this]

/-- Reading back the decimal text gives the number. -/
theorem decimalValue_FormatUint (n : Nat) : decimalValue (FormatUint n) = n := by
  unfold decimalValue FormatUint Nat.repr Nat.toDigits
  show (Nat.toDigitsCore 10 (n + 1) n []).foldl _ 0 = n
  rw [foldl_toDigitsCore _ _ _ (Nat.lt_succ_self n)]
  rfl

/-- Different numbers have different decimal texts. -/
theorem FormatUint_injective : Function.Injective FormatUint := by
  intro a b h
  have := congrArg decimalValue h
  rwa [decimalValue_FormatUint, decimalValue_FormatUint] at this

end strconv

/-! ## Range of the hash -/

theorem utf8EncodeChar_lt (c : Char) : ∀ b ∈ utf8EncodeChar c, b < 256 := by
  have hc : c.toNat < 1114112 := by
    have := c.valid
    simp only [Char.toNat, UInt32.isValidChar, Nat.isValidChar] at this ⊢
    omega
  intro b hb
  unfold utf8EncodeChar at hb
  simp only at hb
  split at hb
  · simp only [List.mem_singleton] at hb
    omega
  · split at hb
    · simp only [List.mem_cons, List.mem_singleton, List.not_mem_nil, or_false] at hb
      omega
    · split at hb
      · simp only [List.mem_cons, List.mem_singleton, List.not_mem_nil, or_false] at hb
        omega
      · simp only [List.mem_cons, List.mem_singleton, List.not_mem_nil, or_false] at hb
        omega

theorem stringBytes_lt (s : String) : ∀ b ∈ stringBytes s, b < 256 := by
  intro b hb
  unfold stringBytes at hb
  rw [List.mem_flatMap] at hb
  obtain ⟨c, _, hc⟩ := hb
  exact utf8EncodeChar_lt c b hc

namespace fnv

theorem step32_lt (hash byte : Nat) (hb : byte < 256) : step32 hash byte < 2 ^ 32 := by
  unfold step32
  apply Nat.xor_lt_two_pow
  · exact Nat.mod_lt _ (by decide)
  · exact Nat.lt_trans hb (by decide)

theorem foldl_step32_lt (data : List Nat) (hash : Nat) (hh : hash < 2 ^ 32)
    (hd : ∀ b ∈ data, b < 256) : data.foldl step32 hash < 2 ^ 32 := by
  induction data generalizing hash with
  | nil => exact hh
  | cons b rest ih =>
    simp only [List.foldl_cons]
    exact ih _ (step32_lt hash b (hd b (List.mem_cons_self _ _)))
      (fun x hx => hd x (List.mem_cons_of_mem _ hx))

/-- The hash of the bytes of a string is a 32-bit value. -/
theorem sum32_lt (s : String) : sum32 (stringBytes s) < 2 ^ 32 :=
  foldl_step32_lt _ _ (by decide) (stringBytes_lt s)

end fnv

namespace capability

/-- The template hash of a returned manifest is the decimal text of the FNV-1
hash of the serialization of the manifest left by the hooks. -/
theorem CreateStatefulSet_templateHash (X : Externals) (p : statefulSetProperties)
    (a : appsv1.StatefulSet) (h : CreateStatefulSet X p = .ok a) :
    ∃ m data, newManifest X p = .ok m ∧
      json.Marshal (runOnAfterCreate p.onAfterCreate m) = .ok data ∧
      GetTemplateHash a = strconv.FormatUint (fnv.sum32 (stringBytes data)) := by
  obtain ⟨m, hm, _, _⟩ := newManifest_isOk X p
  rw [CreateStatefulSet_eq X p m hm] at h
  unfold generateStatefulSetHash at h
  cases hd : json.Marshal (runOnAfterCreate p.onAfterCreate m) with
  | error e => simp [hd, bind, Except.bind] at h
  | ok data =>
    refine ⟨m, data, hm, hd, ?_⟩
    cases ha : (runOnAfterCreate p.onAfterCreate m).ObjectMeta.Annotations with
    | none => simp [hd, ha, bind, Except.bind, pure, Except.pure] at h
    | some annotations =>
      simp only [hd, ha, bind, Except.bind, pure, Except.pure, Except.ok.injEq] at h
      subst h
      simp [GetTemplateHash, StringMap.get_set_self]

set_option maxRecDepth 100000 in
/-- C2 fails on a hash collision: the property sets `driftProperties "2643277087"`
and `driftProperties "1727658024"` build manifests whose custom-properties-hash
annotations differ, both get the template hash `3818898517`, and no change is
reported. -/
theorem CreateStatefulSet_drift_counterexample :
    (CreateStatefulSet sampleExternals (driftProperties "2643277087")).map
        (fun sts => (sts.Spec.Template.ObjectMeta.Annotations.bind
          (fun m => m.get? "internal.operator.dynatrace.com/custom-properties-hash"),
          GetTemplateHash sts))
      = .ok (some "2643277087", "3818898517") ∧
    (CreateStatefulSet sampleExternals (driftProperties "1727658024")).map
        (fun sts => (sts.Spec.Template.ObjectMeta.Annotations.bind
          (fun m => m.get? "internal.operator.dynatrace.com/custom-properties-hash"),
          GetTemplateHash sts))
      = .ok (some "1727658024", "3818898517") ∧
    (CreateStatefulSet sampleExternals (driftProperties "2643277087")).bind
        (fun a => (CreateStatefulSet sampleExternals (driftProperties "1727658024")).map
          (fun b => HasStatefulSetChanged a b))
      = .ok false := by
  decide!

end capability

namespace capability

/-- C8, as amended: when the proxy has a non-empty inline `Value` and an empty
`ValueFrom`, the specification's variables contain none named
`ACTIVE_GATE_PROXY`, and the `onAfterCreate` hooks leave the containers of the
pod template unchanged (as the empty hook list of `NewStatefulSetProperties`
does), every manifest `CreateStatefulSet` returns has a single container, and
that container has exactly one variable named `ACTIVE_GATE_PROXY`, whose value
is the proxy's `Value`. -/
theorem CreateStatefulSet_inline_proxy (X : Externals) (p : statefulSetProperties)
    (v : String) (hproxy : p.DynaKube.Spec.Proxy = some { Value := v, ValueFrom := "" })
    (hv : v ≠ "")
    (henv : ∀ e ∈ p.CapabilityProperties.Env, e.Name ≠ "ACTIVE_GATE_PROXY")
    (hhooks : ∀ hook ∈ p.onAfterCreate, ∀ s,
      (hook s).Spec.Template.Spec.Containers = s.Spec.Template.Spec.Containers)
    (sts : appsv1.StatefulSet) (h : CreateStatefulSet X p = .ok sts) :
    ∃ c, sts.Spec.Template.Spec.Containers = [c] ∧
      c.Env.filter (fun e => decide (e.Name = "ACTIVE_GATE_PROXY"))
        = [ { Name := "ACTIVE_GATE_PROXY", Value := v } ] := by
  obtain ⟨m, hm, hspec, _, _⟩ := CreateStatefulSet_ok_inv X p sts h
  obtain ⟨volumes, hvol⟩ := buildVolumes_isOk X p
  obtain ⟨m', hm', _, _, _, _, _, _, _, _, _, _, _, _, _, _, c, hc, hcenv, _⟩ :=
    newManifest_eq X p _ volumes (buildEnvs_eq p) hvol
  rw [hm] at hm'
  injection hm' with hmm
  subst hmm
  have hp := runOnAfterCreate_preserves
    (fun s => s.Spec.Template.Spec.Containers) p.onAfterCreate hhooks m
  simp only at hp
  refine ⟨c, by rw [hspec, hp, hc], ?_⟩
  have hfilter : p.CapabilityProperties.Env.filter
      (fun e => decide (e.Name = "ACTIVE_GATE_PROXY")) = [] := by
    rw [List.filter_eq_nil_iff]
    intro e he
    simpa using henv e he
  rw [hcenv, hproxy]
  simp only [List.filter_append, hfilter, List.append_nil]
  simp [hv, List.filter_cons, DTCapabilities, DTIdSeedNamespace, DTIdSeedClusterId, ProxyEnv]

set_option maxRecDepth 100000 in
/-- The routing test with proxy `test-value`: the container of the manifest has
the single proxy variable with that value. -/
theorem CreateStatefulSet_inline_proxy_witness :
    ∃ c, proxyManifest.Spec.Template.Spec.Containers = [c] ∧
      c.Env.filter (fun e => decide (e.Name = "ACTIVE_GATE_PROXY"))
        = [ { Name := "ACTIVE_GATE_PROXY", Value := "test-value" } ] :=
  CreateStatefulSet_inline_proxy sampleExternals proxyProperties "test-value" rfl
    (by decide) (fun _ hmem => absurd hmem (List.not_mem_nil _))
    (fun _ hmem => absurd hmem (List.not_mem_nil _)) proxyManifest (by decide!)

set_option maxRecDepth 100000 in
/-- C8 fails with a hook that removes the containers: the proxy is inline and
the specification has no variables, yet the returned manifest has no
container at all. -/
theorem CreateStatefulSet_inline_proxy_counterexample :
    strippedProperties.DynaKube.Spec.Proxy = some { Value := "test-value", ValueFrom := "" } ∧
    strippedProperties.CapabilityProperties.Env = [] ∧
    (CreateStatefulSet sampleExternals strippedProperties).map
        (fun sts => sts.Spec.Template.Spec.Containers) = .ok [] := by
  decide!

end capability

/-! ## The key order and the sorted key list -/

namespace StringMap

theorem ltChars_irrefl (a : List Char) : ltChars a a = false := by
  induction a with
  | nil => rfl
  | cons c rest ih => simp [ltChars, ih]

theorem ltChars_trans (a b c : List Char) (hab : ltChars a b = true)
    (hbc : ltChars b c = true) : ltChars a c = true := by
  induction a generalizing b c with
  | nil =>
    cases b with
    | nil => simp [ltChars] at hab
    | cons y ys =>
      cases c with
      | nil => simp [ltChars] at hbc
      | cons z zs => simp [ltChars]
  | cons x xs ih =>
    cases b with
    | nil => simp [ltChars] at hab
    | cons y ys =>
      cases c with
      | nil => simp [ltChars] at hbc
      | cons z zs =>
        simp only [ltChars] at hab hbc ⊢
        by_cases hxy : x.toNat < y.toNat
        · by_cases hyz : y.toNat < z.toNat
          · have : x.toNat < z.toNat := by omega
            simp [this]
          · by_cases hzy : z.toNat < y.toNat
            · simp [hyz, hzy] at hbc
            · have : x.toNat < z.toNat := by omega
              simp [this]
        · by_cases hyx : y.toNat < x.toNat
          · simp [hxy, hyx] at hab
          · simp only [hxy, hyx, if_false] at hab
            by_cases hyz : y.toNat < z.toNat
            · have : x.toNat < z.toNat := by omega
              simp [this]
            · by_cases hzy : z.toNat < y.toNat
              · simp [hyz, hzy] at hbc
              · simp only [hyz, hzy, if_false] at hbc
                have h1 : ¬ x.toNat < z.toNat := by omega
                have h2 : ¬ z.toNat < x.toNat := by omega
                simp only [h1, h2, if_false]
                exact ih ys zs hab hbc

theorem ltChars_connected (a b : List Char) (hab : ltChars a b = false)
    (hba : ltChars b a = false) : a = b := by
  induction a generalizing b with
  | nil =>
    cases b with
    | nil => rfl
    | cons y ys => simp [ltChars] at hab
  | cons x xs ih =>
    cases b with
    | nil => simp [ltChars] at hba
    | cons y ys =>
      simp only [ltChars] at hab hba
      by_cases hxy : x.toNat < y.toNat
      · simp [hxy] at hab
      · by_cases hyx : y.toNat < x.toNat
        · simp [hyx] at hba
        · simp only [hxy, hyx, if_false] at hab hba
          have hc : x = y := by
            apply Char.ext
            apply UInt32.ext
            have : x.toNat = y.toNat := by omega
            exact this
          rw [hc, ih ys hab hba]

theorem keyLt_irrefl (a : String) : keyLt a a = false := ltChars_irrefl _

theorem keyLt_trans (a b c : String) (hab : keyLt a b = true) (hbc : keyLt b c = true) :
    keyLt a c = true := ltChars_trans _ _ _ hab hbc

theorem keyLt_connected (a b : String) (hab : keyLt a b = false) (hba : keyLt b a = false) :
    a = b := String.ext (ltChars_connected _ _ hab hba)

theorem keyLt_asymm (a b : String) (hab : keyLt a b = true) : keyLt b a = false := by
  cases h : keyLt b a with
  | false => rfl
  | true =>
    have := keyLt_trans a b a hab h
    rw [keyLt_irrefl] at this
    cases this

theorem mem_insertKey (k x : String) (l : List String) :
    x ∈ insertKey k l ↔ x = k ∨ x ∈ l := by
  induction l with
  | nil => simp [insertKey]
  | cons h t ih =>
    unfold insertKey
    by_cases h1 : keyLt k h = true
    · simp [h1]
    · by_cases h2 : k = h
      · subst h2
        simp [h1]
      · simp only [h1, h2, if_false, List.mem_cons, ih, Bool.false_eq_true]
        constructor
        · rintro (h | h | h)
          · exact Or.inr (Or.inl h)
          · exact Or.inl h
          · exact Or.inr (Or.inr h)
        · rintro (h | h | h)
          · exact Or.inr (Or.inl h)
          · exact Or.inl h
          · exact Or.inr (Or.inr h)

theorem pairwise_insertKey (k : String) (l : List String)
    (hl : l.Pairwise (fun a b => keyLt a b = true)) :
    (insertKey k l).Pairwise (fun a b => keyLt a b = true) := by
  induction l with
  | nil => simp [insertKey]
  | cons h t ih =>
    rw [List.pairwise_cons] at hl
    unfold insertKey
    by_cases h1 : keyLt k h = true
    · simp only [h1, if_true, List.pairwise_cons]
      refine ⟨?_, hl⟩
      intro x hx
      rcases List.mem_cons.1 hx with hx | hx
      · rw [hx]; exact h1
      · exact keyLt_trans _ _ _ h1 (hl.1 x hx)
    · by_cases h2 : k = h
      · subst h2
        simp only [h1, if_false, if_true, List.pairwise_cons, Bool.false_eq_true]
        exact hl
      · simp only [h1, h2, if_false, List.pairwise_cons, Bool.false_eq_true]
        refine ⟨?_, ih hl.2⟩
        intro x hx
        rcases (mem_insertKey k x t).1 hx with hx | hx
        · rw [hx]
          cases h3 : keyLt h k with
          | true => rfl
          | false =>
            exact absurd (keyLt_connected k h (by simpa using h1) h3) h2
        · exact hl.1 x hx

theorem pairwise_sortedKeys (m : StringMap) :
    (sortedKeys m).Pairwise (fun a b => keyLt a b = true) := by
  induction m with
  | nil => simp [sortedKeys]
  | cons e rest ih => exact pairwise_insertKey _ _ ih

theorem get?_eq_none_iff (m : StringMap) (k : String) :
    get? m k = none ↔ ∀ e ∈ m, e.1 ≠ k := by
  induction m with
  | nil => simp [get?]
  | cons e rest ih =>
    obtain ⟨a, b⟩ := e
    simp only [get?, List.mem_cons, forall_eq_or_imp]
    cases hr : get? rest k with
    | some w =>
      rw [hr] at ih
      simp only [false_iff, reduceCtorEq] at ih ⊢
      intro h
      exact ih h.2
    | none =>
      rw [hr] at ih
      have := ih.1 rfl
      by_cases hak : a = k
      · simp [hak]
      · simp only [hak, if_false, ne_eq, not_false_eq_true, true_and, true_iff]
        exact this

theorem mem_sortedKeys (m : StringMap) (k : String) :
    k ∈ sortedKeys m ↔ get? m k ≠ none := by
  rw [Ne, get?_eq_none_iff]
  induction m with
  | nil => simp [sortedKeys]
  | cons e rest ih =>
    show k ∈ insertKey e.1 (sortedKeys rest) ↔ _
    rw [mem_insertKey, ih]
    simp only [List.mem_cons, forall_eq_or_imp, not_and_or, not_not]
    constructor
    · rintro (h | h)
      · exact Or.inl h.symm
      · exact Or.inr h
    · rintro (h | h)
      · exact Or.inl h.symm
      · exact Or.inr h

/-- A strictly increasing key list is determined by its members. -/
theorem sorted_ext (l₁ l₂ : List String)
    (h₁ : l₁.Pairwise (fun a b => keyLt a b = true))
    (h₂ : l₂.Pairwise (fun a b => keyLt a b = true))
    (hmem : ∀ x, x ∈ l₁ ↔ x ∈ l₂) : l₁ = l₂ := by
  induction l₁ generalizing l₂ with
  | nil =>
    cases l₂ with
    | nil => rfl
    | cons y ys => exact absurd ((hmem y).2 (List.mem_cons_self _ _)) (List.not_mem_nil _)
  | cons x xs ih =>
    cases l₂ with
    | nil => exact absurd ((hmem x).1 (List.mem_cons_self _ _)) (List.not_mem_nil _)
    | cons y ys =>
      rw [List.pairwise_cons] at h₁ h₂
      have hxy : x = y := by
        rcases List.mem_cons.1 ((hmem x).1 (List.mem_cons_self _ _)) with h | h
        · exact h
        · rcases List.mem_cons.1 ((hmem y).2 (List.mem_cons_self _ _)) with h' | h'
          · exact h'.symm
          · have a1 := h₂.1 x h
            have a2 := h₁.1 y h'
            rw [keyLt_asymm _ _ a1] at a2
            cases a2
      subst hxy
      have hx1 : x ∉ xs := fun h => by
        have := h₁.1 x h
        rw [keyLt_irrefl] at this
        cases this
      have hx2 : x ∉ ys := fun h => by
        have := h₂.1 x h
        rw [keyLt_irrefl] at this
        cases this
      have : xs = ys := by
        apply ih ys h₁.2 h₂.2
        intro z
        constructor
        · intro hz
          rcases List.mem_cons.1 ((hmem z).1 (List.mem_cons_of_mem _ hz)) with h | h
          · exact absurd (h ▸ hz) hx1
          · exact h
        · intro hz
          rcases List.mem_cons.1 ((hmem z).2 (List.mem_cons_of_mem _ hz)) with h | h
          · exact absurd (h ▸ hz) hx2
          · exact h
      rw [this]

/-- Maps with the same bindings have the same sorted key list. -/
theorem sortedKeys_congr (m m' : StringMap) (h : ∀ k, get? m k = get? m' k) :
    sortedKeys m = sortedKeys m' := by
  apply sorted_ext _ _ (pairwise_sortedKeys m) (pairwise_sortedKeys m')
  intro k
  rw [mem_sortedKeys, mem_sortedKeys, h]

end StringMap

/-! ## The serialization does not depend on how the bindings of a map are listed -/

namespace StringMap

theorem isEmpty_iff (m : StringMap) : m.isEmpty = true ↔ ∀ k, get? m k = none := by
  cases m with
  | nil => simp [get?]
  | cons e rest =>
    simp only [List.isEmpty_cons, Bool.false_eq_true, false_iff, not_forall]
    refine ⟨e.1, ?_⟩
    rw [get?_eq_none_iff]
    intro h
    exact h e (List.mem_cons_self _ _) rfl

end StringMap

namespace json

theorem mapIsEmpty_map (f : StringMap → StringMap)
    (hf : ∀ m k, (f m).get? k = m.get? k) (o : Option StringMap) :
    mapIsEmpty (o.map f) = mapIsEmpty o := by
  cases o with
  | none => rfl
  | some m =>
    simp only [Option.map_some', mapIsEmpty]
    rw [Bool.eq_iff_iff, StringMap.isEmpty_iff, StringMap.isEmpty_iff]
    simp only [hf]

theorem stringMap_congr (m m' : StringMap) (h : ∀ k, m.get? k = m'.get? k) :
    stringMap m = stringMap m' := by
  unfold stringMap
  rw [StringMap.sortedKeys_congr m m' h]
  congr 1
  apply List.map_congr_left
  intro k _
  simp [StringMap.get, h]

theorem mapOmit_map (f : StringMap → StringMap)
    (hf : ∀ m k, (f m).get? k = m.get? k) (key : String) (o : Option StringMap) :
    mapOmit key (o.map f) = mapOmit key o := by
  unfold mapOmit
  rw [mapIsEmpty_map f hf]
  cases o with
  | none => rfl
  | some m =>
    simp only [Option.map_some', Option.getD_some]
    rw [stringMap_congr (f m) m (hf m)]

theorem objectMeta_mapMaps (f : StringMap → StringMap)
    (hf : ∀ m k, (f m).get? k = m.get? k) (m : metav1.ObjectMeta) :
    objectMeta (m.mapMaps f) = objectMeta m := by
  simp only [objectMeta, metav1.ObjectMeta.mapMaps, mapOmit_map f hf]

theorem container_mapMaps (f : StringMap → StringMap)
    (hf : ∀ m k, (f m).get? k = m.get? k) (c : corev1.Container) :
    container (c.mapMaps f) = container c := by
  simp only [container, corev1.Container.mapMaps, resourceRequirements, mapOmit_map f hf]

theorem mapM_container_mapMaps (f : StringMap → StringMap)
    (hf : ∀ m k, (f m).get? k = m.get? k) (cs : List corev1.Container) :
    mapM container (cs.map (corev1.Container.mapMaps f)) = mapM container cs := by
  induction cs with
  | nil => rfl
  | cons c rest ih =>
    simp only [List.map_cons, mapM, container_mapMaps f hf, ih]

/-- Re-listing the bindings of the maps of a manifest, keeping what every key
is bound to, does not change its serialization. -/
theorem Marshal_mapMaps (f : StringMap → StringMap)
    (hf : ∀ m k, (f m).get? k = m.get? k) (s : appsv1.StatefulSet) :
    Marshal (s.mapMaps f) = Marshal s := by
  have hsel : selectorPtr (Option.map (fun sel : metav1.LabelSelector =>
        ({ MatchLabels := sel.MatchLabels.map f } : metav1.LabelSelector)) s.Spec.Selector)
      = selectorPtr s.Spec.Selector := by
    cases s.Spec.Selector with
    | none => rfl
    | some sel => simp only [Option.map_some', selectorPtr, labelSelector, mapOmit_map f hf]
  simp only [Marshal, statefulSetSpec, podSpec, appsv1.StatefulSet.mapMaps,
    objectMeta_mapMaps f hf, mapM_container_mapMaps f hf, mapOmit_map f hf, hsel]

end json

/-! ## Merging does not depend on the order in which a map is ranged over -/

namespace StringMap

theorem get?_foldl_set (entries res : StringMap) (k : String) :
    get? (entries.foldl (fun res e => set res e.1 e.2) res) k =
      match get? entries k with
      | some w => some w
      | none => get? res k := by
  induction entries generalizing res with
  | nil => simp [get?]
  | cons e rest ih =>
    obtain ⟨a, b⟩ := e
    simp only [List.foldl_cons, ih, get?_set, get?]
    cases get? rest k with
    | some w => rfl
    | none =>
      by_cases h : a = k
      · simp [h]
      · simp [h]

/-- Listing the bindings of a map with distinct keys in another order gives the
same map. -/
theorem get?_perm (m m' : StringMap) (hp : m.Perm m')
    (hk : (m.map Prod.fst).Nodup) (k : String) : get? m k = get? m' k := by
  induction hp with
  | nil => rfl
  | cons e _ ih =>
    obtain ⟨a, b⟩ := e
    simp only [List.map_cons, List.nodup_cons] at hk
    simp only [get?, ih hk.2]
  | swap e₁ e₂ l =>
    obtain ⟨a₁, b₁⟩ := e₁
    obtain ⟨a₂, b₂⟩ := e₂
    simp only [List.map_cons, List.nodup_cons, List.mem_cons, not_or] at hk
    have hne : a₂ ≠ a₁ := hk.1.1
    simp only [get?]
    cases get? l k with
    | some w => rfl
    | none =>
      by_cases h1 : a₁ = k
      · have h2 : a₂ ≠ k := fun h => hne (h.trans h1.symm)
        simp [h1, h2]
      · by_cases h2 : a₂ = k
        · simp [h1, h2]
        · simp [h1, h2]
  | trans h₁ _ ih₁ ih₂ =>
    have hk' := (List.Perm.nodup_iff (List.Perm.map Prod.fst h₁)).1 hk
    rw [ih₁ hk, ih₂ hk']

end StringMap

/-- What `MergeLabels` binds a key to: the binding of the last argument that
has the key. -/
theorem get?_MergeLabels (labels : List (Option StringMap)) (k : String) :
    ((MergeLabels labels).getD []).get? k =
      labels.foldl (fun acc m =>
        match (m.getD []).get? k with
        | some w => some w
        | none => acc) none := by
  have key : ∀ (ls : List (Option StringMap)) (res : StringMap),
      StringMap.get? (ls.foldl
        (fun res m => (m.getD []).foldl (fun res e => StringMap.set res e.1 e.2) res) res) k =
      ls.foldl (fun acc m =>
        match (m.getD []).get? k with
        | some w => some w
        | none => acc) (StringMap.get? res k) := by
    intro ls
    induction ls with
    | nil => intro res; rfl
    | cons m rest ih =>
      intro res
      simp only [List.foldl_cons, ih, StringMap.get?_foldl_set]
  simp only [MergeLabels, Option.getD_some]
  rw [key]
  rfl

/-- `MergeLabels` of maps with the same bindings are maps with the same
bindings. -/
theorem MergeLabels_congr (labels labels' : List (Option StringMap))
    (h : List.Forall₂ (fun a b => ∀ k, (a.getD []).get? k = (b.getD []).get? k) labels labels')
    (k : String) :
    ((MergeLabels labels).getD []).get? k = ((MergeLabels labels').getD []).get? k := by
  rw [get?_MergeLabels, get?_MergeLabels]
  generalize (none : Option String) = acc
  induction h generalizing acc with
  | nil => rfl
  | cons hab _ ih =>
    simp only [List.foldl_cons, hab k]
    exact ih _

namespace capability

/-- A 32-bit fingerprint cannot separate all property sets: whatever the
external declarations and the other inputs are, two different custom-properties
hashes exist for which the built manifests differ and get the same template
hash. -/
theorem fingerprint_collision_exists (X : Externals) (d : v1alpha1.DynaKube)
    (c : v1alpha1.CapabilityProperties) (u module capabilityName owner : String) :
    ∃ h₁ h₂ a b, h₁ ≠ h₂ ∧
      CreateStatefulSet X (NewStatefulSetProperties d c u h₁ module capabilityName owner)
        = .ok a ∧
      CreateStatefulSet X (NewStatefulSetProperties d c u h₂ module capabilityName owner)
        = .ok b ∧
      a.Spec.Template.ObjectMeta.Annotations ≠ b.Spec.Template.ObjectMeta.Annotations ∧
      HasStatefulSetChanged a b = false := by
  let P : Nat → statefulSetProperties := fun i =>
    NewStatefulSetProperties d c u (strconv.FormatUint i) module capabilityName owner
  have hok : ∀ i, ∃ a, CreateStatefulSet X (P i) = .ok a := fun i =>
    CreateStatefulSet_isOk X (P i) rfl
  let val : Nat → Nat := fun i =>
    match CreateStatefulSet X (P i) with
    | .ok a => strconv.decimalValue (GetTemplateHash a)
    | .error _ => 0
  have hval : ∀ i a, CreateStatefulSet X (P i) = .ok a →
      val i < 2 ^ 32 ∧ GetTemplateHash a = strconv.FormatUint (val i) := by
    intro i a ha
    obtain ⟨m, data, _, _, hh⟩ := CreateStatefulSet_templateHash X (P i) a ha
    have hv : val i = fnv.sum32 (stringBytes data) := by
      simp only [val, ha, hh, strconv.decimalValue_FormatUint]
    rw [hv]
    exact ⟨fnv.sum32_lt data, hh⟩
  have hlt : ∀ i, val i < 2 ^ 32 := by
    intro i
    obtain ⟨a, ha⟩ := hok i
    exact (hval i a ha).1
  let g : Fin (2 ^ 32 + 1) → Fin (2 ^ 32) := fun i => ⟨val i.1, hlt i.1⟩
  obtain ⟨i, j, hij, hg⟩ := Fintype.exists_ne_map_eq_of_card_lt g (by
    rw [Fintype.card_fin, Fintype.card_fin]
    exact Nat.lt_succ_self _)
  have hvv : val i.1 = val j.1 := congrArg Fin.val hg
  obtain ⟨a, ha⟩ := hok i.1
  obtain ⟨b, hb⟩ := hok j.1
  have hne : strconv.FormatUint i.1 ≠ strconv.FormatUint j.1 := fun h =>
    hij (Fin.ext (strconv.FormatUint_injective h))
  refine ⟨strconv.FormatUint i.1, strconv.FormatUint j.1, a, b, hne, ha, hb, ?_, ?_⟩
  · obtain ⟨m, hm, hspec, _, _⟩ := CreateStatefulSet_ok_inv X (P i.1) a ha
    obtain ⟨n, hn, hspec', _, _⟩ := CreateStatefulSet_ok_inv X (P j.1) b hb
    obtain ⟨v1, hv1⟩ := buildVolumes_isOk X (P i.1)
    obtain ⟨v2, hv2⟩ := buildVolumes_isOk X (P j.1)
    obtain ⟨m', hm', _, _, _, _, _, _, _, _, _, _, hma, _⟩ :=
      newManifest_eq X (P i.1) _ v1 (buildEnvs_eq _) hv1
    obtain ⟨n', hn', _, _, _, _, _, _, _, _, _, _, hna, _⟩ :=
      newManifest_eq X (P j.1) _ v2 (buildEnvs_eq _) hv2
    rw [hm] at hm'
    rw [hn] at hn'
    injection hm' with e1
    injection hn' with e2
    subst e1 e2
    have r1 : runOnAfterCreate (P i.1).onAfterCreate m = m := rfl
    have r2 : runOnAfterCreate (P j.1).onAfterCreate n = n := rfl
    rw [hspec, hspec', r1, r2, hma, hna]
    intro h
    simp only [Option.some.injEq, List.cons.injEq, Prod.mk.injEq, and_true, true_and] at h
    exact hne h.2.2
  · simp only [HasStatefulSetChanged, (hval i.1 a ha).2, (hval j.1 b hb).2, hvv, bne_self_eq_false]

end capability



namespace capability

/-- The pod spec `buildTemplateSpec` returns: it never fails. -/
theorem buildTemplateSpec_eq (X : Externals) (p : statefulSetProperties) :
    ∃ spec container volumes, buildTemplateSpec X p = .ok spec ∧
      buildContainer X p = .ok container ∧ buildVolumes X p = .ok volumes ∧
      spec.Containers = [container] ∧ spec.Volumes = volumes ∧
      spec.NodeSelector = p.CapabilityProperties.NodeSelector ∧
      spec.ServiceAccountName = determineServiceAccountName p ∧
      spec.Tolerations = p.CapabilityProperties.Tolerations ∧
      spec.ImagePullSecrets = [ { Name := p.DynaKube.Name ++ X.PullSecretSuffix } ] ∧
      spec.Affinity = some ({ NodeAffinity := some ({ RequiredDuringSchedulingIgnoredDuringExecution := some ({ NodeSelectorTerms := [ { MatchExpressions := buildKubernetesExpression kubernetesBetaArch kubernetesBetaOS }, { MatchExpressions := buildKubernetesExpression kubernetesArch kubernetesOS } ] }) }) }) := by
  obtain ⟨volumes, hv⟩ := buildVolumes_isOk X p
  have he := buildEnvs_eq p
  refine ⟨_, _, volumes, by
    simp only [buildTemplateSpec, buildContainer, he, hv, bind, Except.bind, pure, Except.pure]
    rfl, by
    simp only [buildContainer, he, bind, Except.bind, pure, Except.pure]
    rfl, hv, ?_⟩
  exact ⟨rfl, rfl, rfl, rfl, rfl, rfl, rfl⟩

/-- C13: when the custom properties are nil or have both `Value` and
`ValueFrom` empty, `buildVolumes` and `buildVolumeMounts` return nothing;
otherwise each returns exactly one element: a secret volume named
`customproperties.VolumeName` with the single item (key
`customproperties.DataKey`, path `customproperties.DataPath`), and a read-only
mount of the same name at `customproperties.MountPath` with sub-path
`customproperties.DataPath`. -/
theorem buildVolumes_custom_properties (X : Externals) (p : statefulSetProperties) :
    match p.CapabilityProperties.CustomProperties with
    | none => buildVolumes X p = .ok [] ∧ buildVolumeMounts X p = []
    | some c =>
      if c.Value = "" ∧ c.ValueFrom = "" then
        buildVolumes X p = .ok [] ∧ buildVolumeMounts X p = []
      else
        (∃ secretName, buildVolumes X p = .ok [ { Name := X.VolumeName, VolumeSource := { Secret := some ({ SecretName := secretName, Items := [ { Key := X.DataKey, Path := X.DataPath } ] }) } } ]) ∧
        buildVolumeMounts X p = [ { ReadOnly := true, Name := X.VolumeName, MountPath := X.MountPath, SubPath := X.DataPath } ] := by
  cases hc : p.CapabilityProperties.CustomProperties with
  | none =>
    simp [buildVolumes, buildVolumeMounts, isCustomPropertiesNilOrEmpty, hc, pure, Except.pure]
  | some c =>
    by_cases h1 : c.Value = "" <;> by_cases h2 : c.ValueFrom = "" <;>
      simp [buildVolumes, buildVolumeMounts, isCustomPropertiesNilOrEmpty,
        determineCustomPropertiesSource, hc, h1, h2, pure, Except.pure, bind, Except.bind]

/-- C14: for non-empty custom properties the volume of `buildVolumes` points at
the secret `ValueFrom` when that is non-empty (also when `Value` is set too),
and otherwise at `Name-serviceAccountOwner-Suffix`; for properties made by
`NewStatefulSetProperties` with an empty owner and an inline value this is
`Name-module-Suffix`. -/
theorem buildVolumes_secretName (X : Externals) (p : statefulSetProperties)
    (c : v1alpha1.DynaKubeValueSource) (hc : p.CapabilityProperties.CustomProperties = some c)
    (hne : c.Value ≠ "" ∨ c.ValueFrom ≠ "") :
    (∃ v, buildVolumes X p = .ok [v] ∧
      v.VolumeSource.Secret.map (fun s => s.SecretName) = some
        (if c.ValueFrom ≠ "" then c.ValueFrom
         else p.DynaKube.Name ++ "-" ++ p.serviceAccountOwner ++ "-" ++ X.Suffix)) ∧
    (∀ (d : v1alpha1.DynaKube) (cp : v1alpha1.CapabilityProperties)
      (u h module capabilityName : String),
      cp.CustomProperties = some c → c.ValueFrom = "" →
      ∃ v, buildVolumes X (NewStatefulSetProperties d cp u h module capabilityName "")
          = .ok [v] ∧
        v.VolumeSource.Secret.map (fun s => s.SecretName)
          = some (d.Name ++ "-" ++ module ++ "-" ++ X.Suffix)) := by
  constructor
  · by_cases h2 : c.ValueFrom = ""
    · have h1 : c.Value ≠ "" := by
        rcases hne with h | h
        · exact h
        · exact absurd h2 h
      exact ⟨_, by
        simp only [buildVolumes, isCustomPropertiesNilOrEmpty, determineCustomPropertiesSource,
          hc, h1, h2, pure, Except.pure, bind, Except.bind]
        rfl, by simp [h2]⟩
    · exact ⟨_, by
        simp only [buildVolumes, isCustomPropertiesNilOrEmpty, determineCustomPropertiesSource,
          hc, h2, pure, Except.pure, bind, Except.bind]
        simp
        rfl, by simp [h2]⟩
  · intro d cp u h module capabilityName hcp h2
    have h1 : c.Value ≠ "" := by
      rcases hne with h | h
      · exact h
      · exact absurd h2 h
    exact ⟨_, by
      simp only [buildVolumes, isCustomPropertiesNilOrEmpty, determineCustomPropertiesSource,
        NewStatefulSetProperties, hcp, h1, h2, pure, Except.pure, bind, Except.bind]
      rfl, by simp⟩

/-- The routing test with inline custom properties: the volume points at the
secret `-routing-custom-properties`, under which the test finds the secret. -/
theorem buildVolumes_secretName_witness :
    ∃ v, buildVolumes sampleExternals customPropertiesProperties = .ok [v] ∧
      v.VolumeSource.Secret.map (fun s => s.SecretName) = some "-routing-custom-properties" :=
  (buildVolumes_secretName sampleExternals customPropertiesProperties
    { Value := "test-value" } rfl (Or.inl (by decide))).1

end capability

namespace capability

/-- C15: for properties made by `NewStatefulSetProperties`,
`determineServiceAccountName` returns the capability's `ServiceAccountName`
when it is non-empty and otherwise `dynatrace-` followed by the service-account
owner, which is `module` when the owner argument was empty; with no override and
no owner the result is `dynatrace-` followed by `module`, and the result is
never empty. -/
theorem determineServiceAccountName_selection (d : v1alpha1.DynaKube)
    (cp : v1alpha1.CapabilityProperties) (u h module capabilityName owner : String) :
    (NewStatefulSetProperties d cp u h module capabilityName owner).serviceAccountOwner
      = (if owner = "" then module else owner) ∧
    determineServiceAccountName (NewStatefulSetProperties d cp u h module capabilityName owner)
      = (if cp.ServiceAccountName ≠ "" then cp.ServiceAccountName
         else "dynatrace-" ++ (if owner = "" then module else owner)) ∧
    (cp.ServiceAccountName = "" → owner = "" →
      determineServiceAccountName (NewStatefulSetProperties d cp u h module capabilityName owner)
        = "dynatrace-" ++ module) ∧
    determineServiceAccountName (NewStatefulSetProperties d cp u h module capabilityName owner)
      ≠ "" := by
  have key : determineServiceAccountName
      (NewStatefulSetProperties d cp u h module capabilityName owner)
      = (if cp.ServiceAccountName ≠ "" then cp.ServiceAccountName
         else "dynatrace-" ++ (if owner = "" then module else owner)) := by
    by_cases hs : cp.ServiceAccountName = ""
    · simp [determineServiceAccountName, NewStatefulSetProperties, hs, serviceAccountPrefix]
    · simp [determineServiceAccountName, NewStatefulSetProperties, hs]
  refine ⟨rfl, key, ?_, ?_⟩
  · intro hs ho
    rw [key]
    simp [hs, ho]
  · rw [key]
    by_cases hs : cp.ServiceAccountName = ""
    · simp only [hs, ne_eq, not_true_eq_false, if_false]
      intro hempty
      have hl := congrArg String.length hempty
      rw [String.length_append] at hl
      have h10 : ("dynatrace-" : String).length = 10 := by decide
      have h0 : ("" : String).length = 0 := by decide
      omega
    · simp [hs]

/-- C16: the pod spec `buildTemplateSpec` returns requires exactly two
node-selector terms, the same for every input: first
`beta.kubernetes.io/arch In [amd64, arm64]` with `beta.kubernetes.io/os In
[linux]`, then `kubernetes.io/arch In [amd64, arm64]` with `kubernetes.io/os In
[linux]`. -/
theorem buildTemplateSpec_nodeAffinity (X : Externals) (p : statefulSetProperties) :
    ∃ spec, buildTemplateSpec X p = .ok spec ∧
      spec.Affinity = some ({ NodeAffinity := some ({ RequiredDuringSchedulingIgnoredDuringExecution := some ({ NodeSelectorTerms := [ { MatchExpressions := [ { Key := "beta.kubernetes.io/arch", Operator := "In", Values := ["amd64", "arm64"] }, { Key := "beta.kubernetes.io/os", Operator := "In", Values := ["linux"] } ], MatchFields := [] }, { MatchExpressions := [ { Key := "kubernetes.io/arch", Operator := "In", Values := ["amd64", "arm64"] }, { Key := "kubernetes.io/os", Operator := "In", Values := ["linux"] } ], MatchFields := [] } ] }) }) }) := by
  obtain ⟨spec, _, _, hs, _, _, _, _, _, _, _, _, ha⟩ := buildTemplateSpec_eq X p
  exact ⟨spec, hs, ha⟩

/-- C19: the pod spec `buildTemplateSpec` returns has exactly one
image-pull-secret reference, named by the DynaKube `Name` followed by
`dtpullsecret.PullSecretSuffix`; any other properties with the same DynaKube
`Name` get the same reference list. -/
theorem buildTemplateSpec_imagePullSecrets (X : Externals) (p : statefulSetProperties) :
    ∃ spec, buildTemplateSpec X p = .ok spec ∧
      spec.ImagePullSecrets = [ { Name := p.DynaKube.Name ++ X.PullSecretSuffix } ] ∧
      ∀ q : statefulSetProperties, q.DynaKube.Name = p.DynaKube.Name →
        ∃ other, buildTemplateSpec X q = .ok other ∧
          other.ImagePullSecrets = spec.ImagePullSecrets := by
  obtain ⟨spec, _, _, hs, _, _, _, _, _, _, _, hi, _⟩ := buildTemplateSpec_eq X p
  refine ⟨spec, hs, hi, ?_⟩
  intro q hq
  obtain ⟨other, _, _, ho, _, _, _, _, _, _, _, hj, _⟩ := buildTemplateSpec_eq X q
  exact ⟨other, ho, by rw [hj, hi, hq]⟩

end capability

/-- C20: for a DynaKube `d` and cluster UID `u`, the Kubernetes-monitoring
builder and the generic builder run on `NewStatefulSetProperties d
(capability properties of the monitoring spec) u h "kubemon"
"kubernetes_monitoring" "kubernetes-monitoring"` return the same argument list
and the same environment list, and both environment builders return a list. -/
theorem kubemon_buildArgs_buildEnvs_agree (d : v1alpha1.DynaKube) (u h : String) :
    kubemon.buildArgs d
      = capability.buildArgs (capability.NewStatefulSetProperties d
          d.Spec.KubernetesMonitoringSpec.CapabilityProperties u h "kubemon"
          "kubernetes_monitoring" "kubernetes-monitoring") ∧
    kubemon.buildEnvs d u
      = capability.buildEnvs (capability.NewStatefulSetProperties d
          d.Spec.KubernetesMonitoringSpec.CapabilityProperties u h "kubemon"
          "kubernetes_monitoring" "kubernetes-monitoring") ∧
    ∃ envs, kubemon.buildEnvs d u = .ok envs := by
  refine ⟨?_, ?_, kubemon.monitoringEnvs_isOk d u⟩
  · cases hp : d.Spec.Proxy with
    | none => rfl
    | some proxy => rfl
  · unfold kubemon.buildEnvs capability.buildEnvs
    cases hp : d.Spec.Proxy with
    | none =>
      simp [capability.NewStatefulSetProperties, hp, kubemon.isProxyNilOrEmpty,
        capability.isProxyNilOrEmpty, pure, Except.pure]
      exact ⟨⟨rfl, rfl⟩, rfl, rfl⟩
    | some proxy =>
      by_cases h1 : proxy.Value = "" <;> by_cases h2 : proxy.ValueFrom = "" <;>
        simp [capability.NewStatefulSetProperties, hp, kubemon.isProxyNilOrEmpty,
          capability.isProxyNilOrEmpty, capability.buildProxyEnv, h1, h2, pure, Except.pure,
          bind, Except.bind] <;>
        first
        | exact ⟨⟨rfl, rfl⟩, rfl, rfl⟩
        | exact ⟨⟨rfl, rfl⟩, rfl, rfl, rfl⟩
        | exact ⟨⟨rfl, rfl⟩, rfl, rfl, rfl, rfl⟩

/-! ## Failures of the serialization -/

namespace json

theorem intOrString_error (v : intstr.IntOrString) (e : Failure)
    (h : intOrString v = .error e) : ∃ msg, e = .error msg := by
  unfold intOrString at h
  split at h
  · cases h
  · split at h
    · cases h
    · cases h
      exact ⟨_, rfl⟩

theorem httpGetAction_error (a : corev1.HTTPGetAction) (e : Failure)
    (h : httpGetAction a = .error e) : ∃ msg, e = .error msg := by
  unfold httpGetAction at h
  cases hp : intOrString a.Port with
  | error e' =>
    simp only [hp, bind, Except.bind] at h
    cases h
    exact intOrString_error _ _ hp
  | ok s => simp [hp, bind, Except.bind, pure, Except.pure] at h

theorem probe_error (p : corev1.Probe) (e : Failure)
    (h : probe p = .error e) : ∃ msg, e = .error msg := by
  unfold probe at h
  cases hg : p.Handler.HTTPGet with
  | none => simp [hg, bind, Except.bind, pure, Except.pure] at h
  | some a =>
    cases ha : httpGetAction a with
    | error e' =>
      simp only [hg, ha, bind, Except.bind] at h
      cases h
      exact httpGetAction_error _ _ ha
    | ok s => simp [hg, ha, bind, Except.bind, pure, Except.pure] at h

theorem probeOmit_error (key : String) (p : Option corev1.Probe) (e : Failure)
    (h : probeOmit key p = .error e) : ∃ msg, e = .error msg := by
  cases p with
  | none => simp [probeOmit, pure, Except.pure] at h
  | some p =>
    cases hp : probe p with
    | error e' =>
      simp only [probeOmit, hp, bind, Except.bind] at h
      cases h
      exact probe_error _ _ hp
    | ok s => simp [probeOmit, hp, bind, Except.bind, pure, Except.pure] at h

theorem container_error (c : corev1.Container) (e : Failure)
    (h : container c = .error e) : ∃ msg, e = .error msg := by
  unfold container at h
  cases hl : probeOmit "livenessProbe" c.LivenessProbe with
  | error e' =>
    simp only [hl, bind, Except.bind] at h
    cases h
    exact probeOmit_error _ _ _ hl
  | ok l =>
    cases hr : probeOmit "readinessProbe" c.ReadinessProbe with
    | error e' =>
      simp only [hl, hr, bind, Except.bind] at h
      cases h
      exact probeOmit_error _ _ _ hr
    | ok r => simp [hl, hr, bind, Except.bind, pure, Except.pure] at h

theorem mapM_container_error (cs : List corev1.Container) (e : Failure)
    (h : mapM container cs = .error e) : ∃ msg, e = .error msg := by
  induction cs with
  | nil => simp [mapM, pure, Except.pure] at h
  | cons c rest ih =>
    unfold mapM at h
    cases hc : container c with
    | error e' =>
      simp only [hc, bind, Except.bind] at h
      cases h
      exact container_error _ _ hc
    | ok s =>
      cases hr : mapM container rest with
      | error e' =>
        simp only [hc, hr, bind, Except.bind] at h
        cases h
        exact ih hr
      | ok ss => simp [hc, hr, bind, Except.bind, pure, Except.pure] at h

/-- `json.Marshal` fails only by returning an error value: it does not panic. -/
theorem Marshal_error (sts : appsv1.StatefulSet) (e : Failure)
    (h : Marshal sts = .error e) : ∃ msg, e = .error msg := by
  unfold Marshal statefulSetSpec podSpec at h
  cases hc : mapM container sts.Spec.Template.Spec.Containers with
  | error e' =>
    simp only [hc, bind, Except.bind] at h
    cases h
    exact mapM_container_error _ _ hc
  | ok ss => simp [hc, bind, Except.bind, pure, Except.pure] at h

end json

namespace capability

/-- `generateStatefulSetHash` fails exactly when `json.Marshal` does, with the
same error value. -/
theorem generateStatefulSetHash_error (sts : appsv1.StatefulSet) (e : Failure) :
    generateStatefulSetHash sts = .error e ↔ json.Marshal sts = .error e := by
  unfold generateStatefulSetHash
  cases hd : json.Marshal sts with
  | error e' => simp [bind, Except.bind]
  | ok data => simp [bind, Except.bind, pure, Except.pure]

end capability

namespace capability

/-- C17: with an empty hook list `CreateStatefulSet` returns a manifest whose
pod-template annotations are exactly `image-hash`, `image-version` and
`custom-properties-hash` with the ActiveGate status' image hash and image
version and the properties' custom-properties hash, and whose object-level
annotations are exactly the `template-hash` entry holding the hash of the
manifest as built; the three entries are already in that manifest, so
properties with another custom-properties hash give another manifest before the
hash is taken. -/
theorem CreateStatefulSet_annotations (X : Externals) (p : statefulSetProperties)
    (hh : p.onAfterCreate = []) :
    ∃ sts base hash, CreateStatefulSet X p = .ok sts ∧ newManifest X p = .ok base ∧
      generateStatefulSetHash base = .ok hash ∧
      sts.Spec.Template.ObjectMeta.Annotations = some
        [ ("internal.operator.dynatrace.com/image-hash", p.DynaKube.Status.ActiveGate.ImageHash),
          ("internal.operator.dynatrace.com/image-version",
            p.DynaKube.Status.ActiveGate.ImageVersion),
          ("internal.operator.dynatrace.com/custom-properties-hash", p.customPropertiesHash) ] ∧
      base.Spec.Template.ObjectMeta.Annotations = sts.Spec.Template.ObjectMeta.Annotations ∧
      sts.ObjectMeta.Annotations
        = some [("internal.operator.dynatrace.com/template-hash", hash)] ∧
      ∀ q : statefulSetProperties, q.customPropertiesHash ≠ p.customPropertiesHash →
        ∃ other, newManifest X q = .ok other ∧ other ≠ base := by
  obtain ⟨volumes, hv⟩ := buildVolumes_isOk X p
  obtain ⟨m, hm, _, _, _, _, _, _, ha, _, _, _, hta, _, _, _, c, hc, _, _, _, hok⟩ :=
    newManifest_eq X p _ volumes (buildEnvs_eq p) hv
  have hs : json.Serializable m = true := by simp [json.Serializable, hc, hok]
  obtain ⟨data, hd⟩ := (json.Marshal_isOk m).2 hs
  have hg : generateStatefulSetHash m
      = .ok (strconv.FormatUint (fnv.sum32 (stringBytes data))) := by
    simp [generateStatefulSetHash, hd, bind, Except.bind, pure, Except.pure]
  have hcss := CreateStatefulSet_eq X p m hm
  rw [hh] at hcss
  simp only [runOnAfterCreate, List.foldl_nil, hg, ha] at hcss
  refine ⟨_, m, _, hcss, hm, hg, hta, rfl, rfl, ?_⟩
  intro q hq
  obtain ⟨qvolumes, hqv⟩ := buildVolumes_isOk X q
  obtain ⟨n, hn, _, _, _, _, _, _, _, _, _, _, hqa, _⟩ :=
    newManifest_eq X q _ qvolumes (buildEnvs_eq q) hqv
  refine ⟨n, hn, ?_⟩
  intro heq
  rw [heq, hta] at hqa
  simp only [Option.some.injEq, List.cons.injEq, Prod.mk.injEq, and_true, true_and] at hqa
  exact hq hqa.2.2.symm

/-- The manifest of the routing test: its template annotations are the three
entries with empty values, its own annotations the template hash alone. -/
theorem CreateStatefulSet_annotations_witness :
    ∃ sts base hash, CreateStatefulSet sampleExternals testProperties = .ok sts ∧
      newManifest sampleExternals testProperties = .ok base ∧
      generateStatefulSetHash base = .ok hash ∧
      sts.Spec.Template.ObjectMeta.Annotations = some
        [ ("internal.operator.dynatrace.com/image-hash", ""),
          ("internal.operator.dynatrace.com/image-version", ""),
          ("internal.operator.dynatrace.com/custom-properties-hash", "") ] ∧
      base.Spec.Template.ObjectMeta.Annotations = sts.Spec.Template.ObjectMeta.Annotations ∧
      sts.ObjectMeta.Annotations
        = some [("internal.operator.dynatrace.com/template-hash", hash)] ∧
      ∀ q : statefulSetProperties, q.customPropertiesHash ≠ "" →
        ∃ other, newManifest sampleExternals q = .ok other ∧ other ≠ base :=
  CreateStatefulSet_annotations sampleExternals testProperties rfl

/-- C11, as amended: `CreateStatefulSet` does not check the base name; for
properties with an empty DynaKube `Name` and an empty hook list (the list
`NewStatefulSetProperties` sets) it returns a manifest, named `-` followed by
`module`, and no error. -/
theorem CreateStatefulSet_empty_name (X : Externals) (p : statefulSetProperties)
    (hn : p.DynaKube.Name = "") (hh : p.onAfterCreate = []) :
    ∃ sts, CreateStatefulSet X p = .ok sts ∧ sts.ObjectMeta.Name = "-" ++ p.module := by
  obtain ⟨sts, hs⟩ := CreateStatefulSet_isOk X p hh
  obtain ⟨m, hm, _, hname, _⟩ := CreateStatefulSet_ok_inv X p sts hs
  obtain ⟨volumes, hv⟩ := buildVolumes_isOk X p
  obtain ⟨n, hnm, _, _, hnn, _⟩ := newManifest_eq X p _ volumes (buildEnvs_eq p) hv
  rw [hm] at hnm
  injection hnm with hmn
  subst hmn
  refine ⟨sts, hs, ?_⟩
  rw [hname, hh]
  simp only [runOnAfterCreate, List.foldl_nil]
  rw [hnn, hn]
  rfl

/-- The routing test's properties have an empty name and give a manifest named
`-routing`. -/
theorem CreateStatefulSet_empty_name_witness :
    ∃ sts, CreateStatefulSet sampleExternals testProperties = .ok sts ∧
      sts.ObjectMeta.Name = "-" ++ "routing" :=
  CreateStatefulSet_empty_name sampleExternals testProperties rfl rfl

set_option maxRecDepth 100000 in
/-- C11 fails on the properties of the routing test: the DynaKube has no name,
and `CreateStatefulSet` returns a manifest, named `-routing`. -/
theorem CreateStatefulSet_empty_name_counterexample :
    testProperties.DynaKube.Name = "" ∧
    (CreateStatefulSet sampleExternals testProperties).map (fun sts => sts.ObjectMeta.Name)
      = .ok "-routing" := by
  decide!

/-- C12, as amended: `CreateStatefulSet` returns an error exactly when
`generateStatefulSetHash` of the manifest left by the hooks returns one, and it
is that error; when the hash is computed and the annotation map of that
manifest is non-nil, it returns a manifest that carries the hash under
`template-hash`; when the hash is computed and a hook has set the annotation
map to nil, the write of the annotation panics and nothing is returned. With an
empty hook list a manifest is returned. -/
theorem CreateStatefulSet_failure (X : Externals) (p : statefulSetProperties) :
    ∃ base, newManifest X p = .ok base ∧
      (∀ msg, CreateStatefulSet X p = .error (.error msg) ↔
        generateStatefulSetHash (runOnAfterCreate p.onAfterCreate base) = .error (.error msg)) ∧
      (∀ e, generateStatefulSetHash (runOnAfterCreate p.onAfterCreate base) = .error e →
        (∃ msg, e = .error msg) ∧ CreateStatefulSet X p = .error e) ∧
      (∀ hash, generateStatefulSetHash (runOnAfterCreate p.onAfterCreate base) = .ok hash →
        (runOnAfterCreate p.onAfterCreate base).ObjectMeta.Annotations ≠ none →
        ∃ sts annotations, CreateStatefulSet X p = .ok sts ∧
          sts.ObjectMeta.Annotations = some annotations ∧
          annotations.get? "internal.operator.dynatrace.com/template-hash" = some hash ∧
          GetTemplateHash sts = hash) ∧
      (∀ hash, generateStatefulSetHash (runOnAfterCreate p.onAfterCreate base) = .ok hash →
        (runOnAfterCreate p.onAfterCreate base).ObjectMeta.Annotations = none →
        CreateStatefulSet X p = .error .nilMapAssignment) ∧
      CreateStatefulSet X p ≠ .error .nilPointerDereference ∧
      (p.onAfterCreate = [] → ∃ sts, CreateStatefulSet X p = .ok sts) := by
  obtain ⟨m, hm, _, _⟩ := newManifest_isOk X p
  have hcss := CreateStatefulSet_eq X p m hm
  refine ⟨m, hm, ?_, ?_, ?_, ?_, ?_, CreateStatefulSet_isOk X p⟩
  · intro msg
    rw [hcss]
    cases hg : generateStatefulSetHash (runOnAfterCreate p.onAfterCreate m) with
    | error e => simp
    | ok hash =>
      cases ha : (runOnAfterCreate p.onAfterCreate m).ObjectMeta.Annotations with
      | none => simp
      | some annotations => simp
  · intro e he
    refine ⟨json.Marshal_error _ e ((generateStatefulSetHash_error _ e).1 he), ?_⟩
    rw [hcss, he]
  · intro hash hg hne
    cases ha : (runOnAfterCreate p.onAfterCreate m).ObjectMeta.Annotations with
    | none => exact absurd ha hne
    | some annotations =>
      rw [hcss, hg]
      simp only [ha]
      refine ⟨_, _, rfl, rfl, ?_, ?_⟩
      · rw [annotationTemplateHash, StringMap.get?_set]
        simp
      · simp [GetTemplateHash, StringMap.get_set_self]
  · intro hash hg ha
    rw [hcss, hg]
    simp only [ha]
  · rw [hcss]
    cases hg : generateStatefulSetHash (runOnAfterCreate p.onAfterCreate m) with
    | error e =>
      obtain ⟨msg, hmsg⟩ := json.Marshal_error _ e ((generateStatefulSetHash_error _ e).1 hg)
      subst hmsg
      simp
    | ok hash =>
      cases ha : (runOnAfterCreate p.onAfterCreate m).ObjectMeta.Annotations with
      | none => simp
      | some annotations => simp

set_option maxRecDepth 100000 in
/-- C12 fails with a hook that sets the annotation map to nil: the hash of the
manifest left by the hook is computed (`2090305674`, no error), yet
`CreateStatefulSet` returns neither a manifest nor an error: the write of the
annotation panics. -/
theorem CreateStatefulSet_failure_counterexample :
    (newManifest sampleExternals nilAnnotationsProperties).bind
        (fun base => generateStatefulSetHash
          (runOnAfterCreate nilAnnotationsProperties.onAfterCreate base))
      = .ok "2090305674" ∧
    CreateStatefulSet sampleExternals nilAnnotationsProperties = .error .nilMapAssignment := by
  decide!

end capability

namespace capability

set_option maxRecDepth 100000 in
/-- A hook can make the serialization fail: with `badPortHook` the hash of the
manifest left by the hook is the error of `json.Marshal`, and
`CreateStatefulSet` returns that error. -/
theorem CreateStatefulSet_marshal_error_example :
    CreateStatefulSet sampleExternals badPortProperties = .error (.error
      "json: error calling MarshalJSON for type intstr.IntOrString: impossible IntOrString.Type") := by
  decide!

end capability

/-! ## Shape of the decimal text -/

namespace strconv

theorem digitChar_isDigit (k : Nat) (h : k < 10) : (Nat.digitChar k).isDigit = true := by
  interval_cases k <;> rfl

theorem digitChar_ne_zero (k : Nat) (h0 : 0 < k) (h : k < 10) : Nat.digitChar k ≠ '0' := by
  interval_cases k <;> decide

theorem toDigitsCore_isDigit (fuel n : Nat) (ds : List Char)
    (hds : ∀ c ∈ ds, c.isDigit = true) :
    ∀ c ∈ Nat.toDigitsCore 10 fuel n ds, c.isDigit = true := by
  induction fuel generalizing n ds with
  | zero => exact hds
  | succ fuel ih =>
    have hcons : ∀ c ∈ Nat.digitChar (n % 10) :: ds, c.isDigit = true := by
      intro c hc
      rcases List.mem_cons.1 hc with h | h
      · rw [h]
        exact digitChar_isDigit _ (Nat.mod_lt _ (by decide))
      · exact hds c h
    unfold Nat.toDigitsCore
    by_cases h0 : n / 10 = 0
    · simp only [h0, if_true]
      exact hcons
    · simp only [h0, if_false]
      exact ih (n / 10) _ hcons

theorem toDigitsCore_head (fuel n : Nat) (ds : List Char) (h : n < fuel) (hn : 0 < n) :
    ∃ c rest, Nat.toDigitsCore 10 fuel n ds = c :: rest ∧ c ≠ '0' := by
  induction fuel generalizing n ds with
  | zero => omega
  | succ fuel ih =>
    unfold Nat.toDigitsCore
    by_cases h0 : n / 10 = 0
    · simp only [h0, if_true]
      exact ⟨_, _, rfl, digitChar_ne_zero _ (by omega) (Nat.mod_lt _ (by decide))⟩
    · simp only [h0, if_false]
      exact ih (n / 10) _ (by omega) (by omega)

theorem toDigitsCore_length_pos (fuel n : Nat) (ds : List Char) (h : 0 < fuel) :
    1 ≤ (Nat.toDigitsCore 10 fuel n ds).length := by
  induction fuel generalizing n ds with
  | zero => omega
  | succ fuel ih =>
    unfold Nat.toDigitsCore
    by_cases h0 : n / 10 = 0
    · simp [h0]
    · simp only [h0, if_false]
      cases fuel with
      | zero => simp [Nat.toDigitsCore]
      | succ fuel => exact ih (n / 10) _ (Nat.succ_pos _)

/-- The decimal text consists of decimal digits only. -/
theorem FormatUint_isDigit (n : Nat) : ∀ c ∈ (FormatUint n).toList, c.isDigit = true :=
  toDigitsCore_isDigit (n + 1) n [] (fun _ hc => absurd hc (List.not_mem_nil _))

/-- The decimal text is not empty. -/
theorem FormatUint_length_pos (n : Nat) : 1 ≤ (FormatUint n).length :=
  toDigitsCore_length_pos (n + 1) n [] (Nat.succ_pos n)

/-- The decimal text of a 32-bit value has at most ten characters. -/
theorem FormatUint_length_le (n : Nat) (h : n < 2 ^ 32) : (FormatUint n).length ≤ 10 :=
  Nat.repr_length n 10 (by decide) (Nat.lt_trans h (by decide))

/-- The decimal text starts with `0` only when it is `0`. -/
theorem FormatUint_leading_zero (n : Nat) (h : (FormatUint n).toList.head? = some '0') :
    FormatUint n = "0" := by
  by_cases hn : n = 0
  · subst hn
    rfl
  · obtain ⟨c, rest, hc, hne⟩ := toDigitsCore_head (n + 1) n [] (Nat.lt_succ_self n) (by omega)
    have hl : (FormatUint n).toList = c :: rest := hc
    rw [hl] at h
    simp only [List.head?_cons, Option.some.injEq] at h
    exact absurd h hne

end strconv

namespace capability

/-- C18: when `generateStatefulSetHash` returns a hash, the hash is the decimal
text of the 32-bit FNV-1 hash of the bytes of the JSON serialization (start at
2166136261; for each byte multiply by 16777619 modulo 2^32, then xor the byte
in), and `kubemon.generateStatefulSetHash` returns the same; the text has
between 1 and 10 characters, all of them decimal digits, starts with `0` only
when it is `0`, and denotes a number below 2^32. -/
theorem generateStatefulSetHash_format (sts : appsv1.StatefulSet) (hash : String)
    (h : generateStatefulSetHash sts = .ok hash) :
    ∃ data, json.Marshal sts = .ok data ∧
      hash = strconv.FormatUint
        ((stringBytes data).foldl (fun acc b => ((acc * 16777619) % 2 ^ 32) ^^^ b) 2166136261) ∧
      kubemon.generateStatefulSetHash sts = .ok hash ∧
      1 ≤ hash.length ∧ hash.length ≤ 10 ∧
      (∀ c ∈ hash.toList, c.isDigit = true) ∧
      (hash.toList.head? = some '0' → hash = "0") ∧
      strconv.decimalValue hash < 2 ^ 32 := by
  have hk : kubemon.generateStatefulSetHash sts = .ok hash := h
  unfold generateStatefulSetHash at h
  cases hd : json.Marshal sts with
  | error e => simp [hd, bind, Except.bind] at h
  | ok data =>
    simp only [hd, bind, Except.bind, pure, Except.pure, Except.ok.injEq] at h
    subst h
    refine ⟨data, rfl, rfl, hk, strconv.FormatUint_length_pos _,
      strconv.FormatUint_length_le _ (fnv.sum32_lt data), strconv.FormatUint_isDigit _,
      strconv.FormatUint_leading_zero _, ?_⟩
    rw [strconv.decimalValue_FormatUint]
    exact fnv.sum32_lt data

end capability

namespace capability

set_option maxRecDepth 100000 in
/-- The hash of the routing test's manifest is `775475449`: nine digits, no
leading zero, below 2^32. -/
theorem generateStatefulSetHash_format_witness :
    ∃ data, json.Marshal testManifest = .ok data ∧
      "775475449" = strconv.FormatUint
        ((stringBytes data).foldl (fun acc b => ((acc * 16777619) % 2 ^ 32) ^^^ b) 2166136261) ∧
      kubemon.generateStatefulSetHash testManifest = .ok "775475449" ∧
      1 ≤ "775475449".length ∧ "775475449".length ≤ 10 ∧
      (∀ c ∈ "775475449".toList, c.isDigit = true) ∧
      ("775475449".toList.head? = some '0' → "775475449" = "0") ∧
      strconv.decimalValue "775475449" < 2 ^ 32 :=
  generateStatefulSetHash_format testManifest "775475449" (by decide!)

end capability

/-! ## `MergeLabels` as a union in which the last argument wins -/

/-- Arguments without the key leave the choice for the key as it is. -/
theorem foldl_lastBinding_absent (labels : List (Option StringMap)) (k : String)
    (acc : Option String) (h : ∀ m ∈ labels, (m.getD []).get? k = none) :
    labels.foldl (fun acc m =>
      match (m.getD []).get? k with
      | some w => some w
      | none => acc) acc = acc := by
  induction labels generalizing acc with
  | nil => rfl
  | cons m rest ih =>
    simp only [List.foldl_cons, h m (List.mem_cons_self _ _)]
    exact ih acc (fun m' hm' => h m' (List.mem_cons_of_mem _ hm'))

/-- No argument has the key exactly when nothing is chosen for it. -/
theorem foldl_lastBinding_eq_none (labels : List (Option StringMap)) (k : String)
    (acc : Option String) :
    labels.foldl (fun acc m =>
      match (m.getD []).get? k with
      | some w => some w
      | none => acc) acc = none ↔
    acc = none ∧ ∀ m ∈ labels, (m.getD []).get? k = none := by
  induction labels generalizing acc with
  | nil => simp
  | cons m rest ih =>
    simp only [List.foldl_cons, ih, List.mem_cons, forall_eq_or_imp]
    cases hm : (m.getD []).get? k with
    | some w => simp
    | none => simp

/-- The binding of `MergeLabels` of one, two and three maps. -/
theorem get?_MergeLabels_three (a b c : Option StringMap) (k : String) :
    ((MergeLabels [a, b, c]).getD []).get? k =
      match (c.getD []).get? k with
      | some w => some w
      | none =>
        match (b.getD []).get? k with
        | some w => some w
        | none => (a.getD []).get? k := by
  rw [get?_MergeLabels]
  simp only [List.foldl_cons, List.foldl_nil]
  cases (c.getD []).get? k <;> cases (b.getD []).get? k <;> cases (a.getD []).get? k <;> rfl

theorem get?_MergeLabels_two (a b : Option StringMap) (k : String) :
    ((MergeLabels [a, b]).getD []).get? k =
      match (b.getD []).get? k with
      | some w => some w
      | none => (a.getD []).get? k := by
  rw [get?_MergeLabels]
  simp only [List.foldl_cons, List.foldl_nil]
  cases (b.getD []).get? k <;> cases (a.getD []).get? k <;> rfl

theorem get?_MergeLabels_one (a : Option StringMap) (k : String) :
    ((MergeLabels [a]).getD []).get? k = (a.getD []).get? k := by
  rw [get?_MergeLabels]
  simp only [List.foldl_cons, List.foldl_nil]
  cases (a.getD []).get? k <;> rfl

/-- C25: `MergeLabels` returns a non-nil map; it has a key exactly when one of
the arguments (nil maps count as empty) has it, and binds the key to the value
of the last argument that has it; it is the empty map when every argument is
nil or empty, in particular when there is no argument. -/
theorem MergeLabels_last_wins (labels : List (Option StringMap)) :
    ∃ res, MergeLabels labels = some res ∧
      (∀ k, (∃ v, res.get? k = some v) ↔
        ∃ m ∈ labels, ∃ v, (m.getD []).get? k = some v) ∧
      (∀ k pre m post v, labels = pre ++ m :: post → (m.getD []).get? k = some v →
        (∀ n ∈ post, (n.getD []).get? k = none) → res.get? k = some v) ∧
      ((∀ m ∈ labels, m = none ∨ m = some []) → res = []) ∧
      (labels = [] → res = []) := by
  obtain ⟨res, hres⟩ : ∃ res, MergeLabels labels = some res := ⟨_, rfl⟩
  have hg : ∀ k, res.get? k = labels.foldl (fun acc m =>
      match (m.getD []).get? k with
      | some w => some w
      | none => acc) none := by
    intro k
    have h := get?_MergeLabels labels k
    rw [hres] at h
    exact h
  have hn : ∀ k, res.get? k = none ↔ ∀ m ∈ labels, (m.getD []).get? k = none := by
    intro k
    rw [hg k]
    have h := foldl_lastBinding_eq_none labels k none
    exact ⟨fun h1 => (h.1 h1).2, fun h1 => h.2 ⟨rfl, h1⟩⟩
  refine ⟨res, hres, ?_, ?_, ?_, ?_⟩
  · intro k
    constructor
    · rintro ⟨v, hv⟩
      by_contra hcon
      have hall : ∀ m ∈ labels, (m.getD []).get? k = none := by
        intro m hm
        cases hmk : (m.getD []).get? k with
        | none => rfl
        | some w => exact absurd ⟨m, hm, w, hmk⟩ hcon
      rw [(hn k).2 hall] at hv
      cases hv
    · rintro ⟨m, hm, v, hv⟩
      cases hr : res.get? k with
      | some w => exact ⟨w, rfl⟩
      | none =>
        have := (hn k).1 hr m hm
        rw [this] at hv
        cases hv
  · intro k pre m post v hl hv hpost
    rw [hg k, hl, List.foldl_append, List.foldl_cons, hv]
    exact foldl_lastBinding_absent post k (some v) hpost
  · intro hall
    have key : ∀ (ls : List (Option StringMap)), (∀ m ∈ ls, m = none ∨ m = some []) →
        ls.foldl (fun res m => (m.getD []).foldl (fun res e => StringMap.set res e.1 e.2) res)
          ([] : StringMap) = [] := by
      intro ls
      induction ls with
      | nil => intro _; rfl
      | cons m rest ih =>
        intro h
        have hm : m.getD [] = [] := by
          rcases h m (List.mem_cons_self _ _) with h1 | h1 <;> rw [h1] <;> rfl
        simp only [List.foldl_cons, hm, List.foldl_nil]
        exact ih (fun m' hm' => h m' (List.mem_cons_of_mem _ hm'))
    simp only [MergeLabels, Option.some.injEq] at hres
    rw [← hres]
    exact key labels hall
  · intro hl
    rw [hl] at hres
    simp only [MergeLabels, List.foldl_nil, Option.some.injEq] at hres
    exact hres.symm

/-- C28: read as maps (key by key, a nil map having no key), `MergeLabels` is
associative, `MergeLabels(a)`, `MergeLabels(a, {})` and `MergeLabels({}, a)`
have the bindings of `a`, and so has `MergeLabels(a, a)`. -/
theorem MergeLabels_assoc (a b c : Option StringMap) (k : String) :
    ((MergeLabels [MergeLabels [a, b], c]).getD []).get? k
      = ((MergeLabels [a, b, c]).getD []).get? k ∧
    ((MergeLabels [a, b, c]).getD []).get? k
      = ((MergeLabels [a, MergeLabels [b, c]]).getD []).get? k ∧
    ((MergeLabels [a]).getD []).get? k = (a.getD []).get? k ∧
    ((MergeLabels [a, some []]).getD []).get? k = (a.getD []).get? k ∧
    ((MergeLabels [some [], a]).getD []).get? k = (a.getD []).get? k ∧
    ((MergeLabels [a, a]).getD []).get? k = (a.getD []).get? k := by
  refine ⟨?_, ?_, get?_MergeLabels_one a k, ?_, ?_, ?_⟩
  · rw [get?_MergeLabels_two, get?_MergeLabels_two, get?_MergeLabels_three]
  · rw [get?_MergeLabels_three, get?_MergeLabels_two, get?_MergeLabels_two]
    cases (c.getD []).get? k <;> cases (b.getD []).get? k <;> rfl
  · rw [get?_MergeLabels_two]
    rfl
  · rw [get?_MergeLabels_two]
    cases (a.getD []).get? k <;> rfl
  · rw [get?_MergeLabels_two]
    cases (a.getD []).get? k <;> rfl

namespace capability

/-- C22: with an empty hook list `CreateStatefulSet` returns a manifest whose
object-level labels bind `module` to the properties' module, whatever the base
labels (`BuildLabels` of the instance and the capability properties) bind it
to, and bind every other key as the base labels do. -/
theorem CreateStatefulSet_module_label (X : Externals) (p : statefulSetProperties)
    (hh : p.onAfterCreate = []) :
    ∃ sts labels, CreateStatefulSet X p = .ok sts ∧ sts.ObjectMeta.Labels = some labels ∧
      labels.get? "module" = some p.module ∧
      ∀ k, k ≠ "module" →
        labels.get? k = ((X.BuildLabels p.DynaKube p.CapabilityProperties).getD []).get? k := by
  obtain ⟨volumes, hv⟩ := buildVolumes_isOk X p
  obtain ⟨m, hm, _, _, _, _, _, hl, ha, _, _, _, _, _, _, _, c, hc, _, _, _, hok⟩ :=
    newManifest_eq X p _ volumes (buildEnvs_eq p) hv
  have hs : json.Serializable m = true := by simp [json.Serializable, hc, hok]
  obtain ⟨data, hd⟩ := (json.Marshal_isOk m).2 hs
  have hg : generateStatefulSetHash m
      = .ok (strconv.FormatUint (fnv.sum32 (stringBytes data))) := by
    simp [generateStatefulSetHash, hd, bind, Except.bind, pure, Except.pure]
  have hcss := CreateStatefulSet_eq X p m hm
  rw [hh] at hcss
  simp only [runOnAfterCreate, List.foldl_nil, hg, ha] at hcss
  obtain ⟨labels, hlabels⟩ : ∃ labels, MergeLabels
      [X.BuildLabels p.DynaKube p.CapabilityProperties, some [(keyModule, p.module)]]
        = some labels := ⟨_, rfl⟩
  have hget : ∀ k, labels.get? k =
      match StringMap.get? [(keyModule, p.module)] k with
      | some w => some w
      | none => ((X.BuildLabels p.DynaKube p.CapabilityProperties).getD []).get? k := by
    intro k
    have h := get?_MergeLabels_two (X.BuildLabels p.DynaKube p.CapabilityProperties)
      (some [(keyModule, p.module)]) k
    rw [hlabels] at h
    exact h
  refine ⟨_, labels, hcss, by rw [← hlabels]; exact hl, ?_, ?_⟩
  · rw [hget]
    simp [StringMap.get?, keyModule]
  · intro k hk
    rw [hget]
    have : StringMap.get? [(keyModule, p.module)] k = none := by
      simp [StringMap.get?, keyModule, Ne.symm hk]
    rw [this]

/-- The instance labels bind `module` to `custom`; the manifest binds it to
`routing`. -/
theorem CreateStatefulSet_module_label_witness :
    ∃ sts labels, CreateStatefulSet sampleExternals moduleLabelProperties = .ok sts ∧
      sts.ObjectMeta.Labels = some labels ∧
      labels.get? "module" = some "routing" ∧
      ∀ k, k ≠ "module" →
        labels.get? k = ((sampleExternals.BuildLabels moduleLabelInstance
          moduleLabelInstance.Spec.RoutingSpec.CapabilityProperties).getD []).get? k :=
  CreateStatefulSet_module_label sampleExternals moduleLabelProperties rfl

end capability

namespace kubemon

/-- The labels `buildLabels` gives a key: the specification-provided labels
win over the identifying labels, which win over the instance labels. -/
theorem get?_buildLabels (d : v1alpha1.DynaKube) (k : String) :
    ((buildLabels d).getD []).get? k =
      match (d.Spec.KubernetesMonitoringSpec.CapabilityProperties.Labels.getD []).get? k with
      | some w => some w
      | none =>
        match StringMap.get? [("dynatrace", "activegate"), ("activegate", d.Name)] k with
        | some w => some w
        | none => (d.Labels.getD []).get? k := by
  unfold buildLabels
  rw [get?_MergeLabels_three]
  rfl

/-- C23, as amended: `newStatefulSet` returns a manifest whose selector is
`dynatrace = activegate`, `activegate = Name`; the pod template's labels bind
every key of the specification-provided labels to the value given there, so
every entry of the selector occurs in the template's labels with the same
value, for every choice of instance labels, when the specification-provided
labels do not bind `dynatrace` or `activegate` to another value. -/
theorem newStatefulSet_selector (X : Externals) (d : v1alpha1.DynaKube) (u h : String)
    (hd : ∀ v, (d.Spec.KubernetesMonitoringSpec.CapabilityProperties.Labels.getD []).get?
      "dynatrace" = some v → v = "activegate")
    (ha : ∀ v, (d.Spec.KubernetesMonitoringSpec.CapabilityProperties.Labels.getD []).get?
      "activegate" = some v → v = d.Name) :
    ∃ sts sel tpl, newStatefulSet X d u h = .ok sts ∧
      sts.Spec.Selector = some ({ MatchLabels := some sel }) ∧
      sel = [("dynatrace", "activegate"), ("activegate", d.Name)] ∧
      sts.Spec.Template.ObjectMeta.Labels = some tpl ∧
      (∀ k w, (d.Spec.KubernetesMonitoringSpec.CapabilityProperties.Labels.getD []).get? k
        = some w → tpl.get? k = some w) ∧
      ∀ k v, sel.get? k = some v → tpl.get? k = some v := by
  obtain ⟨envs, he⟩ := monitoringEnvs_isOk d u
  obtain ⟨volumes, hv⟩ := monitoringVolumes_isOk X d
  obtain ⟨m, hm, _, _, hann, hs⟩ := monitoringManifest_isOk X d u h
  have hm2 : ∃ m', newManifest X d u h = .ok m' ∧
      m'.Spec.Selector = some ({ MatchLabels := BuildLabelsFromInstance d }) ∧
      m'.Spec.Template.ObjectMeta.Labels = buildLabels d := by
    refine ⟨_, by
      simp only [newManifest, buildTemplateSpec, buildContainer, he, hv, bind, Except.bind,
        pure, Except.pure]
      rfl, rfl, rfl⟩
  obtain ⟨m', hm', hsel, htpl⟩ := hm2
  rw [hm] at hm'
  injection hm' with hmm
  subst hmm
  obtain ⟨data, hdata⟩ := (json.Marshal_isOk m).2 hs
  obtain ⟨tpl, htl⟩ : ∃ tpl, buildLabels d = some tpl := ⟨_, rfl⟩
  have hget : ∀ k, tpl.get? k =
      match (d.Spec.KubernetesMonitoringSpec.CapabilityProperties.Labels.getD []).get? k with
      | some w => some w
      | none =>
        match StringMap.get? [("dynatrace", "activegate"), ("activegate", d.Name)] k with
        | some w => some w
        | none => (d.Labels.getD []).get? k := by
    intro k
    have h1 := get?_buildLabels d k
    rw [htl] at h1
    exact h1
  have hsts : newStatefulSet X d u h = .ok { m with ObjectMeta := { m.ObjectMeta with
      Annotations := some (StringMap.set [] X.kubemonAnnotationTemplateHash
        (strconv.FormatUint (fnv.sum32 (stringBytes data)))) } } := by
    simp only [newStatefulSet, hm, generateStatefulSetHash, hdata, hann, bind, Except.bind, pure,
      Except.pure]
  refine ⟨_, _, tpl, hsts, hsel, rfl, by rw [← htl]; exact htpl, ?_, ?_⟩
  · intro k w hk
    rw [hget, hk]
  · intro k v hk
    rw [hget]
    cases hspec : (d.Spec.KubernetesMonitoringSpec.CapabilityProperties.Labels.getD []).get? k with
    | none => simp only [hk]
    | some w =>
      simp only
      by_cases hkd : k = "dynatrace"
      · subst hkd
        have hv' : v = "activegate" := by
          simp [StringMap.get?] at hk
          exact hk.symm
        rw [hd w hspec, hv']
      · by_cases hka : k = "activegate"
        · subst hka
          have hv' : v = d.Name := by
            simp [StringMap.get?] at hk
            exact hk.symm
          rw [ha w hspec, hv']
        · simp [StringMap.get?, Ne.symm hkd, Ne.symm hka] at hk

/-- Instance labels on the selector's keys do not reach the template: the
identifying labels replace them. -/
theorem newStatefulSet_selector_witness :
    ∃ sts sel tpl, newStatefulSet sampleExternals labelledKubemonInstance "test-uid" "" = .ok sts ∧
      sts.Spec.Selector = some ({ MatchLabels := some sel }) ∧
      sel = [("dynatrace", "activegate"), ("activegate", "test-name")] ∧
      sts.Spec.Template.ObjectMeta.Labels = some tpl ∧
      (∀ k w, StringMap.get? [("team", "a")] k = some w → tpl.get? k = some w) ∧
      ∀ k v, sel.get? k = some v → tpl.get? k = some v :=
  newStatefulSet_selector sampleExternals labelledKubemonInstance "test-uid" ""
    (fun v hv => by
      have hnone : StringMap.get? [("team", "a")] "dynatrace" = none := by decide
      rw [show (labelledKubemonInstance.Spec.KubernetesMonitoringSpec.CapabilityProperties.Labels.getD
        []) = [("team", "a")] from rfl, hnone] at hv
      cases hv)
    (fun v hv => by
      have hnone : StringMap.get? [("team", "a")] "activegate" = none := by decide
      rw [show (labelledKubemonInstance.Spec.KubernetesMonitoringSpec.CapabilityProperties.Labels.getD
        []) = [("team", "a")] from rfl, hnone] at hv
      cases hv)

set_option maxRecDepth 100000 in
/-- C23 fails when the specification-provided labels bind `dynatrace`: the
selector asks for `dynatrace = activegate`, the pod template is labelled
`dynatrace = custom`. -/
theorem newStatefulSet_selector_counterexample :
    (newStatefulSet sampleExternals overriddenSelectorInstance "test-uid" "").map
        (fun sts =>
          (sts.Spec.Selector.bind (fun s => s.MatchLabels.bind (fun m => m.get? "dynatrace")),
            sts.Spec.Template.ObjectMeta.Labels.bind (fun m => m.get? "dynatrace")))
      = .ok (some "activegate", some "custom") := by
  decide!

end kubemon

namespace capability

/-- `GetTemplateHash` of an object whose annotations are nil or lack the
template-hash key is the empty string. -/
theorem GetTemplateHash_missing (a : appsv1.StatefulSet)
    (ha : ∀ annotations, a.ObjectMeta.Annotations = some annotations →
      annotations.get? "internal.operator.dynatrace.com/template-hash" = none) :
    GetTemplateHash a = "" := by
  unfold GetTemplateHash
  cases h : a.ObjectMeta.Annotations with
  | none => rfl
  | some annotations =>
    have := ha annotations h
    simp only [StringMap.get, annotationTemplateHash, this]
    rfl

/-- C24: `GetTemplateHash` is the empty string for an object whose annotations
are nil or lack the template-hash key; the template hash of a manifest
`CreateStatefulSet` returns is never the empty string, so the manifest is
reported as changed against such an object, while two objects that both lack
the template hash are reported as unchanged. -/
theorem HasStatefulSetChanged_missing_hash (X : Externals) (p : statefulSetProperties)
    (m a b : appsv1.StatefulSet) (hm : CreateStatefulSet X p = .ok m)
    (ha : ∀ annotations, a.ObjectMeta.Annotations = some annotations →
      annotations.get? "internal.operator.dynatrace.com/template-hash" = none)
    (hb : ∀ annotations, b.ObjectMeta.Annotations = some annotations →
      annotations.get? "internal.operator.dynatrace.com/template-hash" = none) :
    GetTemplateHash a = "" ∧ GetTemplateHash m ≠ "" ∧
    HasStatefulSetChanged m a = true ∧ HasStatefulSetChanged a b = false := by
  have h1 := GetTemplateHash_missing a ha
  have h2 := GetTemplateHash_missing b hb
  obtain ⟨base, data, _, _, hhash⟩ := CreateStatefulSet_templateHash X p m hm
  have h3 : GetTemplateHash m ≠ "" := by
    rw [hhash]
    intro hempty
    have hl := strconv.FormatUint_length_pos (fnv.sum32 (stringBytes data))
    rw [hempty] at hl
    exact absurd hl (by decide)
  refine ⟨h1, h3, ?_, ?_⟩
  · simp [HasStatefulSetChanged, h1, h3]
  · simp [HasStatefulSetChanged, h1, h2]

set_option maxRecDepth 100000 in
/-- The manifest of the routing test against an object without annotations and
an object with another annotation only. -/
theorem HasStatefulSetChanged_missing_hash_witness :
    GetTemplateHash {} = "" ∧ GetTemplateHash testManifest ≠ "" ∧
    HasStatefulSetChanged testManifest {} = true ∧
    HasStatefulSetChanged {} unfingerprintedLive = false :=
  HasStatefulSetChanged_missing_hash sampleExternals testProperties testManifest {}
    unfingerprintedLive (by decide!) (fun _ h => nomatch h)
    (fun annotations h => by
      have he : annotations = [("owner", "operator")] := by
        injection h with h
        exact h.symm
      rw [he]
      decide)

/-- C26: `buildArgs` appends the proxy argument and `buildEnvs` appends the
variable `ACTIVE_GATE_PROXY` (as the last element) under the same condition, a
non-nil proxy with a non-empty `Value` or `ValueFrom`, and neither does
otherwise; the container `buildContainer` returns has these arguments and this
environment, so it defines `ACTIVE_GATE_PROXY` whenever the proxy argument was
added. -/
theorem buildArgs_proxy_iff_buildEnvs (p : statefulSetProperties) :
    ∃ proxyArgs proxyEnvs,
      buildArgs p =
        ["--enable=$(DT_CAPABILITIES)"] ++ p.CapabilityProperties.Args
          ++ (if p.DynaKube.Spec.NetworkZone ≠ "" then
                ["--networkzone=\"" ++ p.DynaKube.Spec.NetworkZone ++ "\""] else [])
          ++ proxyArgs
          ++ (if p.CapabilityProperties.Group ≠ "" then
                ["--group=\"" ++ p.CapabilityProperties.Group ++ "\""] else []) ∧
      buildEnvs p = .ok
        ([ { Name := "DT_CAPABILITIES", Value := p.capabilityName },
           { Name := "DT_ID_SEED_NAMESPACE", Value := p.DynaKube.Namespace },
           { Name := "DT_ID_SEED_K8S_CLUSTER_ID", Value := p.kubeSystemUID } ]
          ++ p.CapabilityProperties.Env ++ proxyEnvs) ∧
      ((∃ proxy, p.DynaKube.Spec.Proxy = some proxy ∧
          (proxy.Value ≠ "" ∨ proxy.ValueFrom ≠ "")) →
        proxyArgs = ["PROXY=\"$\x7bACTIVE_GATE_PROXY\x7d\""] ∧
        ∃ e, proxyEnvs = [e] ∧ e.Name = "ACTIVE_GATE_PROXY") ∧
      (¬ (∃ proxy, p.DynaKube.Spec.Proxy = some proxy ∧
          (proxy.Value ≠ "" ∨ proxy.ValueFrom ≠ "")) →
        proxyArgs = [] ∧ proxyEnvs = []) ∧
      (proxyArgs = ["PROXY=\"$\x7bACTIVE_GATE_PROXY\x7d\""] ↔
        ∃ e, proxyEnvs = [e] ∧ e.Name = "ACTIVE_GATE_PROXY") ∧
      ∀ X : Externals, ∃ c, buildContainer X p = .ok c ∧ c.Args = buildArgs p ∧
        buildEnvs p = .ok c.Env ∧
        (proxyArgs = ["PROXY=\"$\x7bACTIVE_GATE_PROXY\x7d\""] →
          ∃ e ∈ c.Env, e.Name = "ACTIVE_GATE_PROXY") := by
  have hc : ∀ (envs : List corev1.EnvVar), buildEnvs p = .ok envs →
      ∀ X : Externals, ∃ c, buildContainer X p = .ok c ∧ c.Args = buildArgs p ∧
        buildEnvs p = .ok c.Env ∧ c.Env = envs := by
    intro envs he X
    refine ⟨_, by
      simp only [buildContainer, he, bind, Except.bind, pure, Except.pure]
      rfl, rfl, he, rfl⟩
  cases hp : p.DynaKube.Spec.Proxy with
  | none =>
    have he : buildEnvs p = .ok
        ([ { Name := "DT_CAPABILITIES", Value := p.capabilityName },
           { Name := "DT_ID_SEED_NAMESPACE", Value := p.DynaKube.Namespace },
           { Name := "DT_ID_SEED_K8S_CLUSTER_ID", Value := p.kubeSystemUID } ]
          ++ p.CapabilityProperties.Env ++ []) := by
      rw [buildEnvs_eq, hp]
      rfl
    refine ⟨[], [], ?_, he, ?_, ?_, ?_, ?_⟩
    · unfold buildArgs
      by_cases hz : p.DynaKube.Spec.NetworkZone = "" <;>
        by_cases hg : p.CapabilityProperties.Group = "" <;>
        simp [isProxyNilOrEmpty, hp, hz, hg, DTCapabilitiesArg]
    · rintro ⟨proxy, hproxy, _⟩
      cases hproxy
    · intro _
      exact ⟨rfl, rfl⟩
    · simp
    · intro X
      obtain ⟨c, h1, h2, h3, _⟩ := hc _ he X
      exact ⟨c, h1, h2, h3, fun h => by simp at h⟩
  | some proxy =>
    by_cases hcond : proxy.Value ≠ "" ∨ proxy.ValueFrom ≠ ""
    · obtain ⟨e, hpe, hname⟩ : ∃ e, buildProxyEnv (some proxy) = .ok e ∧
          e.Name = "ACTIVE_GATE_PROXY" := by
        unfold buildProxyEnv
        by_cases h2 : proxy.ValueFrom = ""
        · exact ⟨_, by simp [h2]; rfl, rfl⟩
        · exact ⟨_, by simp [h2]; rfl, rfl⟩
      have hnot : isProxyNilOrEmpty (some proxy) = false := by
        rcases hcond with h | h <;> simp [isProxyNilOrEmpty, h]
      have he : buildEnvs p = .ok
          ([ { Name := "DT_CAPABILITIES", Value := p.capabilityName },
             { Name := "DT_ID_SEED_NAMESPACE", Value := p.DynaKube.Namespace },
             { Name := "DT_ID_SEED_K8S_CLUSTER_ID", Value := p.kubeSystemUID } ]
            ++ p.CapabilityProperties.Env ++ [e]) := by
        simp only [buildEnvs, hp, hnot, hpe, bind, Except.bind, pure, Except.pure]
        rfl
      refine ⟨["PROXY=\"$\x7bACTIVE_GATE_PROXY\x7d\""], [e], ?_, he, ?_, ?_, ?_, ?_⟩
      · unfold buildArgs
        by_cases hz : p.DynaKube.Spec.NetworkZone = "" <;>
          by_cases hg : p.CapabilityProperties.Group = "" <;>
          simp [hp, hnot, hz, hg, DTCapabilitiesArg, ProxyArg]
      · intro _
        exact ⟨rfl, e, rfl, hname⟩
      · intro hno
        exact absurd ⟨proxy, rfl, hcond⟩ hno
      · exact ⟨fun _ => ⟨e, rfl, hname⟩, fun _ => rfl⟩
      · intro X
        obtain ⟨c, h1, h2, h3, h4⟩ := hc _ he X
        refine ⟨c, h1, h2, h3, fun _ => ⟨e, ?_, hname⟩⟩
        rw [h4]
        simp
    · have hempty : isProxyNilOrEmpty (some proxy) = true := by
        simp only [not_or, not_not] at hcond
        simp [isProxyNilOrEmpty, hcond.1, hcond.2]
      have he : buildEnvs p = .ok
          ([ { Name := "DT_CAPABILITIES", Value := p.capabilityName },
             { Name := "DT_ID_SEED_NAMESPACE", Value := p.DynaKube.Namespace },
             { Name := "DT_ID_SEED_K8S_CLUSTER_ID", Value := p.kubeSystemUID } ]
            ++ p.CapabilityProperties.Env ++ []) := by
        simp only [buildEnvs, hp, hempty, Bool.not_true, Bool.false_eq_true, if_false, pure,
          Except.pure, List.append_nil]
        rfl
      refine ⟨[], [], ?_, he, ?_, ?_, ?_, ?_⟩
      · unfold buildArgs
        by_cases hz : p.DynaKube.Spec.NetworkZone = "" <;>
          by_cases hg : p.CapabilityProperties.Group = "" <;>
          simp [hp, hempty, hz, hg, DTCapabilitiesArg]
      · rintro ⟨proxy', hproxy, hc'⟩
        injection hproxy with hproxy
        subst hproxy
        exact absurd hc' hcond
      · intro _
        exact ⟨rfl, rfl⟩
      · simp
      · intro X
        obtain ⟨c, h1, h2, h3, _⟩ := hc _ he X
        exact ⟨c, h1, h2, h3, fun h => by simp at h⟩

end capability

namespace capability

/-- C27: with an empty hook list `CreateStatefulSet` returns a manifest for
every combination of nil and non-nil custom properties and proxy:
`determineCustomPropertiesSource` and `buildProxyEnv` are called only behind the
guards `isCustomPropertiesNilOrEmpty` and `isProxyNilOrEmpty`, which are false
only for non-nil values, and the template hash is written into the empty,
non-nil annotation map of the literal; no nil dereference and no write into a
nil map occurs. -/
theorem CreateStatefulSet_no_nil_access (X : Externals) (p : statefulSetProperties)
    (hh : p.onAfterCreate = []) :
    (isCustomPropertiesNilOrEmpty p.CapabilityProperties.CustomProperties = true →
      buildVolumes X p = .ok []) ∧
    (isCustomPropertiesNilOrEmpty p.CapabilityProperties.CustomProperties = false →
      ∃ c secretName v, p.CapabilityProperties.CustomProperties = some c ∧
        determineCustomPropertiesSource X p = .ok secretName ∧
        buildVolumes X p = .ok [v]) ∧
    (isProxyNilOrEmpty p.DynaKube.Spec.Proxy = true →
      buildEnvs p = .ok
        ([ { Name := "DT_CAPABILITIES", Value := p.capabilityName },
           { Name := "DT_ID_SEED_NAMESPACE", Value := p.DynaKube.Namespace },
           { Name := "DT_ID_SEED_K8S_CLUSTER_ID", Value := p.kubeSystemUID } ]
          ++ p.CapabilityProperties.Env)) ∧
    (isProxyNilOrEmpty p.DynaKube.Spec.Proxy = false →
      ∃ proxy e, p.DynaKube.Spec.Proxy = some proxy ∧
        buildProxyEnv p.DynaKube.Spec.Proxy = .ok e ∧
        buildEnvs p = .ok
          ([ { Name := "DT_CAPABILITIES", Value := p.capabilityName },
             { Name := "DT_ID_SEED_NAMESPACE", Value := p.DynaKube.Namespace },
             { Name := "DT_ID_SEED_K8S_CLUSTER_ID", Value := p.kubeSystemUID } ]
            ++ p.CapabilityProperties.Env ++ [e])) ∧
    (∃ base, newManifest X p = .ok base ∧ base.ObjectMeta.Annotations = some []) ∧
    (∃ sts, CreateStatefulSet X p = .ok sts) ∧
    CreateStatefulSet X p ≠ .error .nilPointerDereference ∧
    CreateStatefulSet X p ≠ .error .nilMapAssignment := by
  obtain ⟨sts, hsts⟩ := CreateStatefulSet_isOk X p hh
  obtain ⟨base, hbase, _, hann⟩ := newManifest_isOk X p
  refine ⟨?_, ?_, ?_, ?_, ⟨base, hbase, hann⟩, ⟨sts, hsts⟩, ?_, ?_⟩
  · intro hg
    simp [buildVolumes, hg, pure, Except.pure]
  · intro hg
    cases hc : p.CapabilityProperties.CustomProperties with
    | none => simp [isCustomPropertiesNilOrEmpty, hc] at hg
    | some c =>
      rw [hc] at hg
      by_cases hv : c.ValueFrom = ""
      · exact ⟨c, _, _, rfl, by simp [determineCustomPropertiesSource, hc, hv]; rfl, by
          simp [buildVolumes, hc, hg, determineCustomPropertiesSource, hv, bind, Except.bind,
            pure, Except.pure]
          rfl⟩
      · exact ⟨c, _, _, rfl, by simp [determineCustomPropertiesSource, hc, hv]; rfl, by
          simp [buildVolumes, hc, hg, determineCustomPropertiesSource, hv, bind, Except.bind,
            pure, Except.pure]
          rfl⟩
  · intro hg
    simp only [buildEnvs, hg, Bool.not_true, Bool.false_eq_true, if_false, pure, Except.pure]
    rfl
  · intro hg
    cases hp : p.DynaKube.Spec.Proxy with
    | none => simp [isProxyNilOrEmpty, hp] at hg
    | some proxy =>
      rw [hp] at hg
      obtain ⟨e, hpe⟩ : ∃ e, buildProxyEnv (some proxy) = .ok e := by
        unfold buildProxyEnv
        by_cases h2 : proxy.ValueFrom = ""
        · exact ⟨_, by simp [h2]; rfl⟩
        · exact ⟨_, by simp [h2]; rfl⟩
      refine ⟨proxy, e, rfl, hpe, ?_⟩
      simp only [buildEnvs, hp, hg, hpe, bind, Except.bind, pure, Except.pure]
      rfl
  · rw [hsts]
    intro h
    cases h
  · rw [hsts]
    intro h
    cases h

/-- The routing test's properties with an inline proxy and nil custom
properties give a manifest. -/
theorem CreateStatefulSet_no_nil_access_witness :
    (∃ sts, CreateStatefulSet sampleExternals proxyProperties = .ok sts) ∧
    CreateStatefulSet sampleExternals proxyProperties ≠ .error .nilPointerDereference ∧
    CreateStatefulSet sampleExternals proxyProperties ≠ .error .nilMapAssignment :=
  (CreateStatefulSet_no_nil_access sampleExternals proxyProperties rfl).2.2.2.2.2

end capability

/-- C21: for a DynaKube `d`, the Kubernetes-monitoring builder and the generic
builder run on `NewStatefulSetProperties d (capability properties of the
monitoring spec) u h "kubemon" "kubernetes_monitoring" "kubernetes-monitoring"`
give the same object name, the same service account name, the same volumes and
the same volume mounts. -/
theorem kubemon_identity_volumes_agree (X : Externals) (d : v1alpha1.DynaKube)
    (u h : String) :
    d.Name ++ "-kubemon"
      = (capability.NewStatefulSetProperties d
          d.Spec.KubernetesMonitoringSpec.CapabilityProperties u h "kubemon"
          "kubernetes_monitoring" "kubernetes-monitoring").DynaKube.Name ++ "-"
        ++ (capability.NewStatefulSetProperties d
          d.Spec.KubernetesMonitoringSpec.CapabilityProperties u h "kubemon"
          "kubernetes_monitoring" "kubernetes-monitoring").module ∧
    (∃ m n, kubemon.newManifest X d u h = .ok m ∧
      capability.newManifest X (capability.NewStatefulSetProperties d
        d.Spec.KubernetesMonitoringSpec.CapabilityProperties u h "kubemon"
        "kubernetes_monitoring" "kubernetes-monitoring") = .ok n ∧
      m.ObjectMeta.Name = n.ObjectMeta.Name ∧ m.ObjectMeta.Namespace = n.ObjectMeta.Namespace) ∧
    (∃ spec, kubemon.buildTemplateSpec X d u = .ok spec ∧
      spec.ServiceAccountName = capability.determineServiceAccountName
        (capability.NewStatefulSetProperties d
          d.Spec.KubernetesMonitoringSpec.CapabilityProperties u h "kubemon"
          "kubernetes_monitoring" "kubernetes-monitoring")) ∧
    kubemon.buildVolumes X d
      = capability.buildVolumes X (capability.NewStatefulSetProperties d
          d.Spec.KubernetesMonitoringSpec.CapabilityProperties u h "kubemon"
          "kubernetes_monitoring" "kubernetes-monitoring") ∧
    (∃ volumes, kubemon.buildVolumes X d = .ok volumes) ∧
    (∃ c, kubemon.buildContainer X d u = .ok c ∧
      c.VolumeMounts = capability.buildVolumeMounts X (capability.NewStatefulSetProperties d
        d.Spec.KubernetesMonitoringSpec.CapabilityProperties u h "kubemon"
        "kubernetes_monitoring" "kubernetes-monitoring")) := by
  have hname : d.Name ++ "-kubemon" = d.Name ++ "-" ++ "kubemon" := by
    rw [String.append_assoc]
    rfl
  have hsecret : d.Name ++ "-kubernetes-monitoring-" ++ X.Suffix
      = d.Name ++ "-" ++ "kubernetes-monitoring" ++ "-" ++ X.Suffix := by
    have hlit : "-kubernetes-monitoring-" = "-" ++ ("kubernetes-monitoring" ++ "-") := by decide
    rw [hlit]
    simp only [String.append_assoc]
  obtain ⟨envs, he⟩ := kubemon.monitoringEnvs_isOk d u
  obtain ⟨volumes, hv⟩ := kubemon.monitoringVolumes_isOk X d
  obtain ⟨m, hm, hmn, hmns, _, _⟩ := kubemon.monitoringManifest_isOk X d u h
  obtain ⟨pvolumes, hpv⟩ := capability.buildVolumes_isOk X (capability.NewStatefulSetProperties d
    d.Spec.KubernetesMonitoringSpec.CapabilityProperties u h "kubemon"
    "kubernetes_monitoring" "kubernetes-monitoring")
  obtain ⟨n, hn, _, _, hnn, hnns, _⟩ := capability.newManifest_eq X _ _ pvolumes
    (capability.buildEnvs_eq _) hpv
  refine ⟨hname, ⟨m, n, hm, hn, ?_, ?_⟩, ?_, ?_, ⟨volumes, hv⟩, ?_⟩
  · rw [hmn, hnn]
    exact hname
  · rw [hmns, hnns]
    rfl
  · refine ⟨_, by
      simp only [kubemon.buildTemplateSpec, kubemon.buildContainer, he, hv, bind, Except.bind,
        pure, Except.pure]
      rfl, ?_⟩
    by_cases hs : d.Spec.KubernetesMonitoringSpec.CapabilityProperties.ServiceAccountName = ""
    · simp [capability.determineServiceAccountName, capability.NewStatefulSetProperties, hs,
        kubemon.MonitoringServiceAccount, capability.serviceAccountPrefix]
    · simp [capability.determineServiceAccountName, capability.NewStatefulSetProperties, hs]
  · unfold kubemon.buildVolumes capability.buildVolumes
    cases hc : d.Spec.KubernetesMonitoringSpec.CapabilityProperties.CustomProperties with
    | none =>
      simp [capability.NewStatefulSetProperties, hc, kubemon.isCustomPropertiesNilOrEmpty,
        capability.isCustomPropertiesNilOrEmpty, pure, Except.pure]
    | some c =>
      by_cases h1 : c.Value = "" <;> by_cases h2 : c.ValueFrom = "" <;>
        simp [capability.NewStatefulSetProperties, hc, kubemon.isCustomPropertiesNilOrEmpty,
          capability.isCustomPropertiesNilOrEmpty, capability.determineCustomPropertiesSource,
          h1, h2, pure, Except.pure, bind, Except.bind, hsecret]
  · refine ⟨_, by
      simp only [kubemon.buildContainer, he, bind, Except.bind, pure, Except.pure]
      rfl, ?_⟩
    cases hc : d.Spec.KubernetesMonitoringSpec.CapabilityProperties.CustomProperties with
    | none =>
      simp [capability.buildVolumeMounts, capability.NewStatefulSetProperties, hc,
        kubemon.isCustomPropertiesNilOrEmpty, capability.isCustomPropertiesNilOrEmpty]
    | some c =>
      by_cases h1 : c.Value = "" <;> by_cases h2 : c.ValueFrom = "" <;>
        simp [capability.buildVolumeMounts, capability.NewStatefulSetProperties, hc,
          kubemon.isCustomPropertiesNilOrEmpty, capability.isCustomPropertiesNilOrEmpty, h1, h2]

/-! ## Two calls in a row -/

namespace capability

/-- Hooks that leave the memory outside the manifest as they found it act as the
hooks of the embedding without memory. -/
theorem runEffects_of_pure {σ : Type} (hooks : List (StatefulSetEffect σ)) (s : σ)
    (p : statefulSetProperties)
    (hpure : ∀ hook ∈ hooks, ∀ sts, (hook s p sts).1 = s ∧ (hook s p sts).2.1 = p)
    (sts : appsv1.StatefulSet) :
    runEffects hooks s p sts
      = (s, p, runOnAfterCreate (hooks.map (fun hook sts => (hook s p sts).2.2)) sts) := by
  induction hooks generalizing sts with
  | nil => rfl
  | cons hook rest ih =>
    have h1 := hpure hook (List.mem_cons_self _ _) sts
    have h2 := ih (fun g hg => hpure g (List.mem_cons_of_mem _ hg)) (hook s p sts).2.2
    simp only [runEffects, List.foldl_cons, List.map_cons, runOnAfterCreate] at h2 ⊢
    have h3 : hook s p sts = (s, p, (hook s p sts).2.2) :=
      Prod.ext h1.1 (Prod.ext h1.2 rfl)
    rw [h3]
    exact h2

/-- The call in memory, for hooks that leave the memory outside the manifest as
they found it: the memory is left as it was and the result is that of the
embedding without memory. -/
theorem CreateStatefulSetIn_of_pure {σ : Type} (X : Externals)
    (hooks : List (StatefulSetEffect σ)) (s : σ) (p : statefulSetProperties)
    (hpure : ∀ hook ∈ hooks, ∀ sts, (hook s p sts).1 = s ∧ (hook s p sts).2.1 = p) :
    CreateStatefulSetIn X hooks s p
      = ((s, p), CreateStatefulSet X
          { p with onAfterCreate := hooks.map (fun hook sts => (hook s p sts).2.2) }) := by
  obtain ⟨m, hm, _, _⟩ := newManifest_isOk X p
  have hm' : newManifest X
      { p with onAfterCreate := hooks.map (fun hook sts => (hook s p sts).2.2) } = .ok m := hm
  rw [CreateStatefulSet_eq X _ m hm']
  simp only [CreateStatefulSetIn, hm, runEffects_of_pure hooks s p hpure m]
  cases generateStatefulSetHash
      (runOnAfterCreate (hooks.map (fun hook sts => (hook s p sts).2.2)) m) with
  | error e => rfl
  | ok hash =>
    cases (runOnAfterCreate (hooks.map (fun hook sts => (hook s p sts).2.2)) m).ObjectMeta.Annotations with
    | none => rfl
    | some annotations => rfl

end capability

namespace capability

/-- C1, as amended: when the hooks leave the memory outside the manifest as
they found it (they keep no state and do not write through what the manifest
shares with the properties; the empty hook list of `NewStatefulSetProperties`
is the case in point), a call of `CreateStatefulSet` leaves the properties
as they were, and a second call returns what the first returned: equal
manifests, equal template hashes, and `HasStatefulSetChanged` of the two
results is false. The result is that of the embedding without memory, with no
hooks it is a manifest, and its template hash is the hash of the manifest left
by the hooks however the bindings of its maps are listed. -/
theorem CreateStatefulSetIn_deterministic {σ : Type} (X : Externals)
    (hooks : List (StatefulSetEffect σ)) (s : σ) (p : statefulSetProperties)
    (hpure : ∀ hook ∈ hooks, ∀ sts, (hook s p sts).1 = s ∧ (hook s p sts).2.1 = p) :
    (CreateStatefulSetIn X hooks s p).1 = (s, p) ∧
    CreateStatefulSetIn X hooks (CreateStatefulSetIn X hooks s p).1.1
        (CreateStatefulSetIn X hooks s p).1.2
      = CreateStatefulSetIn X hooks s p ∧
    (∀ a b, (CreateStatefulSetIn X hooks s p).2 = .ok a →
      (CreateStatefulSetIn X hooks (CreateStatefulSetIn X hooks s p).1.1
        (CreateStatefulSetIn X hooks s p).1.2).2 = .ok b →
      a = b ∧ GetTemplateHash a = GetTemplateHash b ∧ HasStatefulSetChanged a b = false) ∧
    (CreateStatefulSetIn X hooks s p).2
      = CreateStatefulSet X
          { p with onAfterCreate := hooks.map (fun hook sts => (hook s p sts).2.2) } ∧
    (hooks = [] → ∃ a, (CreateStatefulSetIn X hooks s p).2 = .ok a) ∧
    (∀ a, (CreateStatefulSetIn X hooks s p).2 = .ok a →
      ∃ base, newManifest X p = .ok base ∧
        ∀ f : StringMap → StringMap, (∀ m k, (f m).get? k = m.get? k) →
          generateStatefulSetHash
              ((runOnAfterCreate (hooks.map (fun hook sts => (hook s p sts).2.2)) base).mapMaps f)
            = .ok (GetTemplateHash a)) := by
  have h := CreateStatefulSetIn_of_pure X hooks s p hpure
  have h1 : (CreateStatefulSetIn X hooks s p).1 = (s, p) := by rw [h]
  have h2 : CreateStatefulSetIn X hooks (CreateStatefulSetIn X hooks s p).1.1
      (CreateStatefulSetIn X hooks s p).1.2 = CreateStatefulSetIn X hooks s p := by
    rw [h1]
  refine ⟨h1, h2, ?_, by rw [h], ?_, ?_⟩
  · intro a b ha hb
    rw [h2, ha] at hb
    injection hb with hab
    subst hab
    exact ⟨rfl, rfl, by simp [HasStatefulSetChanged]⟩
  · intro hnil
    subst hnil
    rw [h]
    exact CreateStatefulSet_isOk X _ rfl
  · intro a ha
    rw [h] at ha
    obtain ⟨base, data, hbase, hdata, hhash⟩ := CreateStatefulSet_templateHash X _ a ha
    refine ⟨base, hbase, ?_⟩
    intro f hf
    simp only [generateStatefulSetHash, json.Marshal_mapMaps f hf]
    rw [hhash]
    simp only [hdata, bind, Except.bind, pure, Except.pure]

set_option maxRecDepth 100000 in
/-- The routing test's properties, which have no hooks: the second call returns
what the first returned, the manifest `testManifest`. -/
theorem CreateStatefulSetIn_deterministic_witness :
    CreateStatefulSetIn sampleExternals ([] : List (StatefulSetEffect Unit))
        (CreateStatefulSetIn sampleExternals ([] : List (StatefulSetEffect Unit)) ()
          testProperties).1.1
        (CreateStatefulSetIn sampleExternals ([] : List (StatefulSetEffect Unit)) ()
          testProperties).1.2
      = CreateStatefulSetIn sampleExternals ([] : List (StatefulSetEffect Unit)) ()
          testProperties ∧
    (CreateStatefulSetIn sampleExternals ([] : List (StatefulSetEffect Unit)) ()
      testProperties).2 = .ok testManifest :=
  ⟨(CreateStatefulSetIn_deterministic sampleExternals ([] : List (StatefulSetEffect Unit)) ()
      testProperties (fun _ hmem => absurd hmem (List.not_mem_nil _))).2.1, by decide!⟩

set_option maxRecDepth 100000 in
/-- C1 fails with a hook that writes through the `Replicas` pointer: on
properties with 1 replica the first call returns a manifest with 2 replicas and
template hash `84501015` (as the embedding without memory does) and leaves the
properties with 2 replicas, the second call on the same properties pointer
returns 3 replicas and template hash `4282102930`, and the two results are
reported as changed. -/
theorem CreateStatefulSetIn_deterministic_counterexample :
    (CreateStatefulSetIn sampleExternals [incrementReplicasHook] () replicasProperties).2.map
        (fun a => (a.Spec.Replicas, GetTemplateHash a))
      = .ok (some 2, "84501015") ∧
    (CreateStatefulSetIn sampleExternals [incrementReplicasHook]
        (CreateStatefulSetIn sampleExternals [incrementReplicasHook] () replicasProperties).1.1
        (CreateStatefulSetIn sampleExternals [incrementReplicasHook] ()
          replicasProperties).1.2).2.map
        (fun a => (a.Spec.Replicas, GetTemplateHash a))
      = .ok (some 3, "4282102930") ∧
    (CreateStatefulSetIn sampleExternals [incrementReplicasHook] () replicasProperties).2.bind
        (fun a => (CreateStatefulSetIn sampleExternals [incrementReplicasHook]
          (CreateStatefulSetIn sampleExternals [incrementReplicasHook] ()
            replicasProperties).1.1
          (CreateStatefulSetIn sampleExternals [incrementReplicasHook] ()
            replicasProperties).1.2).2.map
          (fun b => HasStatefulSetChanged a b))
      = .ok true ∧
    (CreateStatefulSet sampleExternals replicasProperties).map
        (fun a => (a.Spec.Replicas, GetTemplateHash a))
      = .ok (some 2, "84501015") := by
  decide!

end capability

/-! ## The serialization can be read back

The text of a JSON value ends where a scan says it does, so two values written
one behind the other cannot be confused; on this rests that equal
serializations come from equal fields. -/

namespace json

theorem passes_nil : Passes [] := fun _ _ => rfl

theorem passes_append {a b : List Char} (ha : Passes a) (hb : Passes b) : Passes (a ++ b) := by
  intro depth rest
  rw [List.append_assoc, ha, hb]

theorem passesIn_append {a b : List Char} (ha : PassesIn a) (hb : PassesIn b) :
    PassesIn (a ++ b) := by
  intro depth rest
  rw [List.append_assoc, ha, hb]

theorem passesIn_of_passes {a : List Char} (ha : Passes a) : PassesIn a :=
  fun depth rest => ha (depth + 1) rest

/-- Characters other than the quote, the brackets and the comma are passed
over. -/
theorem passes_of_plain (text : List Char)
    (h : ∀ c ∈ text, c ≠ '\x22' ∧ c ≠ '\x7b' ∧ c ≠ '[' ∧ c ≠ '\x7d' ∧ c ≠ ']' ∧ c ≠ ',') :
    Passes text := by
  induction text with
  | nil => exact passes_nil
  | cons c cs ih =>
    intro depth rest
    obtain ⟨h1, h2, h3, h4, h5, h6⟩ := h c (List.mem_cons_self _ _)
    have := ih (fun x hx => h x (List.mem_cons_of_mem _ hx)) depth rest
    simp only [List.cons_append, scan, h1, h2, h3, h4, h5, h6, if_false, or_self]
    exact this

theorem passesIn_comma : PassesIn [','] := by
  intro depth rest
  simp [scan]

theorem passes_braces {text : List Char} (h : PassesIn text) :
    Passes ('\x7b' :: (text ++ ['\x7d'])) := by
  intro depth rest
  have h1 : scan .plain depth ('\x7b' :: (text ++ ('\x7d' :: rest)))
      = scan .plain (depth + 1) (text ++ ('\x7d' :: rest)) := by simp [scan]
  have h2 : scan .plain (depth + 1) ('\x7d' :: rest) = scan .plain depth rest := by simp [scan]
  rw [List.cons_append, List.append_assoc, List.singleton_append, h1, h depth, h2]

theorem passes_brackets {text : List Char} (h : PassesIn text) :
    Passes ('[' :: (text ++ [']'])) := by
  intro depth rest
  have h1 : scan .plain depth ('[' :: (text ++ (']' :: rest)))
      = scan .plain (depth + 1) (text ++ (']' :: rest)) := by simp [scan]
  have h2 : scan .plain (depth + 1) (']' :: rest) = scan .plain depth rest := by simp [scan]
  rw [List.cons_append, List.append_assoc, List.singleton_append, h1, h depth, h2]

theorem stops_nil : Stops [] := by simp [Stops, scan]

theorem stops_comma (rest : List Char) : Stops (',' :: rest) := by simp [Stops, scan]

theorem stops_brace (rest : List Char) : Stops ('\x7d' :: rest) := by simp [Stops, scan]

theorem stops_bracket (rest : List Char) : Stops (']' :: rest) := by simp [Stops, scan]

/-- Two values, each followed by text at which a scan stops, are the same when
their texts with what follows are the same. -/
theorem readable {x y r s : List Char} (hx : Passes x) (hy : Passes y) (hr : Stops r)
    (hs : Stops s) (h : x ++ r = y ++ s) : x = y ∧ r = s := by
  have h1 : scan .plain 0 (x ++ r) = some r := by rw [hx, hr]
  have h2 : scan .plain 0 (y ++ s) = some s := by rw [hy, hs]
  rw [h, h2] at h1
  injection h1 with h1
  subst h1
  exact ⟨List.append_cancel_right h, rfl⟩

end json

namespace json

theorem hexDigit_ne (k : Nat) (h : k < 16) : hexDigit k ≠ '\x22' ∧ hexDigit k ≠ '\x5c' := by
  interval_cases k <;> decide

theorem hexValue_hexDigit (k : Nat) (h : k < 16) : hexValue (hexDigit k) = k := by
  interval_cases k <;> decide

theorem char_eq_of_toNat (c : Char) (n : Nat) (h : c.toNat = n) : c = Char.ofNat n := by
  rw [← h, Char.ofNat_toNat]

/-- The text of a JSON string: the quote, the escaped characters, the quote. -/
theorem quote_data (s : String) :
    (quote s).data
      = '\x22' :: (s.toList.flatMap (fun c => (escapeChar c).data) ++ ['\x22']) := by
  simp [quote, String.data_append, String.data_join, List.flatMap, List.map_map, Function.comp_def]

/-- Inside a string a scan passes over an escaped character. -/
theorem scan_str_escapeChar (c : Char) (depth : Nat) (rest : List Char) :
    scan .str depth ((escapeChar c).data ++ rest) = scan .str depth rest := by
  unfold escapeChar
  split
  · simp [scan]
  · split
    · simp [scan]
    · split
      · simp [scan]
      · split
        · simp [scan]
        · split
          · simp [scan]
          · split
            · rename_i h
              have hlt : c.toNat / 16 < 16 := by omega
              have h1 := hexDigit_ne (c.toNat / 16) hlt
              have h2 := hexDigit_ne (c.toNat % 16) (Nat.mod_lt _ (by decide))
              simp [scan, String.data_append, String.singleton, h1.1, h1.2, h2.1, h2.2]
            · split
              · simp [scan]
              · split
                · simp [scan]
                · rename_i h34 h92 _ _ _ _ _ _
                  have hq : c ≠ '\x22' := fun hc => h34 (by rw [hc]; rfl)
                  have hb : c ≠ '\x5c' := fun hc => h92 (by rw [hc]; rfl)
                  simp [scan, String.singleton, hq, hb]

/-- The escaped character is read back. -/
theorem unescapeOne_escapeChar (c : Char) (rest : List Char) :
    unescapeOne ((escapeChar c).data ++ rest) = some (c, rest) := by
  unfold escapeChar
  split
  · rename_i h
    rw [char_eq_of_toNat c 34 h]
    rfl
  · split
    · rename_i h
      rw [char_eq_of_toNat c 92 h]
      rfl
    · split
      · rename_i h
        rw [char_eq_of_toNat c 10 h]
        rfl
      · split
        · rename_i h
          rw [char_eq_of_toNat c 13 h]
          rfl
        · split
          · rename_i h
            rw [char_eq_of_toNat c 9 h]
            rfl
          · split
            · rename_i h
              have hlt : c.toNat / 16 < 16 := by omega
              have h1 := hexValue_hexDigit (c.toNat / 16) hlt
              have h2 := hexValue_hexDigit (c.toNat % 16) (Nat.mod_lt _ (by decide))
              have h0 : hexValue '0' = 0 := by decide
              have hn : c.toNat / 16 * 16 + c.toNat % 16 = c.toNat := by
                omega
              simp [unescapeOne, String.data_append, String.singleton, h0, h1, h2]
              rw [hn, Char.ofNat_toNat]
            · split
              · rename_i h
                rw [char_eq_of_toNat c 8232 h]
                rfl
              · split
                · rename_i h
                  rw [char_eq_of_toNat c 8233 h]
                  rfl
                · rename_i h34 h92 _ _ _ _ _ _
                  have hb : c ≠ '\x5c' := fun hc => h92 (by rw [hc]; rfl)
                  simp [unescapeOne, String.singleton, hb]

end json

namespace json

theorem scan_str_escapes (cs : List Char) (depth : Nat) (rest : List Char) :
    scan .str depth (cs.flatMap (fun c => (escapeChar c).data) ++ rest)
      = scan .str depth rest := by
  induction cs with
  | nil => rfl
  | cons c cs ih =>
    rw [List.flatMap_cons, List.append_assoc, scan_str_escapeChar, ih]

/-- A scan passes over a JSON string. -/
theorem passes_quote (s : String) : Passes (quote s).data := by
  intro depth rest
  rw [quote_data]
  have h1 : ∀ text, scan .plain depth ('\x22' :: text) = scan .str depth text := by
    intro text
    simp [scan]
  have h2 : scan .str depth ('\x22' :: rest) = scan .plain depth rest := by simp [scan]
  rw [List.cons_append, List.append_assoc, h1, scan_str_escapes, List.singleton_append, h2]

/-- The escaped content of a string up to the closing quote determines the
string and what follows the quote. -/
theorem escapes_readable (a b : List Char) (x y : List Char)
    (h : a.flatMap (fun c => (escapeChar c).data) ++ '\x22' :: x
      = b.flatMap (fun c => (escapeChar c).data) ++ '\x22' :: y) : a = b ∧ x = y := by
  have hquote : ∀ (c : Char) (cs t u : List Char),
      '\x22' :: t ≠ (escapeChar c).data ++ (cs.flatMap (fun c => (escapeChar c).data) ++ u) := by
    intro c cs t u heq
    have h1 := unescapeOne_escapeChar c (cs.flatMap (fun c => (escapeChar c).data) ++ u)
    rw [← heq] at h1
    have h2 : unescapeOne ('\x22' :: t) = some ('\x22', t) := by simp [unescapeOne]
    rw [h2] at h1
    injection h1 with h1
    injection h1 with hc _
    rw [← hc] at heq
    have h3 : (escapeChar '\x22').data = ['\x5c', '\x22'] := by decide
    rw [h3] at heq
    injection heq with hh _
    exact absurd hh (by decide)
  induction a generalizing b with
  | nil =>
    cases b with
    | nil =>
      simp only [List.flatMap_nil, List.nil_append, List.cons.injEq, true_and] at h
      exact ⟨rfl, h⟩
    | cons d ds =>
      rw [List.flatMap_nil, List.nil_append, List.flatMap_cons, List.append_assoc] at h
      exact absurd h (hquote d ds x _)
  | cons c cs ih =>
    cases b with
    | nil =>
      rw [List.flatMap_nil, List.nil_append, List.flatMap_cons, List.append_assoc] at h
      exact absurd h.symm (hquote c cs y _)
    | cons d ds =>
      rw [List.flatMap_cons, List.flatMap_cons, List.append_assoc, List.append_assoc] at h
      have h1 := unescapeOne_escapeChar c (cs.flatMap (fun c => (escapeChar c).data) ++ '\x22' :: x)
      rw [h, unescapeOne_escapeChar] at h1
      injection h1 with h1
      injection h1 with hc hrest
      obtain ⟨hcs, hxy⟩ := ih ds hrest.symm
      exact ⟨by rw [hc, hcs], hxy⟩

/-- A JSON string followed by any text determines the string and the text. -/
theorem quote_readable (a b : String) (x y : List Char)
    (h : (quote a).data ++ x = (quote b).data ++ y) : a = b ∧ x = y := by
  rw [quote_data, quote_data] at h
  simp only [List.cons_append, List.append_assoc, List.singleton_append, List.cons.injEq,
    true_and] at h
  obtain ⟨hab, hxy⟩ := escapes_readable a.toList b.toList x y h
  exact ⟨String.ext hab, hxy⟩

theorem quote_injective : Function.Injective quote := by
  intro a b h
  have := quote_readable a b [] [] (by rw [h])
  exact this.1

/-- A JSON string is not empty. -/
theorem quote_ne_nil (s : String) : (quote s).data ≠ [] := by
  rw [quote_data]
  exact List.cons_ne_nil _ _

end json

namespace json

/-! ### Numbers and literals -/

theorem plain_of_isDigit (c : Char) (h : c.isDigit = true ∨ c = '-') :
    c ≠ '\x22' ∧ c ≠ '\x7b' ∧ c ≠ '[' ∧ c ≠ '\x7d' ∧ c ≠ ']' ∧ c ≠ ',' := by
  refine ⟨?_, ?_, ?_, ?_, ?_, ?_⟩ <;>
  · intro hc
    subst hc
    rcases h with h | h
    · exact absurd h (by decide)
    · exact absurd h (by decide)

theorem toString_int_chars (i : Int) :
    ∀ c ∈ (toString i).data, c.isDigit = true ∨ c = '-' := by
  intro c hc
  cases i with
  | ofNat m => exact Or.inl (strconv.FormatUint_isDigit m c hc)
  | negSucc m =>
    have hd : (toString (Int.negSucc m)).data = '-' :: (Nat.repr (m + 1)).data := rfl
    rw [hd] at hc
    rcases List.mem_cons.1 hc with h | h
    · exact Or.inr h
    · exact Or.inl (strconv.FormatUint_isDigit (m + 1) c h)

/-- A scan passes over a number. -/
theorem passes_int (i : Int) : Passes (toString i).data :=
  passes_of_plain _ (fun c hc => plain_of_isDigit c (toString_int_chars i c hc))

theorem int_ne_nil (i : Int) : (toString i).data ≠ [] := by
  cases i with
  | ofNat m =>
    intro h
    have hl := strconv.FormatUint_length_pos m
    have : (strconv.FormatUint m).length = 0 := by
      show (Nat.repr m).data.length = 0
      have h' : (Nat.repr m).data = [] := h
      rw [h']
      rfl
    omega
  | negSucc m =>
    have hd : (toString (Int.negSucc m)).data = '-' :: (Nat.repr (m + 1)).data := rfl
    rw [hd]
    exact List.cons_ne_nil _ _

/-- Different integers are written differently. -/
theorem toString_int_injective (i j : Int) (h : toString i = toString j) : i = j := by
  have hdata := congrArg String.data h
  cases i with
  | ofNat m =>
    cases j with
    | ofNat n =>
      have : strconv.FormatUint m = strconv.FormatUint n := h
      rw [strconv.FormatUint_injective this]
    | negSucc n =>
      have hd : (toString (Int.negSucc n)).data = '-' :: (Nat.repr (n + 1)).data := rfl
      rw [hd] at hdata
      have hm : '-' ∈ (strconv.FormatUint m).toList := by
        show '-' ∈ (toString (Int.ofNat m)).data
        rw [hdata]
        exact List.mem_cons_self _ _
      exact absurd (strconv.FormatUint_isDigit m _ hm) (by decide)
  | negSucc m =>
    cases j with
    | ofNat n =>
      have hd : (toString (Int.negSucc m)).data = '-' :: (Nat.repr (m + 1)).data := rfl
      rw [hd] at hdata
      have hm : '-' ∈ (strconv.FormatUint n).toList := by
        show '-' ∈ (toString (Int.ofNat n)).data
        rw [← hdata]
        exact List.mem_cons_self _ _
      exact absurd (strconv.FormatUint_isDigit n _ hm) (by decide)
    | negSucc n =>
      have hd1 : (toString (Int.negSucc m)).data = '-' :: (Nat.repr (m + 1)).data := rfl
      have hd2 : (toString (Int.negSucc n)).data = '-' :: (Nat.repr (n + 1)).data := rfl
      rw [hd1, hd2] at hdata
      injection hdata with _ ht
      have : strconv.FormatUint (m + 1) = strconv.FormatUint (n + 1) := String.ext ht
      have := strconv.FormatUint_injective this
      have hmn : m = n := by omega
      rw [hmn]

/-! ### Lists of values -/

theorem intercalate_go_data (acc : String) (xs : List String) :
    (String.intercalate.go acc "," xs).data
      = acc.data ++ xs.flatMap (fun y => ',' :: y.data) := by
  induction xs generalizing acc with
  | nil => simp [String.intercalate.go]
  | cons x xs ih =>
    rw [String.intercalate.go, ih]
    simp [String.data_append]

/-- The text of a comma-separated list. -/
theorem intercalate_data (x : String) (xs : List String) :
    (",".intercalate (x :: xs)).data = x.data ++ xs.flatMap (fun y => ',' :: y.data) := by
  rw [String.intercalate, intercalate_go_data]

theorem passesIn_tail (xs : List String) (h : ∀ x ∈ xs, Passes x.data) :
    PassesIn (xs.flatMap (fun y => ',' :: y.data)) := by
  induction xs with
  | nil => exact passesIn_of_passes passes_nil
  | cons x xs ih =>
    rw [List.flatMap_cons]
    have h1 : PassesIn (',' :: x.data) :=
      passesIn_append passesIn_comma (passesIn_of_passes (h x (List.mem_cons_self _ _)))
    exact passesIn_append h1 (ih (fun y hy => h y (List.mem_cons_of_mem _ hy)))

theorem passesIn_intercalate (xs : List String) (h : ∀ x ∈ xs, Passes x.data) :
    PassesIn (",".intercalate xs).data := by
  cases xs with
  | nil => exact passesIn_of_passes passes_nil
  | cons x xs =>
    rw [intercalate_data]
    exact passesIn_append (passesIn_of_passes (h x (List.mem_cons_self _ _)))
      (passesIn_tail xs (fun y hy => h y (List.mem_cons_of_mem _ hy)))

/-- Two comma-separated lists of values, each closed by a bracket, are the same
list when their texts are the same. -/
theorem tail_readable (xs ys : List String) (c d : Char) (r s : List Char)
    (hx : ∀ x ∈ xs, Passes x.data) (hy : ∀ y ∈ ys, Passes y.data)
    (hc : c = '\x7d' ∨ c = ']') (hd : d = '\x7d' ∨ d = ']')
    (h : xs.flatMap (fun y => ',' :: y.data) ++ c :: r
      = ys.flatMap (fun y => ',' :: y.data) ++ d :: s) : xs = ys ∧ c :: r = d :: s := by
  have hstop : ∀ (zs : List String) (e : Char) (t : List Char), (e = '\x7d' ∨ e = ']') →
      Stops (zs.flatMap (fun y => ',' :: y.data) ++ e :: t) := by
    intro zs e t he
    cases zs with
    | nil =>
      rcases he with he | he <;> subst he
      · exact stops_brace t
      · exact stops_bracket t
    | cons z zs => exact stops_comma _
  induction xs generalizing ys with
  | nil =>
    cases ys with
    | nil => exact ⟨rfl, h⟩
    | cons y ys =>
      simp only [List.flatMap_nil, List.nil_append, List.flatMap_cons, List.cons_append,
        List.cons.injEq] at h
      rcases hc with hc | hc <;> rw [hc] at h <;> exact absurd h.1 (by decide)
  | cons x xs ih =>
    cases ys with
    | nil =>
      simp only [List.flatMap_nil, List.nil_append, List.flatMap_cons, List.cons_append,
        List.cons.injEq] at h
      rcases hd with hd | hd <;> rw [hd] at h <;> exact absurd h.1.symm (by decide)
    | cons y ys =>
      simp only [List.flatMap_cons, List.cons_append, List.append_assoc, List.cons.injEq,
        true_and] at h
      obtain ⟨hxy, hrest⟩ := readable (hx x (List.mem_cons_self _ _))
        (hy y (List.mem_cons_self _ _)) (hstop xs c r hc) (hstop ys d s hd) h
      obtain ⟨h1, h2⟩ := ih ys (fun z hz => hx z (List.mem_cons_of_mem _ hz))
        (fun z hz => hy z (List.mem_cons_of_mem _ hz)) hrest
      exact ⟨by rw [String.ext hxy, h1], h2⟩

/-- Two comma-separated lists of non-empty values between the same brackets
are the same list when their texts are the same. -/
theorem list_readable (xs ys : List String) (c : Char) (hc : c = '\x7d' ∨ c = ']')
    (hx : ∀ x ∈ xs, Passes x.data ∧ x.data ≠ []) (hy : ∀ y ∈ ys, Passes y.data ∧ y.data ≠ [])
    (h : (",".intercalate xs).data ++ [c] = (",".intercalate ys).data ++ [c]) : xs = ys := by
  have hstop : ∀ (zs : List String), Stops (zs.flatMap (fun y => ',' :: y.data) ++ [c]) := by
    intro zs
    cases zs with
    | nil =>
      rcases hc with hc | hc <;> subst hc
      · exact stops_brace []
      · exact stops_bracket []
    | cons z zs => exact stops_comma _
  have hone : ∀ (z : String) (zs : List String), Passes z.data → z.data ≠ [] →
      [c] ≠ z.data ++ (zs.flatMap (fun y => ',' :: y.data) ++ [c]) := by
    intro z zs hp hne heq
    have h1 : scan .plain 0 [c] = some [c] := hstop []
    rw [heq, hp, hstop zs] at h1
    injection h1 with h1
    have h2 : [] ++ (zs.flatMap (fun y => ',' :: y.data) ++ [c])
        = z.data ++ (zs.flatMap (fun y => ',' :: y.data) ++ [c]) := h1
    exact hne (List.append_cancel_right h2).symm
  cases xs with
  | nil =>
    cases ys with
    | nil => rfl
    | cons y ys =>
      rw [intercalate_data, List.append_assoc] at h
      exact absurd h (hone y ys (hy y (List.mem_cons_self _ _)).1
        (hy y (List.mem_cons_self _ _)).2)
  | cons x xs =>
    cases ys with
    | nil =>
      rw [intercalate_data, List.append_assoc] at h
      exact absurd h.symm (hone x xs (hx x (List.mem_cons_self _ _)).1
        (hx x (List.mem_cons_self _ _)).2)
    | cons y ys =>
      rw [intercalate_data, intercalate_data, List.append_assoc, List.append_assoc] at h
      obtain ⟨hxy, hrest⟩ := readable (hx x (List.mem_cons_self _ _)).1
        (hy y (List.mem_cons_self _ _)).1 (hstop xs) (hstop ys) h
      obtain ⟨h1, _⟩ := tail_readable xs ys c c [] []
        (fun z hz => (hx z (List.mem_cons_of_mem _ hz)).1)
        (fun z hz => (hy z (List.mem_cons_of_mem _ hz)).1) hc hc hrest
      rw [String.ext hxy, h1]

end json

namespace json

/-! ### Values, objects and arrays -/

theorem value_quote (s : String) : Value (quote s) := ⟨passes_quote s, quote_ne_nil s⟩

theorem value_int (i : Int) : Value (toString i) := ⟨passes_int i, int_ne_nil i⟩

theorem value_null : Value "null" :=
  ⟨passes_of_plain _ (by decide), by decide⟩

theorem value_true : Value "true" :=
  ⟨passes_of_plain _ (by decide), by decide⟩

theorem value_false : Value "false" :=
  ⟨passes_of_plain _ (by decide), by decide⟩

theorem value_zero : Value "0" :=
  ⟨passes_of_plain _ (by decide), by decide⟩

theorem object_data (ms : List (Option String)) :
    (object ms).data
      = '\x7b' :: ((",".intercalate (ms.filterMap id)).data ++ ['\x7d']) := by
  simp [object, String.data_append]

theorem array_data (x : String) (xs : List String) :
    (array (x :: xs)).data = '[' :: ((",".intercalate (x :: xs)).data ++ [']']) := by
  simp [array, String.data_append]

/-- An object whose members are values is a value. -/
theorem value_object (ms : List (Option String)) (h : ∀ x ∈ ms.filterMap id, Value x) :
    Value (object ms) := by
  constructor
  · rw [object_data]
    exact passes_braces (passesIn_intercalate _ (fun x hx => (h x hx).1))
  · rw [object_data]
    exact List.cons_ne_nil _ _

/-- An array of values is a value. -/
theorem value_array (xs : List String) (h : ∀ x ∈ xs, Value x) : Value (array xs) := by
  cases xs with
  | nil => exact value_null
  | cons x xs =>
    constructor
    · rw [array_data]
      exact passes_brackets (passesIn_intercalate _ (fun y hy => (h y hy).1))
    · rw [array_data]
      exact List.cons_ne_nil _ _

/-- A name with a value behind it is passed over by a scan. -/
theorem value_named (key value : String) (h : Value value) :
    Value (quote key ++ ":" ++ value) := by
  constructor
  · simp only [String.data_append]
    exact passes_append (passes_append (passes_quote key) (passes_of_plain _ (by decide))) h.1
  · simp only [String.data_append, List.append_assoc]
    intro hnil
    exact quote_ne_nil key (List.append_eq_nil.1 hnil).1

/-- Objects with the same text have the same members. -/
theorem object_readable (ms ms' : List (Option String))
    (h : ∀ x ∈ ms.filterMap id, Value x) (h' : ∀ x ∈ ms'.filterMap id, Value x)
    (heq : object ms = object ms') : ms.filterMap id = ms'.filterMap id := by
  have hd := congrArg String.data heq
  rw [object_data, object_data] at hd
  injection hd with _ hd
  exact list_readable _ _ '\x7d' (Or.inl rfl) h h' hd

/-- Arrays with the same text have the same items. -/
theorem array_readable (xs ys : List String) (h : ∀ x ∈ xs, Value x) (h' : ∀ y ∈ ys, Value y)
    (heq : array xs = array ys) : xs = ys := by
  have hd := congrArg String.data heq
  cases xs with
  | nil =>
    cases ys with
    | nil => rfl
    | cons y ys =>
      rw [array_data] at hd
      have h0 : (array []).data = ['n', 'u', 'l', 'l'] := by decide
      rw [h0] at hd
      injection hd with hc _
      exact absurd hc (by decide)
  | cons x xs =>
    cases ys with
    | nil =>
      rw [array_data] at hd
      have h0 : (array []).data = ['n', 'u', 'l', 'l'] := by decide
      rw [h0] at hd
      injection hd with hc _
      exact absurd hc (by decide)
    | cons y ys =>
      rw [array_data, array_data] at hd
      injection hd with _ hd
      exact list_readable _ _ ']' (Or.inr rfl) h h' hd

/-- A name with its value determines both. -/
theorem named_readable (k k' v v' : String)
    (h : quote k ++ ":" ++ v = quote k' ++ ":" ++ v') : k = k' ∧ v = v' := by
  have hd := congrArg String.data h
  simp only [String.data_append, List.append_assoc] at hd
  obtain ⟨hk, hrest⟩ := quote_readable k k' _ _ hd
  exact ⟨hk, String.ext (List.append_cancel_left hrest)⟩

/-! ### Members -/

theorem field_none (key : String) : Field key none := fun _ h => by cases h

theorem field_member (key value : String) (h : Value value) : Field key (member key value) := by
  intro x hx
  simp only [member, Option.some.injEq] at hx
  exact ⟨value, hx.symm, h⟩

theorem field_str (key s : String) : Field key (str key s) :=
  field_member key _ (value_quote s)

theorem field_strOmit (key s : String) : Field key (strOmit key s) := by
  unfold strOmit
  split
  · exact field_none key
  · exact field_str key s

theorem field_intOmit (key : String) (i : Int) : Field key (intOmit key i) := by
  unfold intOmit
  split
  · exact field_none key
  · exact field_member key _ (value_int i)

theorem field_bind {α : Type} (key : String) (o : Option α) (f : α → Option String)
    (h : ∀ a, Field key (f a)) : Field key (o.bind f) := by
  cases o with
  | none => exact field_none key
  | some a => exact h a

theorem field_intPtrOmit (key : String) (i : Option Int) : Field key (intPtrOmit key i) :=
  field_bind key i _ (fun v => field_member key _ (value_int v))

theorem field_boolPtrOmit (key : String) (b : Option Bool) : Field key (boolPtrOmit key b) :=
  field_bind key b _ (fun v => field_member key _ (by
    cases v
    · exact value_false
    · exact value_true))

theorem field_listOmit (key : String) (items : List String) (h : ∀ x ∈ items, Value x) :
    Field key (listOmit key items) := by
  unfold listOmit
  split
  · exact field_none key
  · exact field_member key _ (value_array items h)

/-- The present members of a list of fields are values. -/
theorem fields_value (ks : List String) (ms : List (Option String))
    (h : List.Forall₂ Field ks ms) : ∀ x ∈ ms.filterMap id, Value x := by
  induction h with
  | nil => intro x hx; cases hx
  | @cons k m kt mt hf _ ih =>
    intro x hx
    cases m with
    | none => exact ih x hx
    | some y =>
      simp only [List.filterMap_cons, id] at hx
      rcases List.mem_cons.1 hx with hxy | hxy
      · obtain ⟨v, hv, hval⟩ := hf y rfl
        rw [hxy, hv]
        exact value_named k v hval
      · exact ih x hxy

/-- An object written from a list of fields is a value. -/
theorem value_fields (ks : List String) (ms : List (Option String))
    (h : List.Forall₂ Field ks ms) : Value (object ms) :=
  value_object ms (fields_value ks ms h)

theorem fields_keys (ks : List String) (ms : List (Option String))
    (h : List.Forall₂ Field ks ms) :
    ∀ x ∈ ms.filterMap id, ∃ k ∈ ks, ∃ v, x = quote k ++ ":" ++ v := by
  induction h with
  | nil => intro x hx; cases hx
  | @cons k m kt mt hf _ ih =>
    intro x hx
    cases m with
    | none =>
      obtain ⟨k', hk', v, hv⟩ := ih x hx
      exact ⟨k', List.mem_cons_of_mem _ hk', v, hv⟩
    | some y =>
      simp only [List.filterMap_cons, id] at hx
      rcases List.mem_cons.1 hx with hxy | hxy
      · obtain ⟨v, hv, _⟩ := hf y rfl
        exact ⟨k, List.mem_cons_self _ _, v, by rw [hxy, hv]⟩
      · obtain ⟨k', hk', v, hv⟩ := ih x hxy
        exact ⟨k', List.mem_cons_of_mem _ hk', v, hv⟩

/-- Two lists of members under the same distinct names have the same present
members only when they are the same lists. -/
theorem fields_eq_of_filterMap (ks : List String) (hk : ks.Nodup)
    (ms ms' : List (Option String)) (h : List.Forall₂ Field ks ms)
    (h' : List.Forall₂ Field ks ms') (heq : ms.filterMap id = ms'.filterMap id) : ms = ms' := by
  induction h generalizing ms' with
  | nil =>
    cases h'
    rfl
  | @cons k m kt mt hf ht ih =>
    cases h' with
    | @cons _ m' _ mt' hf' ht' =>
      have hkt : kt.Nodup := (List.nodup_cons.1 hk).2
      have hknot : k ∉ kt := (List.nodup_cons.1 hk).1
      have hclash : ∀ (y : String) (ns : List (Option String)), List.Forall₂ Field kt ns →
          (∃ v, y = quote k ++ ":" ++ v) → y ∉ ns.filterMap id := by
        intro y ns hns hy hmem
        obtain ⟨v, hv⟩ := hy
        obtain ⟨k', hk', v', hv'⟩ := fields_keys kt ns hns y hmem
        rw [hv] at hv'
        exact hknot (by rw [(named_readable k k' v v' hv').1]; exact hk')
      cases m with
      | none =>
        cases m' with
        | none =>
          simp only [List.filterMap_cons, id] at heq
          rw [ih hkt mt' ht' heq]
        | some y' =>
          simp only [List.filterMap_cons, id] at heq
          obtain ⟨v, hv, _⟩ := hf' y' rfl
          exact absurd (by rw [heq]; exact List.mem_cons_self _ _)
            (hclash y' mt ht ⟨v, hv⟩)
      | some y =>
        cases m' with
        | none =>
          simp only [List.filterMap_cons, id] at heq
          obtain ⟨v, hv, _⟩ := hf y rfl
          exact absurd (by rw [← heq]; exact List.mem_cons_self _ _)
            (hclash y mt' ht' ⟨v, hv⟩)
        | some y' =>
          simp only [List.filterMap_cons, id, List.cons.injEq] at heq
          rw [heq.1, ih hkt mt' ht' heq.2]

/-- Objects written from members under the same distinct names have the same
text only when the members are the same. -/
theorem fields_eq (ks : List String) (hk : ks.Nodup) (ms ms' : List (Option String))
    (h : List.Forall₂ Field ks ms) (h' : List.Forall₂ Field ks ms')
    (heq : object ms = object ms') : ms = ms' :=
  fields_eq_of_filterMap ks hk ms ms' h h'
    (object_readable ms ms' (fields_value ks ms h) (fields_value ks ms' h') heq)

end json

namespace json

/-! ### The serializations of the API types are values -/

theorem filterMap_map_some {α : Type} (l : List α) (f : α → String) :
    (l.map (fun a => some (f a))).filterMap id = l.map f := by
  induction l with
  | nil => rfl
  | cons a l ih => simp [List.filterMap_cons, ih]

theorem stringMap_members (m : StringMap) :
    ((StringMap.sortedKeys m).map fun k => str k (m.get k)).filterMap id
      = (StringMap.sortedKeys m).map fun k => quote k ++ ":" ++ quote (m.get k) :=
  filterMap_map_some _ _

theorem value_stringMap (m : StringMap) : Value (stringMap m) := by
  apply value_object
  rw [stringMap_members]
  intro x hx
  obtain ⟨k, _, hk⟩ := List.mem_map.1 hx
  rw [← hk]
  exact value_named k _ (value_quote _)

theorem field_mapOmit (key : String) (m : Option StringMap) : Field key (mapOmit key m) := by
  unfold mapOmit
  split
  · exact field_none key
  · exact field_member key _ (value_stringMap _)

theorem objectMeta_fields (m : metav1.ObjectMeta) :
    List.Forall₂ Field
      ["name", "namespace", "resourceVersion", "creationTimestamp", "labels", "annotations"]
      [strOmit "name" m.Name, strOmit "namespace" m.Namespace,
        strOmit "resourceVersion" m.ResourceVersion, member "creationTimestamp" "null",
        mapOmit "labels" m.Labels, mapOmit "annotations" m.Annotations] :=
  .cons (field_strOmit _ _) (.cons (field_strOmit _ _) (.cons (field_strOmit _ _)
    (.cons (field_member _ _ value_null) (.cons (field_mapOmit _ _)
      (.cons (field_mapOmit _ _) .nil)))))

theorem value_objectMeta (m : metav1.ObjectMeta) : Value (objectMeta m) :=
  value_fields _ _ (objectMeta_fields m)

theorem value_labelSelector (s : metav1.LabelSelector) : Value (labelSelector s) :=
  value_fields ["matchLabels"] _ (.cons (field_mapOmit _ _) .nil)

theorem value_selectorPtr (s : Option metav1.LabelSelector) : Value (selectorPtr s) := by
  cases s with
  | none => exact value_null
  | some sel => exact value_labelSelector sel

theorem keySelector_fields (s : corev1.KeySelector) :
    List.Forall₂ Field ["name", "key", "optional"]
      [strOmit "name" s.Name, str "key" s.Key, boolPtrOmit "optional" s.Optional] :=
  .cons (field_strOmit _ _) (.cons (field_str _ _) (.cons (field_boolPtrOmit _ _) .nil))

theorem value_keySelector (s : corev1.KeySelector) : Value (keySelector s) :=
  value_fields _ _ (keySelector_fields s)

theorem fieldRef_fields (f : corev1.ObjectFieldSelector) :
    List.Forall₂ Field ["apiVersion", "fieldPath"]
      [strOmit "apiVersion" f.APIVersion, str "fieldPath" f.FieldPath] :=
  .cons (field_strOmit _ _) (.cons (field_str _ _) .nil)

theorem resourceFieldRef_fields (f : corev1.ResourceFieldSelector) :
    List.Forall₂ Field ["containerName", "resource", "divisor"]
      [strOmit "containerName" f.ContainerName, str "resource" f.Resource,
        str "divisor" f.Divisor] :=
  .cons (field_strOmit _ _) (.cons (field_str _ _) (.cons (field_str _ _) .nil))

theorem envVarSource_fields (s : corev1.EnvVarSource) :
    List.Forall₂ Field ["fieldRef", "resourceFieldRef", "configMapKeyRef", "secretKeyRef"]
      [ s.FieldRef.bind (fun f => member "fieldRef"
          (object [strOmit "apiVersion" f.APIVersion, str "fieldPath" f.FieldPath])),
        s.ResourceFieldRef.bind (fun f => member "resourceFieldRef"
          (object [strOmit "containerName" f.ContainerName, str "resource" f.Resource,
            str "divisor" f.Divisor])),
        s.ConfigMapKeyRef.bind (fun f => member "configMapKeyRef" (keySelector f)),
        s.SecretKeyRef.bind (fun f => member "secretKeyRef" (keySelector f)) ] :=
  .cons (field_bind _ _ _ (fun f => field_member _ _ (value_fields _ _ (fieldRef_fields f))))
    (.cons (field_bind _ _ _
        (fun f => field_member _ _ (value_fields _ _ (resourceFieldRef_fields f))))
      (.cons (field_bind _ _ _ (fun f => field_member _ _ (value_keySelector f)))
        (.cons (field_bind _ _ _ (fun f => field_member _ _ (value_keySelector f))) .nil)))

theorem value_envVarSource (s : corev1.EnvVarSource) : Value (envVarSource s) :=
  value_fields _ _ (envVarSource_fields s)

theorem envVar_fields (e : corev1.EnvVar) :
    List.Forall₂ Field ["name", "value", "valueFrom"]
      [str "name" e.Name, strOmit "value" e.Value,
        e.ValueFrom.bind (fun s => member "valueFrom" (envVarSource s))] :=
  .cons (field_str _ _) (.cons (field_strOmit _ _)
    (.cons (field_bind _ _ _ (fun s => field_member _ _ (value_envVarSource s))) .nil))

theorem value_envVar (e : corev1.EnvVar) : Value (envVar e) :=
  value_fields _ _ (envVar_fields e)

theorem value_resourceRequirements (r : corev1.ResourceRequirements) :
    Value (resourceRequirements r) :=
  value_fields ["limits", "requests"] _
    (.cons (field_mapOmit _ _) (.cons (field_mapOmit _ _) .nil))

theorem value_volumeMount (v : corev1.VolumeMount) : Value (volumeMount v) := by
  apply value_fields ["name", "readOnly", "mountPath", "subPath"]
  refine .cons (field_str _ _) (.cons ?_ (.cons (field_str _ _)
    (.cons (field_strOmit _ _) .nil)))
  split
  · exact field_member _ _ value_true
  · exact field_none _

theorem intOrString_value (v : intstr.IntOrString) (s : String) (h : intOrString v = .ok s) :
    Value s := by
  unfold intOrString at h
  split at h
  · injection h with h
    rw [← h]
    exact value_int _
  · split at h
    · injection h with h
      rw [← h]
      exact value_quote _
    · cases h

theorem httpGetAction_value (a : corev1.HTTPGetAction) (s : String)
    (h : httpGetAction a = .ok s) : Value s := by
  unfold httpGetAction at h
  cases hp : intOrString a.Port with
  | error e => simp [hp, bind, Except.bind] at h
  | ok port =>
    simp only [hp, bind, Except.bind, pure, Except.pure, Except.ok.injEq] at h
    rw [← h]
    exact value_fields ["path", "port", "host", "scheme"] _
      (.cons (field_strOmit _ _) (.cons (field_member _ _ (intOrString_value _ _ hp))
        (.cons (field_strOmit _ _) (.cons (field_strOmit _ _) .nil))))

theorem probe_value (p : corev1.Probe) (s : String) (h : probe p = .ok s) : Value s := by
  unfold probe at h
  have key : ∀ (httpGet : Option String), Field "httpGet" httpGet →
      Value (object [httpGet, intOmit "initialDelaySeconds" p.InitialDelaySeconds,
        intOmit "timeoutSeconds" p.TimeoutSeconds, intOmit "periodSeconds" p.PeriodSeconds,
        intOmit "successThreshold" p.SuccessThreshold,
        intOmit "failureThreshold" p.FailureThreshold]) := fun httpGet hf =>
    value_fields ["httpGet", "initialDelaySeconds", "timeoutSeconds", "periodSeconds",
      "successThreshold", "failureThreshold"] _
      (.cons hf (.cons (field_intOmit _ _) (.cons (field_intOmit _ _)
        (.cons (field_intOmit _ _) (.cons (field_intOmit _ _)
          (.cons (field_intOmit _ _) .nil))))))
  cases hg : p.Handler.HTTPGet with
  | none =>
    simp only [hg, bind, Except.bind, pure, Except.pure, Except.ok.injEq] at h
    rw [← h]
    exact key none (field_none _)
  | some a =>
    cases ha : httpGetAction a with
    | error e => simp [hg, ha, bind, Except.bind] at h
    | ok t =>
      simp only [hg, ha, bind, Except.bind, pure, Except.pure, Except.ok.injEq] at h
      rw [← h]
      exact key _ (field_member _ _ (httpGetAction_value a t ha))

theorem probeOmit_field (key : String) (p : Option corev1.Probe) (m : Option String)
    (h : probeOmit key p = .ok m) : Field key m := by
  cases p with
  | none =>
    simp only [probeOmit, pure, Except.pure, Except.ok.injEq] at h
    rw [← h]
    exact field_none key
  | some p =>
    cases hp : probe p with
    | error e => simp [probeOmit, hp, bind, Except.bind] at h
    | ok t =>
      simp only [probeOmit, hp, bind, Except.bind, pure, Except.pure, Except.ok.injEq] at h
      rw [← h]
      exact field_member key t (probe_value p t hp)

theorem value_of_mem_map {α : Type} (f : α → String) (hf : ∀ a, Value (f a)) (l : List α) :
    ∀ x ∈ l.map f, Value x := by
  intro x hx
  obtain ⟨a, _, ha⟩ := List.mem_map.1 hx
  rw [← ha]
  exact hf a

/-- The members of the serialization of a container. -/
theorem container_fields (c : corev1.Container) (s : String) (h : container c = .ok s) :
    ∃ liveness readiness, s = object [str "name" c.Name, strOmit "image" c.Image,
        listOmit "args" (c.Args.map quote), listOmit "env" (c.Env.map envVar),
        member "resources" (resourceRequirements c.Resources),
        listOmit "volumeMounts" (c.VolumeMounts.map volumeMount),
        liveness, readiness, strOmit "imagePullPolicy" c.ImagePullPolicy] ∧
      List.Forall₂ Field
        ["name", "image", "args", "env", "resources", "volumeMounts", "livenessProbe",
          "readinessProbe", "imagePullPolicy"]
        [str "name" c.Name, strOmit "image" c.Image,
          listOmit "args" (c.Args.map quote), listOmit "env" (c.Env.map envVar),
          member "resources" (resourceRequirements c.Resources),
          listOmit "volumeMounts" (c.VolumeMounts.map volumeMount),
          liveness, readiness, strOmit "imagePullPolicy" c.ImagePullPolicy] := by
  unfold container at h
  cases hl : probeOmit "livenessProbe" c.LivenessProbe with
  | error e => simp [hl, bind, Except.bind] at h
  | ok liveness =>
    cases hr : probeOmit "readinessProbe" c.ReadinessProbe with
    | error e => simp [hl, hr, bind, Except.bind] at h
    | ok readiness =>
      simp only [hl, hr, bind, Except.bind, pure, Except.pure, Except.ok.injEq] at h
      refine ⟨liveness, readiness, h.symm, ?_⟩
      exact .cons (field_str _ _) (.cons (field_strOmit _ _)
        (.cons (field_listOmit _ _ (value_of_mem_map quote value_quote _))
          (.cons (field_listOmit _ _ (value_of_mem_map envVar value_envVar _))
            (.cons (field_member _ _ (value_resourceRequirements _))
              (.cons (field_listOmit _ _ (value_of_mem_map volumeMount value_volumeMount _))
                (.cons (probeOmit_field _ _ _ hl) (.cons (probeOmit_field _ _ _ hr)
                  (.cons (field_strOmit _ _) .nil))))))))

theorem container_value (c : corev1.Container) (s : String) (h : container c = .ok s) :
    Value s := by
  obtain ⟨_, _, hs, hf⟩ := container_fields c s h
  rw [hs]
  exact value_fields _ _ hf

theorem value_keyToPath (k : corev1.KeyToPath) : Value (keyToPath k) :=
  value_fields ["key", "path", "mode"] _
    (.cons (field_str _ _) (.cons (field_str _ _) (.cons (field_intPtrOmit _ _) .nil)))

theorem value_volume (v : corev1.Volume) : Value (volume v) :=
  value_fields ["name", "secret"] _
    (.cons (field_str _ _) (.cons (field_bind _ _ _ (fun _ => field_member _ _
      (value_fields ["secretName", "items", "defaultMode", "optional"] _
        (.cons (field_strOmit _ _)
          (.cons (field_listOmit _ _ (value_of_mem_map keyToPath value_keyToPath _))
            (.cons (field_intPtrOmit _ _) (.cons (field_boolPtrOmit _ _) .nil))))))) .nil))

theorem value_nodeSelectorRequirement (r : corev1.NodeSelectorRequirement) :
    Value (nodeSelectorRequirement r) :=
  value_fields ["key", "operator", "values"] _
    (.cons (field_str _ _) (.cons (field_str _ _)
      (.cons (field_listOmit _ _ (value_of_mem_map quote value_quote _)) .nil)))

theorem value_nodeSelectorTerm (t : corev1.NodeSelectorTerm) : Value (nodeSelectorTerm t) :=
  value_fields ["matchExpressions", "matchFields"] _
    (.cons (field_listOmit _ _
        (value_of_mem_map nodeSelectorRequirement value_nodeSelectorRequirement _))
      (.cons (field_listOmit _ _
        (value_of_mem_map nodeSelectorRequirement value_nodeSelectorRequirement _)) .nil))

theorem value_affinity (a : corev1.Affinity) : Value (affinity a) :=
  value_fields ["nodeAffinity"] _
    (.cons (field_bind _ _ _ (fun _ => field_member _ _
      (value_fields ["requiredDuringSchedulingIgnoredDuringExecution"] _
        (.cons (field_bind _ _ _ (fun _ => field_member _ _
          (value_fields ["nodeSelectorTerms"] _
            (.cons (field_member _ _ (value_array _
              (value_of_mem_map nodeSelectorTerm value_nodeSelectorTerm _))) .nil)))) .nil))))
      .nil)

theorem value_toleration (t : corev1.Toleration) : Value (toleration t) :=
  value_fields ["key", "operator", "value", "effect", "tolerationSeconds"] _
    (.cons (field_strOmit _ _) (.cons (field_strOmit _ _) (.cons (field_strOmit _ _)
      (.cons (field_strOmit _ _) (.cons (field_intPtrOmit _ _) .nil)))))

theorem mapM_container_value (cs : List corev1.Container) (ss : List String)
    (h : mapM container cs = .ok ss) :
    List.Forall₂ (fun c s => container c = .ok s) cs ss := by
  induction cs generalizing ss with
  | nil =>
    simp only [mapM, pure, Except.pure, Except.ok.injEq] at h
    rw [← h]
    exact .nil
  | cons c cs ih =>
    unfold mapM at h
    cases hc : container c with
    | error e => simp [hc, bind, Except.bind] at h
    | ok s =>
      cases hr : mapM container cs with
      | error e => simp [hc, hr, bind, Except.bind] at h
      | ok rest =>
        simp only [hc, hr, bind, Except.bind, pure, Except.pure, Except.ok.injEq] at h
        rw [← h]
        exact .cons hc (ih rest hr)

end json

namespace json

theorem containers_value (cs : List corev1.Container) (ss : List String)
    (h : List.Forall₂ (fun c s => container c = .ok s) cs ss) : ∀ x ∈ ss, Value x := by
  induction h with
  | nil => intro x hx; cases hx
  | @cons c y cs ys hcy _ ih =>
    intro x hx
    rcases List.mem_cons.1 hx with hxy | hxy
    · rw [hxy]
      exact container_value c y hcy
    · exact ih x hxy

/-- The members of the serialization of a pod specification. -/
theorem podSpec_fields (s : corev1.PodSpec) (t : String) (h : podSpec s = .ok t) :
    ∃ containers, mapM container s.Containers = .ok containers ∧
      t = object [listOmit "volumes" (s.Volumes.map volume),
        member "containers" (array containers), mapOmit "nodeSelector" s.NodeSelector,
        strOmit "serviceAccountName" s.ServiceAccountName,
        listOmit "imagePullSecrets"
          (s.ImagePullSecrets.map fun r => object [strOmit "name" r.Name]),
        s.Affinity.bind (fun a => member "affinity" (affinity a)),
        listOmit "tolerations" (s.Tolerations.map toleration)] ∧
      (∀ x ∈ containers, Value x) ∧
      List.Forall₂ Field
        ["volumes", "containers", "nodeSelector", "serviceAccountName", "imagePullSecrets",
          "affinity", "tolerations"]
        [listOmit "volumes" (s.Volumes.map volume),
          member "containers" (array containers), mapOmit "nodeSelector" s.NodeSelector,
          strOmit "serviceAccountName" s.ServiceAccountName,
          listOmit "imagePullSecrets"
            (s.ImagePullSecrets.map fun r => object [strOmit "name" r.Name]),
          s.Affinity.bind (fun a => member "affinity" (affinity a)),
          listOmit "tolerations" (s.Tolerations.map toleration)] := by
  unfold podSpec at h
  cases hc : mapM container s.Containers with
  | error e => simp [hc, bind, Except.bind] at h
  | ok containers =>
    simp only [hc, bind, Except.bind, pure, Except.pure, Except.ok.injEq] at h
    have hval : ∀ x ∈ containers, Value x :=
      containers_value _ _ (mapM_container_value _ _ hc)
    refine ⟨containers, rfl, h.symm, hval, ?_⟩
    exact .cons (field_listOmit _ _ (value_of_mem_map volume value_volume _))
      (.cons (field_member _ _ (value_array _ hval))
        (.cons (field_mapOmit _ _) (.cons (field_strOmit _ _)
          (.cons (field_listOmit _ _ (value_of_mem_map _
            (fun r => value_fields ["name"] _ (.cons (field_strOmit _ _) .nil)) _))
            (.cons (field_bind _ _ _ (fun a => field_member _ _ (value_affinity a)))
              (.cons (field_listOmit _ _ (value_of_mem_map toleration value_toleration _))
                .nil))))))

theorem podSpec_value (s : corev1.PodSpec) (t : String) (h : podSpec s = .ok t) : Value t := by
  obtain ⟨_, _, ht, _, hf⟩ := podSpec_fields s t h
  rw [ht]
  exact value_fields _ _ hf

theorem template_fields (meta : metav1.ObjectMeta) (pod : String) (hpod : Value pod) :
    List.Forall₂ Field ["metadata", "spec"]
      [member "metadata" (objectMeta meta), member "spec" pod] :=
  .cons (field_member _ _ (value_objectMeta meta)) (.cons (field_member _ _ hpod) .nil)

/-- The members of the serialization of a StatefulSet specification. -/
theorem statefulSetSpec_fields (s : appsv1.StatefulSetSpec) (t : String)
    (h : statefulSetSpec s = .ok t) :
    ∃ pod, podSpec s.Template.Spec = .ok pod ∧
      t = object [intPtrOmit "replicas" s.Replicas,
        member "selector" (selectorPtr s.Selector),
        member "template"
          (object [member "metadata" (objectMeta s.Template.ObjectMeta), member "spec" pod]),
        str "serviceName" s.ServiceName, strOmit "podManagementPolicy" s.PodManagementPolicy,
        member "updateStrategy" (object [])] ∧
      List.Forall₂ Field
        ["replicas", "selector", "template", "serviceName", "podManagementPolicy",
          "updateStrategy"]
        [intPtrOmit "replicas" s.Replicas,
          member "selector" (selectorPtr s.Selector),
          member "template"
            (object [member "metadata" (objectMeta s.Template.ObjectMeta), member "spec" pod]),
          str "serviceName" s.ServiceName, strOmit "podManagementPolicy" s.PodManagementPolicy,
          member "updateStrategy" (object [])] := by
  unfold statefulSetSpec at h
  cases hp : podSpec s.Template.Spec with
  | error e => simp [hp, bind, Except.bind] at h
  | ok pod =>
    simp only [hp, bind, Except.bind, pure, Except.pure, Except.ok.injEq] at h
    refine ⟨pod, rfl, h.symm, ?_⟩
    exact .cons (field_intPtrOmit _ _) (.cons (field_member _ _ (value_selectorPtr _))
      (.cons (field_member _ _ (value_fields _ _
          (template_fields _ pod (podSpec_value _ _ hp))))
        (.cons (field_str _ _) (.cons (field_strOmit _ _)
          (.cons (field_member _ _ (value_fields [] [] .nil)) .nil)))))

/-- The members of the serialization of a StatefulSet. -/
theorem Marshal_fields (sts : appsv1.StatefulSet) (t : String) (h : Marshal sts = .ok t) :
    ∃ spec, statefulSetSpec sts.Spec = .ok spec ∧
      t = object [strOmit "kind" sts.Kind, strOmit "apiVersion" sts.APIVersion,
        member "metadata" (objectMeta sts.ObjectMeta), member "spec" spec,
        member "status" (object [member "replicas" "0"])] ∧
      List.Forall₂ Field ["kind", "apiVersion", "metadata", "spec", "status"]
        [strOmit "kind" sts.Kind, strOmit "apiVersion" sts.APIVersion,
          member "metadata" (objectMeta sts.ObjectMeta), member "spec" spec,
          member "status" (object [member "replicas" "0"])] := by
  unfold Marshal at h
  cases hs : statefulSetSpec sts.Spec with
  | error e => simp [hs, bind, Except.bind] at h
  | ok spec =>
    simp only [hs, bind, Except.bind, pure, Except.pure, Except.ok.injEq] at h
    obtain ⟨_, _, hspec, hf⟩ := statefulSetSpec_fields _ _ hs
    refine ⟨spec, rfl, h.symm, ?_⟩
    exact .cons (field_strOmit _ _) (.cons (field_strOmit _ _)
      (.cons (field_member _ _ (value_objectMeta _))
        (.cons (field_member _ _ (by rw [hspec]; exact value_fields _ _ hf))
          (.cons (field_member _ _ (value_fields ["replicas"] _
            (.cons (field_member _ _ value_zero) .nil))) .nil))))

/-! ### Equal texts come from equal fields -/

theorem member_inj (key v v' : String) (h : member key v = member key v') : v = v' := by
  simp only [member, Option.some.injEq] at h
  exact (named_readable key key v v' h).2

theorem str_inj (key s s' : String) (h : str key s = str key s') : s = s' :=
  quote_injective (member_inj key _ _ h)

theorem strOmit_inj (key s s' : String) (h : strOmit key s = strOmit key s') : s = s' := by
  unfold strOmit at h
  by_cases h1 : s = "" <;> by_cases h2 : s' = ""
  · rw [h1, h2]
  · simp [h1, h2, str, member] at h
  · simp [h1, h2, str, member] at h
  · simp only [h1, h2, if_false] at h
    exact str_inj key s s' h

theorem bind_member_inj {α : Type} (key : String) (f : α → String)
    (hf : ∀ a b, f a = f b → a = b) (o o' : Option α)
    (h : o.bind (fun a => member key (f a)) = o'.bind (fun a => member key (f a))) :
    o = o' := by
  cases o with
  | none =>
    cases o' with
    | none => rfl
    | some b => simp [member] at h
  | some a =>
    cases o' with
    | none => simp [member] at h
    | some b =>
      simp only [Option.some_bind] at h
      rw [hf a b (member_inj key _ _ h)]

theorem boolPtrOmit_inj (key : String) (o o' : Option Bool)
    (h : boolPtrOmit key o = boolPtrOmit key o') : o = o' := by
  unfold boolPtrOmit at h
  exact bind_member_inj key (fun v : Bool => if v = true then "true" else "false")
    (fun a b hab => by cases a <;> cases b <;> first | rfl | exact absurd hab (by decide))
    o o' h

theorem listOmit_inj (key : String) (xs ys : List String) (hx : ∀ x ∈ xs, Value x)
    (hy : ∀ y ∈ ys, Value y) (h : listOmit key xs = listOmit key ys) : xs = ys := by
  unfold listOmit at h
  cases xs with
  | nil =>
    cases ys with
    | nil => rfl
    | cons y ys => simp [member] at h
  | cons x xs =>
    cases ys with
    | nil => simp [member] at h
    | cons y ys =>
      simp only [List.isEmpty_cons, Bool.false_eq_true, if_false] at h
      exact array_readable _ _ hx hy (member_inj key _ _ h)

theorem keySelector_injective (a b : corev1.KeySelector) (h : keySelector a = keySelector b) :
    a = b := by
  have hl := fields_eq _ (by decide) _ _ (keySelector_fields a) (keySelector_fields b) h
  simp only [List.cons.injEq, and_true] at hl
  obtain ⟨h1, h2, h3⟩ := hl
  have e1 := strOmit_inj _ _ _ h1
  have e2 := str_inj _ _ _ h2
  have e3 := boolPtrOmit_inj _ _ _ h3
  cases a
  cases b
  simp only at e1 e2 e3
  rw [e1, e2, e3]

theorem fieldRef_injective (a b : corev1.ObjectFieldSelector)
    (h : object [strOmit "apiVersion" a.APIVersion, str "fieldPath" a.FieldPath]
      = object [strOmit "apiVersion" b.APIVersion, str "fieldPath" b.FieldPath]) : a = b := by
  have hl := fields_eq _ (by decide) _ _ (fieldRef_fields a) (fieldRef_fields b) h
  simp only [List.cons.injEq, and_true] at hl
  obtain ⟨h1, h2⟩ := hl
  have e1 := strOmit_inj _ _ _ h1
  have e2 := str_inj _ _ _ h2
  cases a
  cases b
  simp only at e1 e2
  rw [e1, e2]

theorem resourceFieldRef_injective (a b : corev1.ResourceFieldSelector)
    (h : object [strOmit "containerName" a.ContainerName, str "resource" a.Resource,
        str "divisor" a.Divisor]
      = object [strOmit "containerName" b.ContainerName, str "resource" b.Resource,
        str "divisor" b.Divisor]) : a = b := by
  have hl := fields_eq _ (by decide) _ _ (resourceFieldRef_fields a)
    (resourceFieldRef_fields b) h
  simp only [List.cons.injEq, and_true] at hl
  obtain ⟨h1, h2, h3⟩ := hl
  have e1 := strOmit_inj _ _ _ h1
  have e2 := str_inj _ _ _ h2
  have e3 := str_inj _ _ _ h3
  cases a
  cases b
  simp only at e1 e2 e3
  rw [e1, e2, e3]

theorem envVarSource_injective (a b : corev1.EnvVarSource)
    (h : envVarSource a = envVarSource b) : a = b := by
  have hl := fields_eq _ (by decide) _ _ (envVarSource_fields a) (envVarSource_fields b) h
  simp only [List.cons.injEq, and_true] at hl
  obtain ⟨h1, h2, h3, h4⟩ := hl
  have e1 := bind_member_inj _ _ fieldRef_injective _ _ h1
  have e2 := bind_member_inj _ _ resourceFieldRef_injective _ _ h2
  have e3 := bind_member_inj _ _ keySelector_injective _ _ h3
  have e4 := bind_member_inj _ _ keySelector_injective _ _ h4
  cases a
  cases b
  simp only at e1 e2 e3 e4
  rw [e1, e2, e3, e4]

/-- Environment variables with the same serialization are the same. -/
theorem envVar_injective (a b : corev1.EnvVar) (h : envVar a = envVar b) : a = b := by
  have hl := fields_eq _ (by decide) _ _ (envVar_fields a) (envVar_fields b) h
  simp only [List.cons.injEq, and_true] at hl
  obtain ⟨h1, h2, h3⟩ := hl
  have e1 := str_inj _ _ _ h1
  have e2 := strOmit_inj _ _ _ h2
  have e3 := bind_member_inj _ _ envVarSource_injective _ _ h3
  cases a
  cases b
  simp only at e1 e2 e3
  rw [e1, e2, e3]

theorem map_injective {α : Type} (f : α → String) (hf : ∀ a b, f a = f b → a = b)
    (xs ys : List α) (h : xs.map f = ys.map f) : xs = ys := by
  induction xs generalizing ys with
  | nil =>
    cases ys with
    | nil => rfl
    | cons y ys => cases h
  | cons x xs ih =>
    cases ys with
    | nil => cases h
    | cons y ys =>
      simp only [List.map_cons, List.cons.injEq] at h
      rw [hf x y h.1, ih ys h.2]

/-- Containers with the same serialization have the same arguments and the
same environment. -/
theorem container_args_env (c c' : corev1.Container) (s : String)
    (h : container c = .ok s) (h' : container c' = .ok s) :
    c.Args = c'.Args ∧ c.Env = c'.Env := by
  obtain ⟨l, r, hs, hf⟩ := container_fields c s h
  obtain ⟨l', r', hs', hf'⟩ := container_fields c' s h'
  have hl := fields_eq _ (by decide) _ _ hf hf' (by rw [← hs, ← hs'])
  simp only [List.cons.injEq, and_true] at hl
  obtain ⟨_, _, hargs, henv, _⟩ := hl
  constructor
  · exact map_injective quote (fun a b hab => quote_injective hab) _ _
      (listOmit_inj _ _ _ (value_of_mem_map quote value_quote _)
        (value_of_mem_map quote value_quote _) hargs)
  · exact map_injective envVar envVar_injective _ _
      (listOmit_inj _ _ _ (value_of_mem_map envVar value_envVar _)
        (value_of_mem_map envVar value_envVar _) henv)

theorem mapM_container_args_env (cs cs' : List corev1.Container) (ss : List String)
    (h : mapM container cs = .ok ss) (h' : mapM container cs' = .ok ss) :
    cs.map (fun c => (c.Env, c.Args)) = cs'.map (fun c => (c.Env, c.Args)) := by
  have hall := mapM_container_value _ _ h
  have hall' := mapM_container_value _ _ h'
  clear h h'
  induction hall generalizing cs' with
  | nil =>
    cases hall'
    rfl
  | @cons c s cs ss hc _ ih =>
    cases hall' with
    | @cons c' _ cs' _ hc' hrest' =>
      obtain ⟨h1, h2⟩ := container_args_env c c' s hc hc'
      simp only [List.map_cons, List.cons.injEq, Prod.mk.injEq]
      exact ⟨⟨h2, h1⟩, ih cs' hrest'⟩

end json

namespace json

theorem named_list_readable (a b : String → String) (l l' : List String)
    (h : l.map (fun k => quote k ++ ":" ++ quote (a k))
      = l'.map (fun k => quote k ++ ":" ++ quote (b k))) :
    l = l' ∧ ∀ k ∈ l, a k = b k := by
  induction l generalizing l' with
  | nil =>
    cases l' with
    | nil => exact ⟨rfl, fun k hk => by cases hk⟩
    | cons y ys => cases h
  | cons x xs ih =>
    cases l' with
    | nil => cases h
    | cons y ys =>
      simp only [List.map_cons, List.cons.injEq] at h
      obtain ⟨hk, hv⟩ := named_readable _ _ _ _ h.1
      obtain ⟨hl, hall⟩ := ih ys h.2
      subst hk
      refine ⟨by rw [hl], ?_⟩
      intro k hk
      rcases List.mem_cons.1 hk with hkx | hkx
      · rw [hkx]
        exact quote_injective hv
      · exact hall k hkx

/-- Maps with the same serialization have the same bindings. -/
theorem stringMap_inj (m m' : StringMap) (h : stringMap m = stringMap m') (k : String) :
    m.get? k = m'.get? k := by
  have hv : ∀ (n : StringMap), ∀ x ∈ ((StringMap.sortedKeys n).map
      fun k => str k (n.get k)).filterMap id, Value x := by
    intro n x hx
    rw [stringMap_members] at hx
    obtain ⟨key, _, hkey⟩ := List.mem_map.1 hx
    rw [← hkey]
    exact value_named key _ (value_quote _)
  have hl := object_readable _ _ (hv m) (hv m') h
  rw [stringMap_members, stringMap_members] at hl
  obtain ⟨hkeys, hvals⟩ := named_list_readable (fun k => m.get k) (fun k => m'.get k) _ _ hl
  by_cases hk : k ∈ StringMap.sortedKeys m
  · have hk' : k ∈ StringMap.sortedKeys m' := by rw [← hkeys]; exact hk
    have h1 := (StringMap.mem_sortedKeys m k).1 hk
    have h2 := (StringMap.mem_sortedKeys m' k).1 hk'
    have h3 := hvals k hk
    simp only [StringMap.get] at h3
    cases hg : m.get? k with
    | none => exact absurd hg h1
    | some v =>
      cases hg' : m'.get? k with
      | none => exact absurd hg' h2
      | some v' =>
        rw [hg, hg'] at h3
        simp only [Option.getD_some] at h3
        rw [h3]
  · have hk' : k ∉ StringMap.sortedKeys m' := by rw [← hkeys]; exact hk
    have h1 : m.get? k = none := by
      by_contra hne
      exact hk ((StringMap.mem_sortedKeys m k).2 hne)
    have h2 : m'.get? k = none := by
      by_contra hne
      exact hk' ((StringMap.mem_sortedKeys m' k).2 hne)
    rw [h1, h2]

theorem get?_of_mapIsEmpty (m : Option StringMap) (h : mapIsEmpty m = true) (k : String) :
    (m.getD []).get? k = none := by
  cases m with
  | none => rfl
  | some l =>
    simp only [mapIsEmpty] at h
    exact (StringMap.isEmpty_iff l).1 h k

/-- Map members with the same text come from maps with the same bindings. -/
theorem mapOmit_inj (key : String) (m m' : Option StringMap)
    (h : mapOmit key m = mapOmit key m') (k : String) :
    (m.getD []).get? k = (m'.getD []).get? k := by
  unfold mapOmit at h
  by_cases h1 : mapIsEmpty m = true <;> by_cases h2 : mapIsEmpty m' = true
  · rw [get?_of_mapIsEmpty m h1, get?_of_mapIsEmpty m' h2]
  · simp [h1, h2, member] at h
  · simp [h1, h2, member] at h
  · simp only [h1, h2, if_false] at h
    exact stringMap_inj _ _ (member_inj key _ _ h) k

/-- Two manifests with the same serialization have pod templates with the same
annotations, and containers with the same environment and the same arguments. -/
theorem Marshal_hashed_fields (m n : appsv1.StatefulSet) (data : String)
    (hm : Marshal m = .ok data) (hn : Marshal n = .ok data) :
    (∀ k, (m.Spec.Template.ObjectMeta.Annotations.getD []).get? k
      = (n.Spec.Template.ObjectMeta.Annotations.getD []).get? k) ∧
    m.Spec.Template.Spec.Containers.map (fun c => (c.Env, c.Args))
      = n.Spec.Template.Spec.Containers.map (fun c => (c.Env, c.Args)) := by
  obtain ⟨spec, hspec, ht, hf⟩ := Marshal_fields m data hm
  obtain ⟨spec', hspec', ht', hf'⟩ := Marshal_fields n data hn
  have hl := fields_eq _ (by decide) _ _ hf hf' (by rw [← ht, ← ht'])
  injection hl with _ hl
  injection hl with _ hl
  injection hl with _ hl
  injection hl with hsp _
  have hsp := member_inj _ _ _ hsp
  subst hsp
  obtain ⟨pod, hpod, hs, hsf⟩ := statefulSetSpec_fields _ _ hspec
  obtain ⟨pod', hpod', hs', hsf'⟩ := statefulSetSpec_fields _ _ hspec'
  have hl := fields_eq _ (by decide) _ _ hsf hsf' (by rw [← hs, ← hs'])
  injection hl with _ hl
  injection hl with _ hl
  injection hl with htemplate _
  have htemplate := member_inj _ _ _ htemplate
  have hl := fields_eq _ (by decide) _ _
    (template_fields m.Spec.Template.ObjectMeta pod (podSpec_value _ _ hpod))
    (template_fields n.Spec.Template.ObjectMeta pod' (podSpec_value _ _ hpod')) htemplate
  injection hl with hmeta hl
  injection hl with hpodeq _
  have hmeta := member_inj _ _ _ hmeta
  have hpodeq := member_inj _ _ _ hpodeq
  subst hpodeq
  constructor
  · have hl := fields_eq _ (by decide) _ _ (objectMeta_fields m.Spec.Template.ObjectMeta)
      (objectMeta_fields n.Spec.Template.ObjectMeta) hmeta
    injection hl with _ hl
    injection hl with _ hl
    injection hl with _ hl
    injection hl with _ hl
    injection hl with _ hl
    injection hl with hann _
    exact mapOmit_inj _ _ _ hann
  · obtain ⟨cs, hcs, hp, hcv, hpf⟩ := podSpec_fields _ _ hpod
    obtain ⟨cs', hcs', hp', hcv', hpf'⟩ := podSpec_fields _ _ hpod'
    have hl := fields_eq _ (by decide) _ _ hpf hpf' (by rw [← hp, ← hp'])
    injection hl with _ hl
    injection hl with hcontainers _
    have harr := array_readable _ _ hcv hcv' (member_inj _ _ _ hcontainers)
    subst harr
    exact mapM_container_args_env _ _ cs hcs hcs'

end json

namespace capability

/-- C2, as amended: for two property sets on which `CreateStatefulSet`
succeeds, the manifests left by the hooks that differ in a hashed field (an
annotation of the pod template, such as the custom-properties hash, or the
environment or the arguments of a container) have different JSON
serializations; `HasStatefulSetChanged` of the two results is true exactly when
the 32-bit FNV-1 hashes of the two serializations differ, so a difference in a
hashed field is reported unless the two different serializations have the same
hash, and a reported change implies that the manifests differ. With no hooks,
property sets with different custom-properties hashes, environments or
arguments have different serializations. -/
theorem CreateStatefulSet_drift (X : Externals) (p q : statefulSetProperties)
    (a b : appsv1.StatefulSet) (ha : CreateStatefulSet X p = .ok a)
    (hb : CreateStatefulSet X q = .ok b) :
    ∃ m n dm dn, newManifest X p = .ok m ∧ newManifest X q = .ok n ∧
      json.Marshal (runOnAfterCreate p.onAfterCreate m) = .ok dm ∧
      json.Marshal (runOnAfterCreate q.onAfterCreate n) = .ok dn ∧
      GetTemplateHash a = strconv.FormatUint (fnv.sum32 (stringBytes dm)) ∧
      GetTemplateHash b = strconv.FormatUint (fnv.sum32 (stringBytes dn)) ∧
      (((∃ k, ((runOnAfterCreate p.onAfterCreate m).Spec.Template.ObjectMeta.Annotations.getD
            []).get? k
          ≠ ((runOnAfterCreate q.onAfterCreate n).Spec.Template.ObjectMeta.Annotations.getD
            []).get? k) ∨
        (runOnAfterCreate p.onAfterCreate m).Spec.Template.Spec.Containers.map
            (fun c => (c.Env, c.Args))
          ≠ (runOnAfterCreate q.onAfterCreate n).Spec.Template.Spec.Containers.map
            (fun c => (c.Env, c.Args))) →
        dm ≠ dn ∧
        (HasStatefulSetChanged a b = true ∨
          fnv.sum32 (stringBytes dm) = fnv.sum32 (stringBytes dn))) ∧
      (HasStatefulSetChanged a b = true ↔
        fnv.sum32 (stringBytes dm) ≠ fnv.sum32 (stringBytes dn)) ∧
      (HasStatefulSetChanged a b = true →
        runOnAfterCreate p.onAfterCreate m ≠ runOnAfterCreate q.onAfterCreate n) ∧
      (p.onAfterCreate = [] → q.onAfterCreate = [] →
        (p.customPropertiesHash ≠ q.customPropertiesHash ∨ buildEnvs p ≠ buildEnvs q ∨
          buildArgs p ≠ buildArgs q) → dm ≠ dn) := by
  obtain ⟨m, dm, hm, hdm, hta⟩ := CreateStatefulSet_templateHash X p a ha
  obtain ⟨n, dn, hn, hdn, htb⟩ := CreateStatefulSet_templateHash X q b hb
  have hiff : HasStatefulSetChanged a b = true ↔
      fnv.sum32 (stringBytes dm) ≠ fnv.sum32 (stringBytes dn) := by
    simp only [HasStatefulSetChanged, bne_iff_ne, ne_eq, hta, htb]
    exact not_congr strconv.FormatUint_injective.eq_iff
  have hfields : ((∃ k,
        ((runOnAfterCreate p.onAfterCreate m).Spec.Template.ObjectMeta.Annotations.getD
          []).get? k
        ≠ ((runOnAfterCreate q.onAfterCreate n).Spec.Template.ObjectMeta.Annotations.getD
          []).get? k) ∨
      (runOnAfterCreate p.onAfterCreate m).Spec.Template.Spec.Containers.map
          (fun c => (c.Env, c.Args))
        ≠ (runOnAfterCreate q.onAfterCreate n).Spec.Template.Spec.Containers.map
          (fun c => (c.Env, c.Args))) → dm ≠ dn := by
    intro hdiff heq
    subst heq
    obtain ⟨h1, h2⟩ := json.Marshal_hashed_fields _ _ dm hdm hdn
    rcases hdiff with ⟨k, hk⟩ | hc
    · exact hk (h1 k)
    · exact hc h2
  refine ⟨m, n, dm, dn, hm, hn, hdm, hdn, hta, htb, ?_, hiff, ?_, ?_⟩
  · intro hdiff
    refine ⟨hfields hdiff, ?_⟩
    by_cases hc : fnv.sum32 (stringBytes dm) = fnv.sum32 (stringBytes dn)
    · exact Or.inr hc
    · exact Or.inl (hiff.2 hc)
  · intro hc heq
    apply hiff.1 hc
    rw [heq, hdn] at hdm
    injection hdm with hdd
    rw [hdd]
  · intro hp hq hdiff
    apply hfields
    obtain ⟨pv, hpv⟩ := buildVolumes_isOk X p
    obtain ⟨qv, hqv⟩ := buildVolumes_isOk X q
    obtain ⟨m', hm', _, _, _, _, _, _, _, _, _, _, hma, _, _, _, c, hc, hce, hca, _⟩ :=
      newManifest_eq X p _ pv (buildEnvs_eq p) hpv
    obtain ⟨n', hn', _, _, _, _, _, _, _, _, _, _, hna, _, _, _, d, hd, hde, hda, _⟩ :=
      newManifest_eq X q _ qv (buildEnvs_eq q) hqv
    rw [hm] at hm'
    injection hm' with hmm
    subst hmm
    rw [hn] at hn'
    injection hn' with hnn
    subst hnn
    rw [hp, hq]
    simp only [runOnAfterCreate, List.foldl_nil]
    rcases hdiff with hh | he | harg
    · left
      refine ⟨annotationCustomPropsHash, ?_⟩
      rw [hma, hna]
      simp only [Option.getD_some]
      have key : ∀ x y z : String, StringMap.get?
          [(annotationImageHash, x), (annotationImageVersion, y), (annotationCustomPropsHash, z)]
          annotationCustomPropsHash = some z := by
        intro x y z
        simp [StringMap.get?]
      rw [key, key]
      intro h
      injection h with h
      exact hh h
    · right
      rw [hc, hd]
      simp only [List.map_cons, List.map_nil, ne_eq, List.cons.injEq, Prod.mk.injEq, and_true,
        not_and]
      intro henv
      exfalso
      apply he
      rw [buildEnvs_eq p, buildEnvs_eq q, ← hce, ← hde, henv]
    · right
      rw [hc, hd]
      simp only [List.map_cons, List.map_nil, ne_eq, List.cons.injEq, Prod.mk.injEq, and_true,
        not_and]
      intro _ hargs
      apply harg
      rw [← hca, ← hda, hargs]

set_option maxRecDepth 100000 in
/-- Setting the proxy of the routing test changes the arguments of the
container: the serializations differ, and the change is reported. -/
theorem CreateStatefulSet_drift_witness :
    HasStatefulSetChanged testManifest proxyManifest = true ∧
    ∃ dm dn, dm ≠ dn ∧
      GetTemplateHash testManifest = strconv.FormatUint (fnv.sum32 (stringBytes dm)) ∧
      GetTemplateHash proxyManifest = strconv.FormatUint (fnv.sum32 (stringBytes dn)) := by
  obtain ⟨_, _, dm, dn, _, _, _, _, hta, htb, _, _, _, hq⟩ :=
    CreateStatefulSet_drift sampleExternals testProperties proxyProperties testManifest
      proxyManifest (by decide!) (by decide!)
  exact ⟨by decide!, dm, dn, hq rfl rfl (Or.inr (Or.inr (by decide))), hta, htb⟩

end capability
